import Mathlib

/-! Ethereum Trading MCP Server: fixed-point value model, swap quote engine,
balance and price queries, and the message router.

A shallow embedding of `pkg/decimal/decimal.go`, of `swap.go`, `balance.go`,
`price.go` and `client.go` in `internal/ethereum`, and of `handlers.go`,
`server.go` and `types.go` in `internal/mcp`, followed by theorems about them.

The Go code computes with the arbitrary-precision `Decimal` of the
shopspring decimal library and with `math/big` integers.  A `Decimal` is a
pair of an unbounded integer `value` and an `int32` exponent `exp` and denotes
`value * 10 ^ exp`.  The library operations the repository calls are embedded
below with their library semantics: `Mul`, `Add` and `Sub` are exact, `Div`
rounds the quotient half away from zero to `DivisionPrecision = 16` decimal
places, `BigInt` truncates toward zero, and `Mul` and `Div` panic when an
exponent leaves the `int32` range.  A Go panic is `none`, a Go `error` value is
an `Option String` (`none` is the nil error) or the `error` case of `Except`.
-/

/-- Arbitrary-precision decimal of the decimal library: the number
`value * 10 ^ exp`.  In Go `value` is a `*big.Int` and `exp` an `int32`. -/
structure Decimal where
  value : Int
  exp : Int
deriving DecidableEq, Repr

namespace Decimal

/-- Largest `int32`. -/
def MaxInt32 : Int := 2147483647

/-- Smallest `int32`. -/
def MinInt32 : Int := -2147483648

/-- Number of decimal places `Div` keeps when the quotient is not exact. -/
def DivisionPrecision : Int := 16

/-- The rational number a decimal denotes. -/
def toRat (d : Decimal) : ℚ := (d.value : ℚ) * (10 : ℚ) ^ d.exp

/-- Exponents a Go `Decimal` can hold: the `int32` range. -/
def WF (d : Decimal) : Prop := MinInt32 ≤ d.exp ∧ d.exp ≤ MaxInt32

instance (d : Decimal) : Decidable d.WF := by
  unfold WF; infer_instance

/-- Library constructor `New(value, exp)`. -/
def New (value : Int) (exp : Int) : Decimal := ⟨value, exp⟩

/-- Library constructor `NewFromInt(value)`. -/
def NewFromInt (value : Int) : Decimal := ⟨value, 0⟩

/-- Library constructor `NewFromBigInt(value, exp)`. -/
def NewFromBigInt (value : Int) (exp : Int) : Decimal := ⟨value, exp⟩

/-- Library variable `Zero = New(0, 1)`. -/
def Zero : Decimal := New 0 1

/-- Result of `NewFromFloat(0.5)`: the shortest decimal digits of the float
are `5` with the decimal point in front, giving `5 * 10 ^ (-1)`. -/
def NewFromFloat_0_5 : Decimal := ⟨5, -1⟩

/-- Result of `NewFromFloat(0.95)`: digits `95`, giving `95 * 10 ^ (-2)`. -/
def NewFromFloat_0_95 : Decimal := ⟨95, -2⟩

/-- Result of `NewFromFloat(0.97)`: digits `97`, giving `97 * 10 ^ (-2)`. -/
def NewFromFloat_0_97 : Decimal := ⟨97, -2⟩

/-- Result of `NewFromFloat(2000)`: the single digit `2` with the decimal
point four places in, giving `2 * 10 ^ 3`. -/
def NewFromFloat_2000 : Decimal := ⟨2, 3⟩

/-- Three-way comparison `big.Int.Cmp`: -1, 0 or 1 as `a` is less than, equal
to or greater than `b`, that is, the sign of `a - b`. -/
def cmpInt (a b : Int) : Int := Int.sign (a - b)

/-- Library `rescale`: the same number at exponent `exp`, truncating toward
zero when digits are dropped (`big.Int.Quo`). -/
def rescale (d : Decimal) (exp : Int) : Decimal :=
  if d.exp = exp then d
  else
    let diff := (exp - d.exp).natAbs
    let expScale : Int := 10 ^ diff
    if exp > d.exp then ⟨d.value.tdiv expScale, exp⟩
    else ⟨d.value * expScale, exp⟩

/-- Library `RescalePair`: both numbers at the smaller of the two exponents. -/
def RescalePair (d1 d2 : Decimal) : Decimal × Decimal :=
  if d1.exp = d2.exp then (d1, d2)
  else
    let baseScale := min d1.exp d2.exp
    if baseScale ≠ d1.exp then (d1.rescale baseScale, d2)
    else (d1, d2.rescale baseScale)

/-- Library `Cmp`: -1, 0 or 1. -/
def Cmp (d d2 : Decimal) : Int :=
  if d.exp = d2.exp then cmpInt d.value d2.value
  else
    let p := RescalePair d d2
    cmpInt p.1.value p.2.value

/-- Library `LessThan`. -/
def LessThan (d d2 : Decimal) : Bool := d.Cmp d2 == -1

/-- Library `LessThanOrEqual`. -/
def LessThanOrEqual (d d2 : Decimal) : Bool :=
  let cmp := d.Cmp d2
  cmp == -1 || cmp == 0

/-- Library `GreaterThan`. -/
def GreaterThan (d d2 : Decimal) : Bool := d.Cmp d2 == 1

/-- Library `Abs`. -/
def Abs (d : Decimal) : Decimal := ⟨d.value.natAbs, d.exp⟩

/-- Library `Add`: exact sum at the smaller exponent. -/
def Add (d d2 : Decimal) : Decimal :=
  let p := RescalePair d d2
  ⟨p.1.value + p.2.value, p.1.exp⟩

/-- Library `Sub`: exact difference at the smaller exponent. -/
def Sub (d d2 : Decimal) : Decimal :=
  let p := RescalePair d d2
  ⟨p.1.value - p.2.value, p.1.exp⟩

/-- Library `Mul`: exact product; panics when the summed exponent leaves the
`int32` range. -/
def Mul (d d2 : Decimal) : Option Decimal :=
  let expInt64 := d.exp + d2.exp
  if expInt64 > MaxInt32 ∨ expInt64 < MinInt32 then none
  else some ⟨d.value * d2.value, expInt64⟩

/-- Library `QuoRem`: quotient truncated toward zero at `precision` decimal
places, with the remainder; panics on a zero divisor or exponent overflow. -/
def QuoRem (d d2 : Decimal) (precision : Int) : Option (Decimal × Decimal) :=
  if d2.value = 0 then none
  else
    let scale := -precision
    let e := d.exp - d2.exp - scale
    if e > MaxInt32 ∨ e < MinInt32 then none
    else
      let aa : Int := if e < 0 then d.value else d.value * 10 ^ e.toNat
      let bb : Int := if e < 0 then d2.value * 10 ^ (-e).toNat else d2.value
      let scalerest : Int := if e < 0 then d.exp else scale + d2.exp
      some (⟨aa.tdiv bb, scale⟩, ⟨aa.tmod bb, scalerest⟩)

/-- Library `DivRound`: quotient rounded half away from zero at `precision`
decimal places. -/
def DivRound (d d2 : Decimal) (precision : Int) : Option Decimal :=
  match d.QuoRem d2 precision with
  | none => none
  | some (q, r) =>
    let rv2 : Int := (r.value.natAbs : Int) * 2
    let r2 : Decimal := ⟨rv2, r.exp + precision⟩
    let c := r2.Cmp d2.Abs
    if c < 0 then some q
    else if d.value.sign * d2.value.sign < 0 then some (q.Sub (New 1 (-precision)))
    else some (q.Add (New 1 (-precision)))

/-- Library `Div`: `DivRound` at `DivisionPrecision`. -/
def Div (d d2 : Decimal) : Option Decimal := d.DivRound d2 DivisionPrecision

/-- Library `BigInt`: the integer part, `rescale(0).value`. -/
def BigInt (d : Decimal) : Int := (d.rescale 0).value

/-- Library `Pow` at a natural-number exponent: the exact power, built with
the library `Mul`, starting from one. -/
def Pow (d : Decimal) : Nat → Option Decimal
  | 0 => some ⟨1, 0⟩
  | n + 1 => (d.Pow n).bind fun t => t.Mul d

end Decimal

/-! ## `pkg/decimal/decimal.go` -/

namespace decimal

/-- Source: `WeiPerETH = decimal.NewFromBigInt(big.NewInt(1e18), 0)`. -/
def WeiPerETH : Decimal := Decimal.NewFromBigInt 1000000000000000000 0

/-- Source: `FromWei`, wei to ETH. -/
def FromWei (wei : Int) : Option Decimal :=
  let weiDec := Decimal.NewFromBigInt wei 0
  weiDec.Div WeiPerETH

/-- Source: `ToWei`, ETH to wei. -/
def ToWei (eth : Decimal) : Option Int :=
  match eth.Mul WeiPerETH with
  | none => none
  | some wei => some wei.BigInt

/-- Source: `FormatBalance`.  The Go parameter `decimals` is an `int`; the
embedding covers its non-negative values. -/
def FormatBalance (balance : Int) (decimals : Nat) : Option Decimal :=
  match (Decimal.NewFromInt 10).Pow decimals with
  | none => none
  | some divisor =>
    let balanceDec := Decimal.NewFromBigInt balance 0
    balanceDec.Div divisor

end decimal

/-! ## go-ethereum `common`: addresses and hex strings -/

namespace common

/-- Length of an address in bytes. -/
def AddressLength : Nat := 20

/-- A Go `common.Address`, a `[20]byte`, kept as its list of bytes. -/
structure Address where
  bytes : List UInt8
deriving DecidableEq, Repr

/-- The zero value `common.Address{}`. -/
def Address.zero : Address := ⟨List.replicate AddressLength 0⟩

/-- The bytes of a Go string (its UTF-8 encoding). -/
def bytesOf (s : String) : List UInt8 := s.data.flatMap String.utf8EncodeChar

/-- Library `has0xPrefix`. -/
def has0xPrefix (str : List UInt8) : Bool :=
  match str with
  | a :: b :: _ => a == 48 && (b == 120 || b == 88)
  | _ => false

/-- Library `isHexCharacter`. -/
def isHexCharacter (c : UInt8) : Bool :=
  (48 ≤ c && c ≤ 57) || (97 ≤ c && c ≤ 102) || (65 ≤ c && c ≤ 70)

/-- Library `isHex`. -/
def isHex (str : List UInt8) : Bool :=
  if str.length % 2 ≠ 0 then false else str.all isHexCharacter

/-- Library `IsHexAddress`. -/
def IsHexAddress (s : String) : Bool :=
  let b := bytesOf s
  let b := if has0xPrefix b then b.drop 2 else b
  b.length == 2 * AddressLength && isHex b

/-- Value of one hex digit (`encoding/hex`), `none` for any other byte. -/
def fromHexChar (c : UInt8) : Option UInt8 :=
  if 48 ≤ c && c ≤ 57 then some (c - 48)
  else if 97 ≤ c && c ≤ 102 then some (c - 97 + 10)
  else if 65 ≤ c && c ≤ 70 then some (c - 65 + 10)
  else none

/-- Library `Hex2Bytes`: `hex.DecodeString` with the error dropped, so the
bytes decoded before the first invalid or unpaired digit. -/
def Hex2Bytes : List UInt8 → List UInt8
  | p :: q :: rest =>
    match fromHexChar p, fromHexChar q with
    | some a, some b => (a * 16 + b) :: Hex2Bytes rest
    | _, _ => []
  | _ => []

/-- Library `FromHex`. -/
def FromHex (s : List UInt8) : List UInt8 :=
  let s := if has0xPrefix s then s.drop 2 else s
  let s := if s.length % 2 = 1 then 48 :: s else s
  Hex2Bytes s

/-- Library `BytesToAddress`: the last 20 bytes, left-padded with zeros. -/
def BytesToAddress (b : List UInt8) : Address :=
  let b := if b.length > AddressLength then b.drop (b.length - AddressLength) else b
  ⟨List.replicate (AddressLength - b.length) 0 ++ b⟩

/-- Library `HexToAddress`. -/
def HexToAddress (s : String) : Address := BytesToAddress (FromHex (bytesOf s))

/-- The Go string made of the given bytes, for bytes below 128 (ASCII), one
character per byte. -/
def stringOf (b : List UInt8) : String := ⟨b.map fun c => Char.ofNat c.toNat⟩

/-- One lower-case hex digit (`encoding/hex`, table `0123456789abcdef`) of a
value below 16. -/
def hexDigit (n : UInt8) : UInt8 := if n < 10 then 48 + n else 87 + n

/-- Library `hex.Encode`: two lower-case hex digits for every byte. -/
def hexEncode : List UInt8 → List UInt8
  | [] => []
  | v :: rest => hexDigit (v >>> 4) :: hexDigit (v &&& 15) :: hexEncode rest

/-- Library `Address.hex`: `0x` followed by the 40 lower-case hex digits. -/
def Address.hex (a : Address) : List UInt8 := [48, 120] ++ hexEncode a.bytes

/-- Library `Address.checksumHex` (EIP-55): the digits of `hex`, where a
letter is turned to upper case when the matching half-byte of the Keccak-256
hash of the 40 digits is above 7.  The hash function of the crypto library is
the parameter `keccak256`. -/
def Address.checksumHex (keccak256 : List UInt8 → List UInt8) (a : Address) : List UInt8 :=
  let buf := a.hex
  let hash := keccak256 (buf.drop 2)
  buf.take 2 ++ (buf.drop 2).enum.map fun jc =>
    let hashByte := hash.getD (jc.1 / 2) 0
    let hashByte := if jc.1 % 2 = 0 then hashByte >>> 4 else hashByte &&& 15
    if jc.2 > 57 && hashByte > 7 then jc.2 - 32 else jc.2

/-- Library `Address.Hex`: the checksummed hex string. -/
def Address.Hex (keccak256 : List UInt8 → List UInt8) (a : Address) : String :=
  stringOf (a.checksumHex keccak256)

end common

/-! ## `internal/ethereum` -/

namespace ethereum

open common

/-- Source: `EthereumConfig` (`client.go`). -/
structure EthereumConfig where
  RPCEndpoint : String
  ChainID : Int
  UniswapV2Router : String
  UniswapV3Router : String
  WETHAddress : String

/-- Message of an `eth_estimateGas` call (`ethereum.CallMsg`). -/
structure CallMsg where
  From : Address
  To : Option Address
  Value : Int
  Data : List UInt8
deriving DecidableEq, Repr

/-- The node behind `ec.client`: what its calls used by the swap engine and
by the balance query answer.  A gas estimate is a `uint64`; `BalanceAt` is
asked at the latest block. -/
structure Node where
  EstimateGas : CallMsg → Except String Nat
  SuggestGasPrice : Except String Int
  BalanceAt : Address → Except String Int

/-- Source: `EthereumClient` (`client.go`); of the wallet manager only its
address is used here. -/
structure EthereumClient where
  client : Node
  walletAddress : Address
  config : EthereumConfig

/-- Calls that leave the swap engine, recorded in the order they are made. -/
inductive Call where
  | getTokenAddresses (fromToken toToken : String)
  | EstimateGas (msg : CallMsg)
  | GetGasPrice
deriving DecidableEq, Repr

/-- Source: `SwapRequest`. -/
structure SwapRequest where
  FromToken : String
  ToToken : String
  Amount : Decimal
  SlippageTolerance : Decimal
  UseV3 : Bool
deriving DecidableEq, Repr

/-- Source: `SwapResponse`; `GasEstimate` is a `uint64`, `Error` a `*string`. -/
structure SwapResponse where
  FromToken : String
  ToToken : String
  InputAmount : Decimal
  EstimatedOutput : Decimal
  MinOutput : Decimal
  GasEstimate : Nat
  GasPrice : Decimal
  GasCostUSD : Decimal
  Slippage : Decimal
  Router : String
  Success : Bool
  Error : Option String
deriving DecidableEq, Repr

/-- The literal `&SwapResponse{Success: false, Error: stringPtr(msg)}`: every
other field has its zero value. -/
def failedResponse (msg : String) : SwapResponse :=
  { FromToken := "", ToToken := "", InputAmount := ⟨0, 0⟩, EstimatedOutput := ⟨0, 0⟩,
    MinOutput := ⟨0, 0⟩, GasEstimate := 0, GasPrice := ⟨0, 0⟩, GasCostUSD := ⟨0, 0⟩,
    Slippage := ⟨0, 0⟩, Router := "", Success := false, Error := some msg }

/-- How a Go call with result type `(T, error)` ends. -/
inductive Outcome (α : Type) where
  | ok (a : α)
  | error (msg : String)
  | panic
deriving DecidableEq, Repr

/-- Source: `validateSwapRequest`; `none` is the nil error. -/
def validateSwapRequest (req : SwapRequest) : Option String :=
  if req.Amount.LessThanOrEqual Decimal.Zero then
    some "amount must be positive"
  else if req.SlippageTolerance.LessThan Decimal.Zero
      || req.SlippageTolerance.GreaterThan Decimal.NewFromFloat_0_5 then
    some "slippage tolerance must be between 0 and 0.5 (50%)"
  else if req.FromToken == "" || req.ToToken == "" then
    some "from_token and to_token are required"
  else none

/-- Source: `getTokenAddressBySymbol` (`price.go`), the static symbol table. -/
def getTokenAddressBySymbol (symbol : String) : Address :=
  if symbol = "USDC" then HexToAddress "0xA0b86991c6218b36c1d19D4a2e9Eb0cE3606eB48"
  else if symbol = "USDT" then HexToAddress "0xdAC17F958D2ee523a2206206994597C13D831ec7"
  else if symbol = "DAI" then HexToAddress "0x6B175474E89094C44Da98b954EedeAC495271d0F"
  else if symbol = "WBTC" then HexToAddress "0x2260FAC5E5542a773Aa44fBCfeDf7C193bc2C599"
  else if symbol = "UNI" then HexToAddress "0x1f9840a85d5aF5bf1D1762F925BDADdC4201F984"
  else if symbol = "LINK" then HexToAddress "0x514910771AF9Ca656af840dff83E8264EcF986CA"
  else if symbol = "AAVE" then HexToAddress "0x7Fc66500c84A76Ad7e9c93437bFc5Ac33E2DDaE9"
  else HexToAddress "0x0000000000000000000000000000000000000000"

/-- Source: `getTokenAddresses`. -/
def getTokenAddresses (ec : EthereumClient) (fromToken toToken : String) :
    Except String (Address × Address) :=
  let fromRes : Except String Address :=
    if fromToken = "ETH" then .ok (HexToAddress ec.config.WETHAddress)
    else if IsHexAddress fromToken then .ok (HexToAddress fromToken)
    else
      let fromAddr := getTokenAddressBySymbol fromToken
      if fromAddr = Address.zero then .error ("unknown from token: " ++ fromToken)
      else .ok fromAddr
  match fromRes with
  | .error e => .error e
  | .ok fromAddr =>
    let toRes : Except String Address :=
      if toToken = "ETH" then .ok (HexToAddress ec.config.WETHAddress)
      else if IsHexAddress toToken then .ok (HexToAddress toToken)
      else
        let toAddr := getTokenAddressBySymbol toToken
        if toAddr = Address.zero then .error ("unknown to token: " ++ toToken)
        else .ok toAddr
    match toRes with
    | .error e => .error e
    | .ok toAddr => .ok (fromAddr, toAddr)

/-- Source: `buildV2SwapExactETHForTokens`, a stub returning no bytes. -/
def buildV2SwapExactETHForTokens (_amountIn : Int) (_toToken : Address) : List UInt8 := []

/-- Source: `buildV2SwapExactTokensForETH`, a stub returning no bytes. -/
def buildV2SwapExactTokensForETH (_amountIn : Int) (_fromToken : Address) : List UInt8 := []

/-- Source: `buildV2SwapExactTokensForTokens`, a stub returning no bytes. -/
def buildV2SwapExactTokensForTokens (_amountIn : Int) (_fromToken _toToken : Address) :
    List UInt8 := []

/-- Source: `buildV3SwapData`, a stub returning no bytes. -/
def buildV3SwapData (_amountIn : Int) (_fromToken _toToken : Address) : List UInt8 := []

/-- Source: `estimateV2Output`. -/
def estimateV2Output (_fromToken _toToken : Address) (amountIn : Int) : Option Decimal :=
  match decimal.FromWei amountIn with
  | none => none
  | some x => Decimal.NewFromFloat_0_95.Mul x

/-- Source: `estimateV3Output`. -/
def estimateV3Output (_fromToken _toToken : Address) (amountIn : Int) : Option Decimal :=
  match decimal.FromWei amountIn with
  | none => none
  | some x => Decimal.NewFromFloat_0_97.Mul x

/-- Go conversion `int64(x)` of a `uint64`: the value modulo `2 ^ 64`, read as
a signed 64-bit integer. -/
def toInt64 (x : Nat) : Int :=
  let m : Nat := x % 2 ^ 64
  if m < 2 ^ 63 then (m : Int) else (m : Int) - 2 ^ 64

/-- Source: `calculateGasCostUSD`. -/
def calculateGasCostUSD (gasEstimate : Nat) (gasPrice : Int) : Option Decimal :=
  let ethPrice := Decimal.NewFromFloat_2000
  match decimal.FromWei (gasPrice * toInt64 gasEstimate) with
  | none => none
  | some gasCostETH => gasCostETH.Mul ethPrice

/-- Source: `EstimateGas` (`client.go`). -/
def EthereumClient.EstimateGas (ec : EthereumClient) (src : Address) (dst : Option Address)
    (value : Int) (data : List UInt8) : Except String Nat :=
  ec.client.EstimateGas ⟨src, dst, value, data⟩

/-- Source: `GetGasPrice` (`client.go`). -/
def EthereumClient.GetGasPrice (ec : EthereumClient) : Except String Int :=
  ec.client.SuggestGasPrice

/-- Source: `simulateUniswapV2Swap`, with the calls it makes. -/
def simulateUniswapV2Swap (ec : EthereumClient) (req : SwapRequest)
    (fromToken toToken : Address) : Outcome SwapResponse × List Call :=
  let routerAddress := HexToAddress ec.config.UniswapV2Router
  match decimal.ToWei req.Amount with
  | none => (.panic, [])
  | some amountIn =>
    let data :=
      if fromToken = HexToAddress ec.config.WETHAddress then
        buildV2SwapExactETHForTokens amountIn toToken
      else if toToken = HexToAddress ec.config.WETHAddress then
        buildV2SwapExactTokensForETH amountIn fromToken
      else
        buildV2SwapExactTokensForTokens amountIn fromToken toToken
    let c1 := Call.EstimateGas ⟨ec.walletAddress, some routerAddress, 0, data⟩
    match ec.EstimateGas ec.walletAddress (some routerAddress) 0 data with
    | .error err => (.error ("failed to estimate gas: " ++ err), [c1])
    | .ok gasEstimate =>
      match ec.GetGasPrice with
      | .error err => (.error ("failed to get gas price: " ++ err), [c1, Call.GetGasPrice])
      | .ok gasPrice =>
        match estimateV2Output fromToken toToken amountIn with
        | none => (.panic, [c1, Call.GetGasPrice])
        | some estimatedOutput =>
          match estimatedOutput.Mul ((Decimal.NewFromInt 1).Sub req.SlippageTolerance) with
          | none => (.panic, [c1, Call.GetGasPrice])
          | some minOutput =>
            match calculateGasCostUSD gasEstimate gasPrice with
            | none => (.panic, [c1, Call.GetGasPrice])
            | some gasCostUSD =>
              match decimal.FromWei gasPrice with
              | none => (.panic, [c1, Call.GetGasPrice])
              | some gasPriceDec =>
                (.ok { FromToken := req.FromToken, ToToken := req.ToToken,
                       InputAmount := req.Amount, EstimatedOutput := estimatedOutput,
                       MinOutput := minOutput, GasEstimate := gasEstimate,
                       GasPrice := gasPriceDec, GasCostUSD := gasCostUSD,
                       Slippage := req.SlippageTolerance, Router := "Uniswap V2",
                       Success := true, Error := none }, [c1, Call.GetGasPrice])

/-- Source: `simulateUniswapV3Swap`, with the calls it makes. -/
def simulateUniswapV3Swap (ec : EthereumClient) (req : SwapRequest)
    (fromToken toToken : Address) : Outcome SwapResponse × List Call :=
  let routerAddress := HexToAddress ec.config.UniswapV3Router
  match decimal.ToWei req.Amount with
  | none => (.panic, [])
  | some amountIn =>
    let data := buildV3SwapData amountIn fromToken toToken
    let c1 := Call.EstimateGas ⟨ec.walletAddress, some routerAddress, 0, data⟩
    match ec.EstimateGas ec.walletAddress (some routerAddress) 0 data with
    | .error err => (.error ("failed to estimate gas: " ++ err), [c1])
    | .ok gasEstimate =>
      match ec.GetGasPrice with
      | .error err => (.error ("failed to get gas price: " ++ err), [c1, Call.GetGasPrice])
      | .ok gasPrice =>
        match estimateV3Output fromToken toToken amountIn with
        | none => (.panic, [c1, Call.GetGasPrice])
        | some estimatedOutput =>
          match estimatedOutput.Mul ((Decimal.NewFromInt 1).Sub req.SlippageTolerance) with
          | none => (.panic, [c1, Call.GetGasPrice])
          | some minOutput =>
            match calculateGasCostUSD gasEstimate gasPrice with
            | none => (.panic, [c1, Call.GetGasPrice])
            | some gasCostUSD =>
              match decimal.FromWei gasPrice with
              | none => (.panic, [c1, Call.GetGasPrice])
              | some gasPriceDec =>
                (.ok { FromToken := req.FromToken, ToToken := req.ToToken,
                       InputAmount := req.Amount, EstimatedOutput := estimatedOutput,
                       MinOutput := minOutput, GasEstimate := gasEstimate,
                       GasPrice := gasPriceDec, GasCostUSD := gasCostUSD,
                       Slippage := req.SlippageTolerance, Router := "Uniswap V3",
                       Success := true, Error := none }, [c1, Call.GetGasPrice])

/-- Source: `SwapTokens`, with the calls it makes.  The Go function always
returns a nil error: `Outcome.ok` carries the returned quote. -/
def SwapTokens (ec : EthereumClient) (req : SwapRequest) : Outcome SwapResponse × List Call :=
  match validateSwapRequest req with
  | some err => (.ok (failedResponse err), [])
  | none =>
    let c0 := Call.getTokenAddresses req.FromToken req.ToToken
    match getTokenAddresses ec req.FromToken req.ToToken with
    | .error err => (.ok (failedResponse err), [c0])
    | .ok (fromTokenAddr, toTokenAddr) =>
      let r :=
        if req.UseV3 then simulateUniswapV3Swap ec req fromTokenAddr toTokenAddr
        else simulateUniswapV2Swap ec req fromTokenAddr toTokenAddr
      match r.1 with
      | .error err => (.ok (failedResponse err), c0 :: r.2)
      | .panic => (.panic, c0 :: r.2)
      | .ok result => (.ok result, c0 :: r.2)

/-- Source: `ValidateAddress` (`client.go`). -/
def ValidateAddress (address : String) : Except String Address :=
  if !IsHexAddress address then .error ("invalid Ethereum address: " ++ address)
  else .ok (HexToAddress address)

/-- Source: `BalanceResponse` (`balance.go`); the three `*string` fields are
options. -/
structure BalanceResponse where
  Address : String
  TokenAddress : Option String
  Balance : Decimal
  Decimals : Int
  Symbol : Option String
  Name : Option String
  IsETH : Bool
deriving DecidableEq, Repr

/-- Source: `ERC20Caller`, as what its four calls answer; `Decimals` is a
`uint8`. -/
structure ERC20Caller where
  BalanceOf : Address → Except String Int
  Decimals : Except String Nat
  Symbol : Except String String
  Name : Except String String

/-- Source: `NewERC20Caller` with the four methods of the caller it returns:
balance 0, 18 decimals, empty symbol and name, never an error. -/
def NewERC20Caller (_address : Address) (_client : Node) : Except String ERC20Caller :=
  .ok { BalanceOf := fun _ => .ok 0, Decimals := .ok 18, Symbol := .ok "", Name := .ok "" }

/-- Source: `getERC20Balance`. -/
def getERC20Balance (ec : EthereumClient) (address tokenAddress : Address) :
    Except String (Int × Nat × Option String × Option String) :=
  match NewERC20Caller tokenAddress ec.client with
  | .error err => .error ("failed to create token caller: " ++ err)
  | .ok token =>
    match token.BalanceOf address with
    | .error err => .error ("failed to get token balance: " ++ err)
    | .ok balance =>
      let decimals : Nat :=
        match token.Decimals with
        | .error _ => 18
        | .ok d => d
      let symbolPtr : Option String :=
        match token.Symbol with
        | .error _ => none
        | .ok symbol => some symbol
      let namePtr : Option String :=
        match token.Name with
        | .error _ => none
        | .ok name => some name
      .ok (balance, decimals, symbolPtr, namePtr)

/-- Source: `GetBalance`; `keccak256` is the hash function `Address.Hex`
uses. -/
def GetBalance (keccak256 : List UInt8 → List UInt8) (ec : EthereumClient)
    (addressStr : String) (tokenAddressStr : Option String) : Outcome BalanceResponse :=
  match ValidateAddress addressStr with
  | .error err => .error err
  | .ok address =>
    match tokenAddressStr with
    | none =>
      match ec.client.BalanceAt address with
      | .error err => .error ("failed to get ETH balance: " ++ err)
      | .ok balance =>
        match decimal.FromWei balance with
        | none => .panic
        | some bal =>
          .ok { Address := address.Hex keccak256, TokenAddress := none, Balance := bal,
                Decimals := 18, Symbol := some "ETH", Name := some "Ethereum",
                IsETH := true }
    | some tokenStr =>
      match ValidateAddress tokenStr with
      | .error err => .error err
      | .ok tokenAddress =>
        match getERC20Balance ec address tokenAddress with
        | .error err => .error err
        | .ok (balance, decimals, symbol, name) =>
          match decimal.FormatBalance balance decimals with
          | none => .panic
          | some bal =>
            .ok { Address := address.Hex keccak256,
                  TokenAddress := some (tokenAddress.Hex keccak256), Balance := bal,
                  Decimals := decimals, Symbol := symbol, Name := name, IsETH := false }

end ethereum

/-! ## Decimal strings: library `NewFromString` -/

namespace Decimal

/-- Base-10 integer syntax of `strconv.ParseInt` and `big.Int.SetString`: an
optional sign followed by one or more decimal digits; `none` for any other
text. -/
def parseInt (s : List Char) : Option Int :=
  let neg := s.head? == some '-'
  let digits := if s.head? == some '-' || s.head? == some '+' then s.drop 1 else s
  if digits.isEmpty || !digits.all Char.isDigit then none
  else
    let n : Nat := digits.foldl (fun acc c => 10 * acc + (c.toNat - 48)) 0
    some (if neg then -(n : Int) else (n : Int))

/-- Library `NewFromString`: an optional exponent after `e` or `E`, at most
one decimal point, and the remaining characters read as an integer; the
exponent is lowered by the number of digits after the point and has to fit
an `int32`. -/
def NewFromString (value : String) : Except String Decimal :=
  let originalInput := value
  let split := value.data.span fun c => c != 'E' && c != 'e'
  let expRes : Except String Int :=
    match split.2 with
    | [] => .ok 0
    | _ :: expChars =>
      match parseInt expChars with
      | none => .error ("can't convert " ++ value ++ " to decimal: exponent is not numeric")
      | some expInt =>
        if expInt < MinInt32 ∨ expInt > MaxInt32 then
          .error ("can't convert " ++ value ++ " to decimal: fractional part too long")
        else .ok expInt
  match expRes with
  | .error err => .error err
  | .ok exp0 =>
    let value : String := ⟨split.1⟩
    if (split.1.filter fun c => c == '.').length > 1 then
      .error ("can't convert " ++ value ++ " to decimal: too many .s")
    else
      let parts := split.1.span fun c => c != '.'
      let intString := parts.1 ++ parts.2.drop 1
      let exp : Int := exp0 - ((parts.2.drop 1).length : Int)
      match parseInt intString with
      | none => .error ("can't convert " ++ value ++ " to decimal")
      | some dValue =>
        if exp < MinInt32 ∨ exp > MaxInt32 then
          .error ("can't convert " ++ originalInput ++ " to decimal: fractional part too long")
        else .ok ⟨dValue, exp⟩

end Decimal

namespace decimal

/-- Source: `ParseDecimal`. -/
def ParseDecimal (value : String) : Except String Decimal := Decimal.NewFromString value

end decimal

/-! ## `internal/mcp/types.go` -/

namespace mcp

/-- A value of Go type `interface{}` as `encoding/json` decodes it: `nil`, a
`bool`, a `float64` (kept as the text of the number), a `string`, a
`[]interface{}` or a `map[string]interface{}`. -/
inductive Json where
  | null
  | bool (b : Bool)
  | number (text : String)
  | str (s : String)
  | arr (items : List Json)
  | obj (fields : List (String × Json))

/-- What the `Params` field of a message holds: a value decoded from JSON, or
bytes of type `json.RawMessage`, which only Go code can put there. -/
inductive ParamsValue where
  | json (v : Json)
  | raw (bytes : List UInt8)

/-- Source: `MCPError`; `Data` is absent or the text of an error. -/
structure MCPError where
  Code : Int
  Message : String
  Data : Option String

/-- Source: `ClientInfo`. -/
structure ClientInfo where
  Name : String
  Version : String

/-- Source: `InitializeParams`; `ClientInfo` is a pointer. -/
structure InitializeParams where
  ProtocolVersion : String
  Capabilities : Json
  ClientInfo : Option ClientInfo

/-- Source: `ServerInfo`. -/
structure ServerInfo where
  Name : String
  Version : String

/-- Source: `InitializeResult`. -/
structure InitializeResult where
  ProtocolVersion : String
  Capabilities : Json
  ServerInfo : Option ServerInfo

/-- Source: `ToolDefinition`. -/
structure ToolDefinition where
  Name : String
  Description : String
  InputSchema : Json

/-- Source: `CallToolParams`; the map is kept as its list of entries. -/
structure CallToolParams where
  Name : String
  Arguments : List (String × Json)

/-- Source: `ToolContent`; the field `Type_` is the Go field `Type`. -/
structure ToolContent where
  Type_ : String
  Text : String
  Data : List (String × Json)

/-- Source: `ToolResult`. -/
structure ToolResult where
  Content : List ToolContent
  IsError : Bool

/-- What the `Result` field of a response holds: the result of the handshake,
the map with the single key `tools`, or the result of a tool. -/
inductive ResultValue where
  | init (r : InitializeResult)
  | tools (t : List ToolDefinition)
  | tool (r : ToolResult)

/-- Source: `MCPMessage`.  `ID` is `Json.null` when the message has no id;
`Params` is `ParamsValue.json Json.null` when it has none. -/
structure MCPMessage where
  JSONRPC : String
  ID : Json
  Method : String
  Params : ParamsValue
  Result : Option ResultValue
  Error : Option MCPError

end mcp

/-! ## `internal/ethereum/price.go` -/

namespace ethereum

open common

/-- Source: `PriceResponse`; `LastUpdated` is an instant, kept as a number. -/
structure PriceResponse where
  TokenAddress : String
  Symbol : String
  PriceUSD : Decimal
  PriceETH : Decimal
  LastUpdated : Int
  Source : String
deriving DecidableEq, Repr

end ethereum

/-- Functions of libraries and of the outside world whose answers the
repository passes along: the Keccak-256 hash, the clock, the price service
(the answer to a `GET` of a URL decoded as `map[string]map[string]float64`
with every price converted by `NewFromFloat`, or the error of the request,
the read or the decoding), `json.Unmarshal` into the two parameter types,
`json.MarshalIndent` of the three answers, and the `String` and `StringFixed`
renderings of a decimal. -/
structure Externals where
  Keccak256 : List UInt8 → List UInt8
  Now : Int
  HTTPGetPrices : String → Except String (List (String × List (String × Decimal)))
  UnmarshalInitializeParams : List UInt8 → Except String mcp.InitializeParams
  UnmarshalCallToolParams : List UInt8 → Except String mcp.CallToolParams
  MarshalIndentBalance : ethereum.BalanceResponse → Except String String
  MarshalIndentPrice : ethereum.PriceResponse → Except String String
  MarshalIndentSwap : ethereum.SwapResponse → Except String String
  DecimalString : Decimal → String
  DecimalStringFixed : Decimal → Int → String

namespace ethereum

open common

/-- Source: `getCoinGeckoID`. -/
def getCoinGeckoID (symbol : String) : String :=
  if symbol = "ETH" then "ethereum"
  else if symbol = "USDC" then "usd-coin"
  else if symbol = "USDT" then "tether"
  else if symbol = "DAI" then "dai"
  else if symbol = "WBTC" then "wrapped-bitcoin"
  else if symbol = "UNI" then "uniswap"
  else if symbol = "LINK" then "chainlink"
  else if symbol = "AAVE" then "aave"
  else symbol

/-- Source: `fetchPriceFromCoinGecko`. -/
def fetchPriceFromCoinGecko (ext : Externals) (symbol : String) :
    Except String (Decimal × Decimal) :=
  let coinID := getCoinGeckoID symbol
  let url := "https://api.coingecko.com/api/v3/simple/price?ids=" ++ coinID
    ++ "&vs_currencies=usd,eth"
  match ext.HTTPGetPrices url with
  | .error err => .error err
  | .ok result =>
    match result.lookup coinID with
    | none => .error ("coin " ++ symbol ++ " not found")
    | some coinData =>
      match coinData.lookup "usd", coinData.lookup "eth" with
      | some usdPrice, some ethPrice => .ok (usdPrice, ethPrice)
      | _, _ => .error ("price data incomplete for " ++ symbol)

/-- Source: `GetTokenPrice`. -/
def GetTokenPrice (ext : Externals) (_ec : EthereumClient) (tokenIdentifier : String) :
    Except String PriceResponse :=
  let resolved : Address × String :=
    if tokenIdentifier = "ETH"
        ∨ tokenIdentifier = "0x0000000000000000000000000000000000000000" then
      (HexToAddress "0x0000000000000000000000000000000000000000", "ETH")
    else if IsHexAddress tokenIdentifier then
      (HexToAddress tokenIdentifier, "UNKNOWN")
    else
      (getTokenAddressBySymbol tokenIdentifier, tokenIdentifier)
  match fetchPriceFromCoinGecko ext resolved.2 with
  | .error err => .error ("failed to fetch price: " ++ err)
  | .ok (priceUSD, priceETH) =>
    .ok { TokenAddress := resolved.1.Hex ext.Keccak256, Symbol := resolved.2,
          PriceUSD := priceUSD, PriceETH := priceETH, LastUpdated := ext.Now,
          Source := "coingecko" }

end ethereum

/-! ## `internal/mcp/handlers.go` -/

namespace mcp

open ethereum

/-- Source: `MCPHandler`. -/
structure MCPHandler where
  ethClient : EthereumClient
  tools : List ToolDefinition

/-- A schema entry `map[string]interface{}{"type": ty, "description": text}`. -/
def schemaProperty (ty text : String) : Json :=
  .obj [("type", .str ty), ("description", .str text)]

/-- Source: `registerTools`. -/
def MCPHandler.registerTools (h : MCPHandler) : MCPHandler :=
  { h with tools :=
    [ { Name := "get_balance",
        Description := "Query ETH and ERC20 token balances for a wallet address",
        InputSchema := .obj
          [("type", .str "object"),
           ("properties", .obj
             [("address", schemaProperty "string" "Ethereum wallet address"),
              ("token_address",
                schemaProperty "string" "Optional ERC20 token contract address")]),
           ("required", .arr [.str "address"])] },
      { Name := "get_token_price",
        Description := "Get current token price in USD or ETH",
        InputSchema := .obj
          [("type", .str "object"),
           ("properties", .obj
             [("token_identifier", schemaProperty "string"
                "Token address or symbol (e.g., 'ETH', 'USDC', '0xA0b86991c6218b36c1d19D4a2e9Eb0cE3606eB48')")]),
           ("required", .arr [.str "token_identifier"])] },
      { Name := "swap_tokens",
        Description := "Simulate a token swap on Uniswap V2 or V3",
        InputSchema := .obj
          [("type", .str "object"),
           ("properties", .obj
             [("from_token", schemaProperty "string" "Source token address or symbol"),
              ("to_token", schemaProperty "string" "Destination token address or symbol"),
              ("amount", schemaProperty "string"
                "Amount to swap (as string to preserve precision)"),
              ("slippage_tolerance", schemaProperty "string"
                "Slippage tolerance as decimal (e.g., '0.01' for 1%)"),
              ("use_v3", schemaProperty "boolean"
                "Whether to use Uniswap V3 (defaults to V2)")]),
           ("required", .arr [.str "from_token", .str "to_token", .str "amount"])] } ] }

/-- Source: `NewMCPHandler`. -/
def NewMCPHandler (ethClient : EthereumClient) : MCPHandler :=
  MCPHandler.registerTools { ethClient := ethClient, tools := [] }

/-- Source: `HandleInitialize`.  The log line reads `params.ClientInfo.Name`
through the pointer: a nil `ClientInfo` panics (`none`). -/
def MCPHandler.HandleInitialize (_h : MCPHandler) (params : InitializeParams) :
    Option InitializeResult :=
  match params.ClientInfo with
  | none => none
  | some _ =>
    some { ProtocolVersion := "2024-11-05",
           Capabilities := .obj [("tools", .obj [("listChanged", .bool true)])],
           ServerInfo := some { Name := "Ethereum Trading MCP Server", Version := "1.0.0" } }

/-- Source: `HandleListTools`. -/
def MCPHandler.HandleListTools (h : MCPHandler) : List ToolDefinition := h.tools

/-- The Go expression `args[key].(string)` with its `ok`: the entry when it is
present and a string. -/
def argString (args : List (String × Json)) (key : String) : Option String :=
  match args.lookup key with
  | some (.str s) => some s
  | _ => none

/-- The Go expression `args[key].(bool)` with its `ok`. -/
def argBool (args : List (String × Json)) (key : String) : Option Bool :=
  match args.lookup key with
  | some (.bool b) => some b
  | _ => none

/-- Source: `handleGetBalance`. -/
def MCPHandler.handleGetBalance (ext : Externals) (h : MCPHandler)
    (args : List (String × Json)) : Outcome ToolResult :=
  match argString args "address" with
  | none => .error "address is required and must be a string"
  | some address =>
    let tokenAddress : Option String := argString args "token_address"
    match GetBalance ext.Keccak256 h.ethClient address tokenAddress with
    | .panic => .panic
    | .error err =>
      .ok { Content := [{ Type_ := "text", Text := "Error getting balance: " ++ err, Data := [] }],
            IsError := true }
    | .ok balance =>
      match ext.MarshalIndentBalance balance with
      | .error err => .error ("failed to marshal balance: " ++ err)
      | .ok balanceJSON =>
        .ok { Content := [{ Type_ := "text", Text := "Balance for " ++ address ++ ":", Data := [] },
                          { Type_ := "text", Text := balanceJSON, Data := [] }],
              IsError := false }

/-- Source: `handleGetTokenPrice`. -/
def MCPHandler.handleGetTokenPrice (ext : Externals) (h : MCPHandler)
    (args : List (String × Json)) : Outcome ToolResult :=
  match argString args "token_identifier" with
  | none => .error "token_identifier is required and must be a string"
  | some tokenIdentifier =>
    match GetTokenPrice ext h.ethClient tokenIdentifier with
    | .error err =>
      .ok { Content := [{ Type_ := "text", Text := "Error getting token price: " ++ err,
                          Data := [] }],
            IsError := true }
    | .ok price =>
      match ext.MarshalIndentPrice price with
      | .error err => .error ("failed to marshal price: " ++ err)
      | .ok priceJSON =>
        .ok { Content := [{ Type_ := "text", Text := "Price for " ++ tokenIdentifier ++ ":",
                            Data := [] },
                          { Type_ := "text", Text := priceJSON, Data := [] }],
              IsError := false }

/-- Source: `handleSwapTokens`.  The Go error of `SwapTokens` is the `error`
case of its outcome; reading `*result.Error` through a nil pointer panics. -/
def MCPHandler.handleSwapTokens (ext : Externals) (h : MCPHandler)
    (args : List (String × Json)) : Outcome ToolResult :=
  match argString args "from_token" with
  | none => .error "from_token is required and must be a string"
  | some fromToken =>
    match argString args "to_token" with
    | none => .error "to_token is required and must be a string"
    | some toToken =>
      match argString args "amount" with
      | none => .error "amount is required and must be a string"
      | some amountStr =>
        match decimal.ParseDecimal amountStr with
        | .error err => .error ("invalid amount format: " ++ err)
        | .ok amount =>
          let slippageStr : String :=
            match argString args "slippage_tolerance" with
            | some s => s
            | none => "0.01"
          match decimal.ParseDecimal slippageStr with
          | .error err => .error ("invalid slippage_tolerance format: " ++ err)
          | .ok slippage =>
            let useV3 : Bool :=
              match argBool args "use_v3" with
              | some v3 => v3
              | none => false
            let req : SwapRequest :=
              { FromToken := fromToken, ToToken := toToken, Amount := amount,
                SlippageTolerance := slippage, UseV3 := useV3 }
            match (SwapTokens h.ethClient req).1 with
            | .panic => .panic
            | .error err =>
              .ok { Content := [{ Type_ := "text", Text := "Error simulating swap: " ++ err,
                                  Data := [] }],
                    IsError := true }
            | .ok result =>
              match ext.MarshalIndentSwap result with
              | .error err => .error ("failed to marshal swap result: " ++ err)
              | .ok resultJSON =>
                let text : Option String :=
                  if result.Success then
                    some ("Swap simulation successful:\nInput: "
                      ++ ext.DecimalString result.InputAmount ++ " " ++ result.FromToken
                      ++ "\nEstimated Output: " ++ ext.DecimalString result.EstimatedOutput
                      ++ " " ++ result.ToToken
                      ++ "\nGas Cost: ~$" ++ ext.DecimalStringFixed result.GasCostUSD 2)
                  else
                    result.Error.map fun e => "Swap simulation failed: " ++ e
                match text with
                | none => .panic
                | some text =>
                  .ok { Content := [{ Type_ := "text", Text := text, Data := [] },
                                    { Type_ := "text", Text := resultJSON, Data := [] }],
                        IsError := false }

/-- Source: `HandleCallTool`. -/
def MCPHandler.HandleCallTool (ext : Externals) (h : MCPHandler) (params : CallToolParams) :
    Outcome ToolResult :=
  if params.Name = "get_balance" then h.handleGetBalance ext params.Arguments
  else if params.Name = "get_token_price" then h.handleGetTokenPrice ext params.Arguments
  else if params.Name = "swap_tokens" then h.handleSwapTokens ext params.Arguments
  else .error ("unknown tool: " ++ params.Name)

end mcp

/-! ## `internal/mcp/server.go` -/

namespace mcp

open ethereum

/-- Source: `MCPServer`; `output` is the sequence of messages the encoder has
written to the output stream. -/
structure MCPServer where
  handler : MCPHandler
  output : List MCPMessage

/-- Source: `NewMCPServer`. -/
def NewMCPServer (ethClient : EthereumClient) : MCPServer :=
  { handler := NewMCPHandler ethClient, output := [] }

/-- Source: `sendMessage`: the message is encoded to the output stream, which
accepts every write, so the returned error is nil (`none`). -/
def MCPServer.sendMessage (s : MCPServer) (msg : MCPMessage) : MCPServer × Option String :=
  ({ s with output := s.output ++ [msg] }, none)

/-- Source: `handleInitialize`; the type assertion `msg.Params.(json.RawMessage)`
panics (`none`) when `Params` holds anything else. -/
def MCPServer.handleInitialize (ext : Externals) (s : MCPServer) (msg : MCPMessage) :
    Option MCPMessage :=
  match msg.Params with
  | .json _ => none
  | .raw bytes =>
    match ext.UnmarshalInitializeParams bytes with
    | .error err =>
      some { JSONRPC := "2.0", ID := msg.ID, Method := "", Params := .json .null,
             Result := none,
             Error := some { Code := -32602, Message := "Invalid params", Data := some err } }
    | .ok params =>
      match s.handler.HandleInitialize params with
      | none => none
      | some result =>
        some { JSONRPC := "2.0", ID := msg.ID, Method := "", Params := .json .null,
               Result := some (.init result), Error := none }

/-- Source: `handleListTools`. -/
def MCPServer.handleListTools (s : MCPServer) (msg : MCPMessage) : MCPMessage :=
  let tools := s.handler.HandleListTools
  { JSONRPC := "2.0", ID := msg.ID, Method := "", Params := .json .null,
    Result := some (.tools tools), Error := none }

/-- Source: `handleCallTool`; the type assertion `msg.Params.(json.RawMessage)`
panics (`none`) when `Params` holds anything else. -/
def MCPServer.handleCallTool (ext : Externals) (s : MCPServer) (msg : MCPMessage) :
    Option MCPMessage :=
  match msg.Params with
  | .json _ => none
  | .raw bytes =>
    match ext.UnmarshalCallToolParams bytes with
    | .error err =>
      some { JSONRPC := "2.0", ID := msg.ID, Method := "", Params := .json .null,
             Result := none,
             Error := some { Code := -32602, Message := "Invalid params", Data := some err } }
    | .ok params =>
      match s.handler.HandleCallTool ext params with
      | .panic => none
      | .error err =>
        some { JSONRPC := "2.0", ID := msg.ID, Method := "", Params := .json .null,
               Result := none,
               Error := some { Code := -32603, Message := "Internal error", Data := some err } }
      | .ok result =>
        some { JSONRPC := "2.0", ID := msg.ID, Method := "", Params := .json .null,
               Result := some (.tool result), Error := none }

/-- Source: `handleMessage`: the server after the message has been handled,
`none` when handling it panics. -/
def MCPServer.handleMessage (ext : Externals) (s : MCPServer) (msg : MCPMessage) :
    Option MCPServer :=
  if msg.Method = "initialize" then
    (s.handleInitialize ext msg).map fun response => (s.sendMessage response).1
  else if msg.Method = "tools/list" then
    some (s.sendMessage (s.handleListTools msg)).1
  else if msg.Method = "tools/call" then
    (s.handleCallTool ext msg).map fun response => (s.sendMessage response).1
  else if msg.Method = "notifications/canceled" then
    some s
  else
    some (s.sendMessage
      { JSONRPC := "2.0", ID := msg.ID, Method := "", Params := .json .null, Result := none,
        Error := some { Code := -32601, Message := "Method not found", Data := none } }).1

end mcp

/-! ## The specification's wording of token resolution, and sample inputs -/

namespace ethereum

open common

/-- The entries of the static symbol table of `getTokenAddressBySymbol`. -/
def symbolTable : List (String × String) :=
  [("USDC", "0xA0b86991c6218b36c1d19D4a2e9Eb0cE3606eB48"),
   ("USDT", "0xdAC17F958D2ee523a2206206994597C13D831ec7"),
   ("DAI", "0x6B175474E89094C44Da98b954EedeAC495271d0F"),
   ("WBTC", "0x2260FAC5E5542a773Aa44fBCfeDf7C193bc2C599"),
   ("UNI", "0x1f9840a85d5aF5bf1D1762F925BDADdC4201F984"),
   ("LINK", "0x514910771AF9Ca656af840dff83E8264EcF986CA"),
   ("AAVE", "0x7Fc66500c84A76Ad7e9c93437bFc5Ac33E2DDaE9")]

/-- Token resolution in the words of the specification: the native-asset
marker resolves to the configured wrapped-native-asset address, a
syntactically valid address is used as it is, and any other identifier must
resolve through the static symbol table; `none` when it has no entry. -/
def resolveTokenSpec (ec : EthereumClient) (id : String) : Option Address :=
  if id = "ETH" then some (HexToAddress ec.config.WETHAddress)
  else if IsHexAddress id then some (HexToAddress id)
  else (symbolTable.lookup id).map HexToAddress

/-- The request of the specification's example: 1 ETH to USDC at slippage
tolerance 0.01 on the V2 route. -/
def sampleRequest : SwapRequest :=
  { FromToken := "ETH", ToToken := "USDC", Amount := ⟨1, 0⟩,
    SlippageTolerance := ⟨1, -2⟩, UseV3 := false }

/-- The quote `SwapTokens` returns for `sampleRequest` at `sampleClient`. -/
def sampleQuote : SwapResponse :=
  { FromToken := "ETH", ToToken := "USDC", InputAmount := ⟨1, 0⟩,
    EstimatedOutput := ⟨950000000000000000, -18⟩,
    MinOutput := ⟨94050000000000000000, -20⟩, GasEstimate := 150000,
    GasPrice := ⟨200000000, -16⟩, GasCostUSD := ⟨60000000000000, -13⟩,
    Slippage := ⟨1, -2⟩, Router := "Uniswap V2", Success := true, Error := none }

/-- A client whose node answers a gas estimate of 150000, a gas price of
20 gwei and a native balance of 1500000000000000000 wei, configured with the
mainnet router and WETH addresses. -/
def sampleClient : EthereumClient :=
  { client := { EstimateGas := fun _ => .ok 150000, SuggestGasPrice := .ok 20000000000,
                BalanceAt := fun _ => .ok 1500000000000000000 },
    walletAddress := Address.zero,
    config :=
      { RPCEndpoint := "https://test.rpc", ChainID := 1,
        UniswapV2Router := "0x7a250d5630B4cF539739dF2C5dAcb4c659F2488D",
        UniswapV3Router := "0xE592427A0AEce92De3Edee1F18E0157C05861564",
        WETHAddress := "0xC02aaA39b223FE8D0A0e5C4F27eAD9083C756Cc2" } }

end ethereum

namespace ethereum

/-- The sample client with a node whose gas estimate fails with
`execution reverted`. -/
def failingEstimateClient : EthereumClient :=
  { sampleClient with
    client := { sampleClient.client with EstimateGas := fun _ => .error "execution reverted" } }

/-- The sample client with a node whose gas price request fails with
`connection refused`. -/
def failingPriceClient : EthereumClient :=
  { sampleClient with
    client := { sampleClient.client with SuggestGasPrice := .error "connection refused" } }

end ethereum

/-! ## The specification's wording of the address syntax -/

namespace ethereum

open common

/-- A hexadecimal digit: `0` to `9`, `a` to `f` or `A` to `F`. -/
def isHexDigitByte (c : UInt8) : Bool :=
  (48 ≤ c && c ≤ 57) || (97 ≤ c && c ≤ 102) || (65 ≤ c && c ≤ 70)

/-- Exactly 40 hexadecimal digits. -/
def isFortyHexDigits (d : List UInt8) : Bool := d.length == 40 && d.all isHexDigitByte

/-- The address syntax in the words of the specification: exactly 40
hexadecimal digits after an optional `0x` or `0X` prefix. -/
def isAddressText (s : String) : Bool :=
  let b := bytesOf s
  isFortyHexDigits b
    || ((b.take 2 == [48, 120] || b.take 2 == [48, 88]) && isFortyHexDigits (b.drop 2))

end ethereum

/-! ## Comparison ignoring letter case -/

namespace common

/-- ASCII lower case of one byte: `A` to `Z` become `a` to `z`. -/
def lowerByte (c : UInt8) : UInt8 := if 65 ≤ c && c ≤ 90 then c + 32 else c

/-- Equality of two strings ignoring the case of ASCII letters. -/
def equalIgnoringCase (s t : String) : Bool :=
  (bytesOf s).map lowerByte == (bytesOf t).map lowerByte

end common

/-! ## Sample messages and stand-ins for the external functions -/

namespace mcp

open ethereum

/-- The server over the sample client. -/
def sampleServer : MCPServer := NewMCPServer sampleClient

/-- A `tools/call` request as the decoder delivers it: id 1, and params the
decoded object with the name `get_balance` and an address argument. -/
def sampleCallRequest : MCPMessage :=
  { JSONRPC := "2.0", ID := .number "1", Method := "tools/call",
    Params := .json (.obj
      [("name", .str "get_balance"),
       ("arguments", .obj [("address", .str "0x742d35Cc6634C0532925a3b8D7a2a5c4A7A6A5a5")])]),
    Result := none, Error := none }

/-- A `tools/list` request with id 2. -/
def sampleListRequest : MCPMessage :=
  { JSONRPC := "2.0", ID := .number "2", Method := "tools/list", Params := .json .null,
    Result := none, Error := none }

/-- A request for a method the server does not have, with id 3. -/
def sampleUnknownRequest : MCPMessage :=
  { JSONRPC := "2.0", ID := .number "3", Method := "resources/list", Params := .json .null,
    Result := none, Error := none }

/-- The notification a client sends after the handshake: it carries no id. -/
def sampleNotification : MCPMessage :=
  { JSONRPC := "2.0", ID := .null, Method := "notifications/initialized",
    Params := .json .null, Result := none, Error := none }

/-- The cancel notification, without id. -/
def sampleCancel : MCPMessage :=
  { JSONRPC := "2.0", ID := .null, Method := "notifications/canceled",
    Params := .json .null, Result := none, Error := none }

end mcp

namespace mcp

open ethereum

/-- Stand-ins for the external functions, for statements at concrete inputs:
a hash of 32 zero bytes, a price service that cannot be reached, a decoder of
call parameters that answers a call of the tool `Get_Balance` without
arguments, and fixed texts for the renderings. -/
def sampleExternals : Externals :=
  { Keccak256 := fun _ => List.replicate 32 0
    Now := 0
    HTTPGetPrices := fun _ => .error "connection refused"
    UnmarshalInitializeParams := fun _ => .error "unexpected end of JSON input"
    UnmarshalCallToolParams := fun _ => .ok { Name := "Get_Balance", Arguments := [] }
    MarshalIndentBalance := fun _ => .ok "balance"
    MarshalIndentPrice := fun _ => .ok "price"
    MarshalIndentSwap := fun _ => .ok "quote"
    DecimalString := fun _ => "0"
    DecimalStringFixed := fun _ _ => "0.00" }

/-- A `tools/call` message whose params are raw bytes, as Go code that builds
the message itself can make it. -/
def sampleRawCall : MCPMessage :=
  { JSONRPC := "2.0", ID := .number "4", Method := "tools/call",
    Params := .raw (common.bytesOf "\x7b\"name\":\"Get_Balance\"\x7d"),
    Result := none, Error := none }

/-- A `tools/call` request as the decoder delivers it, naming the tool
`Get_Balance`, which the server does not have: id 5. -/
def sampleUnknownToolCall : MCPMessage :=
  { JSONRPC := "2.0", ID := .number "5", Method := "tools/call",
    Params := .json (.obj [("name", .str "Get_Balance"), ("arguments", .obj [])]),
    Result := none, Error := none }

/-- The arguments of a swap of 0 ETH to USDC. -/
def zeroSwapArguments : List (String × Json) :=
  [("from_token", .str "ETH"), ("to_token", .str "USDC"), ("amount", .str "0")]

end mcp

namespace mcp

open ethereum

/-- The handshake request as the decoder delivers it: id 0, and params the
decoded object with a protocol version and capabilities, without
`clientInfo`. -/
def sampleHandshake : MCPMessage :=
  { JSONRPC := "2.0", ID := .number "0", Method := "initialize",
    Params := .json (.obj
      [("protocolVersion", .str "2024-11-05"), ("capabilities", .obj [])]),
    Result := none, Error := none }

/-- A handshake message whose params are raw bytes. -/
def sampleRawHandshake : MCPMessage :=
  { JSONRPC := "2.0", ID := .number "0", Method := "initialize",
    Params := .raw (common.bytesOf "\x7b\"protocolVersion\":\"2024-11-05\"\x7d"),
    Result := none, Error := none }

/-- The stand-ins with a decoder of handshake parameters that answers
parameters without `clientInfo`. -/
def bareHandshakeExternals : Externals :=
  { sampleExternals with
    UnmarshalInitializeParams := fun _ =>
      .ok { ProtocolVersion := "2024-11-05", Capabilities := .obj [], ClientInfo := none } }

end mcp

/-! ## The token balance query over any caller -/

namespace ethereum

open common

/-- Source: the body of `getERC20Balance` (`balance.go`, lines 79 to 113) with
the constructor of the caller as a parameter; `getERC20Balance` is this body
at the repository's `NewERC20Caller`. -/
def getERC20BalanceWith (newCaller : Address → Node → Except String ERC20Caller)
    (ec : EthereumClient) (address tokenAddress : Address) :
    Except String (Int × Nat × Option String × Option String) :=
  match newCaller tokenAddress ec.client with
  | .error err => .error ("failed to create token caller: " ++ err)
  | .ok token =>
    match token.BalanceOf address with
    | .error err => .error ("failed to get token balance: " ++ err)
    | .ok balance =>
      let decimals : Nat :=
        match token.Decimals with
        | .error _ => 18
        | .ok d => d
      let symbolPtr : Option String :=
        match token.Symbol with
        | .error _ => none
        | .ok symbol => some symbol
      let namePtr : Option String :=
        match token.Name with
        | .error _ => none
        | .ok name => some name
      .ok (balance, decimals, symbolPtr, namePtr)

/-- A token contract that answers its balance and nothing else: the lookups
of decimals, symbol and name fail. -/
def bareToken : ERC20Caller :=
  { BalanceOf := fun _ => .ok 2500000, Decimals := .error "execution reverted",
    Symbol := .error "execution reverted", Name := .error "execution reverted" }

/-- A token contract whose balance lookup fails. -/
def brokenToken : ERC20Caller :=
  { BalanceOf := fun _ => .error "execution reverted", Decimals := .ok 6,
    Symbol := .ok "USDC", Name := .ok "USD Coin" }

end ethereum

namespace ethereum

/-- The stand-ins with a price service that knows the feed id `usd-coin` and
answers the empty object for any other request. -/
def usdcPriceExternals : Externals :=
  { mcp.sampleExternals with
    HTTPGetPrices := fun url =>
      if url = "https://api.coingecko.com/api/v3/simple/price?ids=usd-coin&vs_currencies=usd,eth"
      then .ok [("usd-coin", [("usd", ⟨1, 0⟩), ("eth", ⟨4, -4⟩)])]
      else .ok [] }

end ethereum

/-! ## The two parts of the swap handler -/

namespace mcp

open ethereum

/-- Source: the first part of `handleSwapTokens` (`handlers.go`, lines 223 to
264): the request it builds from the arguments, or the error it returns. -/
def swapRequestOfArguments (args : List (String × Json)) : Except String SwapRequest :=
  match argString args "from_token" with
  | none => .error "from_token is required and must be a string"
  | some fromToken =>
    match argString args "to_token" with
    | none => .error "to_token is required and must be a string"
    | some toToken =>
      match argString args "amount" with
      | none => .error "amount is required and must be a string"
      | some amountStr =>
        match decimal.ParseDecimal amountStr with
        | .error err => .error ("invalid amount format: " ++ err)
        | .ok amount =>
          let slippageStr : String :=
            match argString args "slippage_tolerance" with
            | some s => s
            | none => "0.01"
          match decimal.ParseDecimal slippageStr with
          | .error err => .error ("invalid slippage_tolerance format: " ++ err)
          | .ok slippage =>
            let useV3 : Bool :=
              match argBool args "use_v3" with
              | some v3 => v3
              | none => false
            .ok { FromToken := fromToken, ToToken := toToken, Amount := amount,
                  SlippageTolerance := slippage, UseV3 := useV3 }

/-- Source: the second part of `handleSwapTokens` (`handlers.go`, lines 266 to
307): the result it makes from what `SwapTokens` returned. -/
def swapToolResult (ext : Externals) (outcome : Outcome SwapResponse) : Outcome ToolResult :=
  match outcome with
  | .panic => .panic
  | .error err =>
    .ok { Content := [{ Type_ := "text", Text := "Error simulating swap: " ++ err,
                        Data := [] }],
          IsError := true }
  | .ok result =>
    match ext.MarshalIndentSwap result with
    | .error err => .error ("failed to marshal swap result: " ++ err)
    | .ok resultJSON =>
      let text : Option String :=
        if result.Success then
          some ("Swap simulation successful:\nInput: "
            ++ ext.DecimalString result.InputAmount ++ " " ++ result.FromToken
            ++ "\nEstimated Output: " ++ ext.DecimalString result.EstimatedOutput
            ++ " " ++ result.ToToken
            ++ "\nGas Cost: ~$" ++ ext.DecimalStringFixed result.GasCostUSD 2)
        else
          result.Error.map fun e => "Swap simulation failed: " ++ e
      match text with
      | none => .panic
      | some text =>
        .ok { Content := [{ Type_ := "text", Text := text, Data := [] },
                          { Type_ := "text", Text := resultJSON, Data := [] }],
              IsError := false }

/-- Arguments of a swap of 1 ETH to USDC with a slippage tolerance given as a
JSON number and the V3 flag given as a JSON string. -/
def mistypedSwapArguments : List (String × Json) :=
  [("from_token", .str "ETH"), ("to_token", .str "USDC"), ("amount", .str "1"),
   ("slippage_tolerance", .number "0.05"), ("use_v3", .str "true")]

/-- Arguments of a swap of 1 ETH to USDC with a slippage tolerance of 0.05 and
the V3 route. -/
def typedSwapArguments : List (String × Json) :=
  [("from_token", .str "ETH"), ("to_token", .str "USDC"), ("amount", .str "1"),
   ("slippage_tolerance", .str "0.05"), ("use_v3", .bool true)]

end mcp

namespace ethereum

/-- A swap of 1 ETH to USDC on the V2 route with the slippage tolerance
`1e-2147483640`. -/
def tinySlippageRequest : SwapRequest :=
  { FromToken := "ETH", ToToken := "USDC", Amount := ⟨1, 0⟩,
    SlippageTolerance := ⟨1, -2147483640⟩, UseV3 := false }

end ethereum

namespace mcp

/-- The arguments of `swap_tokens` that give `ethereum.tinySlippageRequest`. -/
def tinySlippageArguments : List (String × Json) :=
  [("from_token", .str "ETH"), ("to_token", .str "USDC"), ("amount", .str "1"),
   ("slippage_tolerance", .str "1e-2147483640")]

end mcp

/-! ## Facts about the decimal library operations -/

namespace Decimal

theorem ten_zpow_pos (e : Int) : (0 : ℚ) < (10 : ℚ) ^ e := by positivity

theorem toRat_rescale_of_le (d : Decimal) (e : Int) (h : e ≤ d.exp) :
    (d.rescale e).toRat = d.toRat := by
  unfold rescale
  by_cases h1 : d.exp = e
  · simp [h1]
  · have h2 : ¬ e > d.exp := by omega
    simp only [h1, h2, if_false, toRat]
    have h3 : ((e - d.exp).natAbs : Int) = d.exp - e := by omega
    have h4 : (10 : ℚ) ^ d.exp = (10 : ℚ) ^ ((e - d.exp).natAbs : Int) * (10 : ℚ) ^ e := by
      rw [← zpow_add₀ (by norm_num : (10 : ℚ) ≠ 0), h3]
      congr 1; ring
    rw [h4, zpow_natCast]
    push_cast
    ring

theorem exp_rescale (d : Decimal) (e : Int) : (d.rescale e).exp = e := by
  unfold rescale
  by_cases h1 : d.exp = e
  · simp [h1]
  · by_cases h2 : e > d.exp <;> simp [h1, h2]

theorem RescalePair_exp (d1 d2 : Decimal) :
    (RescalePair d1 d2).1.exp = min d1.exp d2.exp ∧
    (RescalePair d1 d2).2.exp = min d1.exp d2.exp := by
  unfold RescalePair
  by_cases h1 : d1.exp = d2.exp
  · simp [h1]
  · by_cases h2 : min d1.exp d2.exp ≠ d1.exp
    · rw [if_neg h1, if_pos h2]
      refine ⟨exp_rescale _ _, ?_⟩
      rcases le_total d1.exp d2.exp with h | h
      · exact absurd (min_eq_left h) h2
      · exact (min_eq_right h).symm
    · rw [if_neg h1, if_neg h2]
      refine ⟨?_, exp_rescale _ _⟩
      push_neg at h2
      exact h2.symm

theorem RescalePair_toRat (d1 d2 : Decimal) :
    (RescalePair d1 d2).1.toRat = d1.toRat ∧ (RescalePair d1 d2).2.toRat = d2.toRat := by
  unfold RescalePair
  by_cases h1 : d1.exp = d2.exp
  · simp [h1]
  · by_cases h2 : min d1.exp d2.exp ≠ d1.exp
    · rw [if_neg h1, if_pos h2]
      exact ⟨toRat_rescale_of_le _ _ (min_le_left _ _), rfl⟩
    · rw [if_neg h1, if_neg h2]
      exact ⟨rfl, toRat_rescale_of_le _ _ (min_le_right _ _)⟩

theorem toRat_lt_iff_of_exp_eq (a b : Decimal) (h : a.exp = b.exp) :
    a.toRat < b.toRat ↔ a.value < b.value := by
  unfold toRat
  rw [h, mul_lt_mul_right (ten_zpow_pos _)]
  exact Int.cast_lt

theorem toRat_eq_iff_of_exp_eq (a b : Decimal) (h : a.exp = b.exp) :
    a.toRat = b.toRat ↔ a.value = b.value := by
  unfold toRat
  rw [h, mul_left_inj' (ne_of_gt (ten_zpow_pos _))]
  exact Int.cast_inj

theorem cmpInt_eq (a b : Int) :
    cmpInt a b = if a < b then -1 else if a = b then 0 else 1 := by
  unfold cmpInt
  by_cases h1 : a < b
  · rw [if_pos h1]
    exact Int.sign_eq_neg_one_of_neg (by omega)
  · rw [if_neg h1]
    by_cases h2 : a = b
    · rw [if_pos h2, h2, sub_self]
      rfl
    · rw [if_neg h2]
      exact Int.sign_eq_one_of_pos (by omega)

/-- The library comparison is the comparison of the denoted numbers. -/
theorem Cmp_eq (d d2 : Decimal) :
    d.Cmp d2 = if d.toRat < d2.toRat then -1 else if d.toRat = d2.toRat then 0 else 1 := by
  have key : ∀ a b : Decimal, a.exp = b.exp →
      cmpInt a.value b.value =
        if a.toRat < b.toRat then -1 else if a.toRat = b.toRat then 0 else 1 := by
    intro a b h
    rw [cmpInt_eq]
    simp only [toRat_lt_iff_of_exp_eq a b h, toRat_eq_iff_of_exp_eq a b h]
  unfold Cmp
  by_cases h : d.exp = d2.exp
  · simp only [h, if_true]
    exact key d d2 h
  · simp only [h, if_false]
    have hexp := RescalePair_exp d d2
    have hrat := RescalePair_toRat d d2
    rw [key _ _ (hexp.1.trans hexp.2.symm), hrat.1, hrat.2]

theorem LessThan_iff (d d2 : Decimal) : d.LessThan d2 = true ↔ d.toRat < d2.toRat := by
  unfold LessThan
  rw [Cmp_eq]
  by_cases h1 : d.toRat < d2.toRat
  · simp [h1]
  · by_cases h2 : d.toRat = d2.toRat <;> simp [h1, h2]

theorem LessThanOrEqual_iff (d d2 : Decimal) :
    d.LessThanOrEqual d2 = true ↔ d.toRat ≤ d2.toRat := by
  unfold LessThanOrEqual
  rw [Cmp_eq]
  by_cases h1 : d.toRat < d2.toRat
  · simp [h1, le_of_lt h1]
  · by_cases h2 : d.toRat = d2.toRat
    · simp [h2]
    · have : ¬ d.toRat ≤ d2.toRat := fun h => h1 (lt_of_le_of_ne h h2)
      simp [h1, h2, this]

theorem GreaterThan_iff (d d2 : Decimal) : d.GreaterThan d2 = true ↔ d2.toRat < d.toRat := by
  unfold GreaterThan
  rw [Cmp_eq]
  by_cases h1 : d.toRat < d2.toRat
  · simp [h1, not_lt_of_lt h1]
  · by_cases h2 : d.toRat = d2.toRat
    · simp [h2]
    · have : d2.toRat < d.toRat := lt_of_le_of_ne (not_lt.mp h1) (Ne.symm h2)
      simp [h1, h2, this]

theorem toRat_Zero : Zero.toRat = 0 := by simp [Zero, New, toRat]

theorem toRat_NewFromFloat_0_5 : NewFromFloat_0_5.toRat = 1 / 2 := by
  simp [NewFromFloat_0_5, toRat]; norm_num

theorem toRat_Sub (d d2 : Decimal) : (d.Sub d2).toRat = d.toRat - d2.toRat := by
  have hexp := RescalePair_exp d d2
  have hrat := RescalePair_toRat d d2
  rw [← hrat.1, ← hrat.2]
  unfold Sub toRat
  simp only
  rw [hexp.2, hexp.1]
  push_cast
  ring

theorem toRat_Add (d d2 : Decimal) : (d.Add d2).toRat = d.toRat + d2.toRat := by
  have hexp := RescalePair_exp d d2
  have hrat := RescalePair_toRat d d2
  rw [← hrat.1, ← hrat.2]
  unfold Add toRat
  simp only
  rw [hexp.2, hexp.1]
  push_cast
  ring

theorem toRat_Mul (d d2 r : Decimal) (h : d.Mul d2 = some r) :
    r.toRat = d.toRat * d2.toRat := by
  unfold Mul at h
  simp only at h
  split at h
  · exact absurd h (by simp)
  · injection h with h
    subst h
    unfold toRat
    simp only
    rw [zpow_add₀ (by norm_num : (10 : ℚ) ≠ 0)]
    push_cast
    ring

theorem Mul_isSome (d d2 : Decimal) (h1 : d.exp + d2.exp ≤ MaxInt32)
    (h2 : MinInt32 ≤ d.exp + d2.exp) :
    d.Mul d2 = some ⟨d.value * d2.value, d.exp + d2.exp⟩ := by
  unfold Mul
  have : ¬ (d.exp + d2.exp > MaxInt32 ∨ d.exp + d2.exp < MinInt32) := by
    intro h; rcases h with h | h <;> omega
  simp [this]

end Decimal

namespace Decimal

/-- Rounding half up as a single floor division. -/
theorem round_half_up (m D : Int) (hD : 0 < D) :
    m / D + (if 2 * (m % D) < D then 0 else 1) = (2 * m + D) / (2 * D) := by
  have h0 : 0 ≤ m % D := Int.emod_nonneg m (ne_of_gt hD)
  have h1 : m % D < D := Int.emod_lt_of_pos m hD
  have h2 : D * (m / D) + m % D = m := Int.ediv_add_emod m D
  have h2D : (0 : Int) < 2 * D := by omega
  symm
  split
  · rename_i h
    rw [add_zero]
    exact ((Int.ediv_emod_unique h2D).2
      ⟨by linarith, (by omega : (0 : Int) ≤ 2 * (m % D) + D), by omega⟩).1
  · rename_i h
    exact ((Int.ediv_emod_unique h2D).2
      ⟨by linarith, (by omega : (0 : Int) ≤ 2 * (m % D) - D), by omega⟩).1

theorem QuoRem_int (n D : Int) (hn : 0 ≤ n) (hD : 0 < D) :
    QuoRem ⟨n, 0⟩ ⟨D, 0⟩ 16 =
      some (⟨n * 10 ^ 16 / D, -16⟩, ⟨n * 10 ^ 16 % D, -16⟩) := by
  have hm : (0 : Int) ≤ n * 10 ^ 16 := by positivity
  have he : (0 : Int) - 0 - -16 = 16 := by norm_num
  unfold QuoRem
  simp only [he]
  rw [if_neg (ne_of_gt hD), if_neg (by decide), if_neg (by decide), if_neg (by decide),
    if_neg (by decide)]
  rw [show Int.toNat 16 = 16 from rfl, Int.tdiv_eq_ediv hm (le_of_lt hD),
    Int.tmod_eq_emod hm (le_of_lt hD)]
  rfl

/-- Division of a non-negative integer by a positive integer: the quotient
rounded half up to 16 decimal places. -/
theorem Div_int (n D : Int) (hn : 0 ≤ n) (hD : 0 < D) :
    Div ⟨n, 0⟩ ⟨D, 0⟩ = some ⟨(2 * (n * 10 ^ 16) + D) / (2 * D), -16⟩ := by
  have hm : (0 : Int) ≤ n * 10 ^ 16 := by positivity
  have h0 : 0 ≤ (n * 10 ^ 16) % D := Int.emod_nonneg _ (ne_of_gt hD)
  unfold Div DivRound DivisionPrecision
  rw [QuoRem_int n D hn hD]
  simp only
  rw [← round_half_up _ _ hD]
  have hc : Cmp ⟨((n * 10 ^ 16 % D).natAbs : Int) * 2, -16 + 16⟩ (Abs ⟨D, 0⟩) =
      if 2 * (n * 10 ^ 16 % D) < D then -1 else if 2 * (n * 10 ^ 16 % D) = D then 0 else 1 := by
    unfold Cmp Abs
    simp only
    rw [if_pos (show ((-16 : Int) + 16) = 0 from rfl), cmpInt_eq]
    simp only [Int.natAbs_of_nonneg h0, Int.natAbs_of_nonneg (le_of_lt hD)]
    rw [mul_comm]
  rw [hc]
  by_cases h1 : 2 * (n * 10 ^ 16 % D) < D
  · rw [if_pos h1, if_pos (by decide), if_pos h1, add_zero]
  · have hs : ¬ (n.sign * D.sign < 0) := by
      rw [Int.sign_eq_one_of_pos hD, mul_one, not_lt]
      exact Int.sign_nonneg.2 hn
    have hc2 : ¬ ((if 2 * (n * 10 ^ 16 % D) = D then (0 : Int) else 1) < 0) := by
      split <;> decide
    rw [if_neg h1, if_neg hc2, if_neg hs, if_neg h1]
    unfold Add RescalePair New
    simp

end Decimal

/-! ## Swap request validation -/

namespace ethereum

/-- When `validateSwapRequest` returns the nil error. -/
theorem validateSwapRequest_eq_none_iff (req : SwapRequest) :
    validateSwapRequest req = none ↔
      (0 < req.Amount.toRat ∧ 0 ≤ req.SlippageTolerance.toRat ∧
        req.SlippageTolerance.toRat ≤ 1 / 2 ∧ req.FromToken ≠ "" ∧ req.ToToken ≠ "") := by
  unfold validateSwapRequest
  by_cases h1 : req.Amount.LessThanOrEqual Decimal.Zero = true
  · have h1r := (Decimal.LessThanOrEqual_iff _ _).1 h1
    rw [Decimal.toRat_Zero] at h1r
    rw [if_pos h1]
    constructor
    · intro h; exact absurd h (by simp)
    · intro h; exact absurd h.1 (not_lt.2 h1r)
  · have h1r : 0 < req.Amount.toRat := by
      have := mt (Decimal.LessThanOrEqual_iff _ _).2 h1
      rw [Decimal.toRat_Zero] at this
      exact not_le.1 this
    rw [if_neg h1]
    by_cases h2 : (req.SlippageTolerance.LessThan Decimal.Zero
        || req.SlippageTolerance.GreaterThan Decimal.NewFromFloat_0_5) = true
    · rw [if_pos h2]
      rw [Bool.or_eq_true, Decimal.LessThan_iff, Decimal.GreaterThan_iff,
        Decimal.toRat_Zero, Decimal.toRat_NewFromFloat_0_5] at h2
      constructor
      · intro h; exact absurd h (by simp)
      · intro h
        rcases h2 with h2 | h2
        · exact absurd h.2.1 (not_le.2 h2)
        · exact absurd h.2.2.1 (not_le.2 h2)
    · rw [if_neg h2]
      rw [Bool.or_eq_true, Decimal.LessThan_iff, Decimal.GreaterThan_iff,
        Decimal.toRat_Zero, Decimal.toRat_NewFromFloat_0_5, not_or, not_lt, not_lt] at h2
      by_cases h3 : (req.FromToken == "" || req.ToToken == "") = true
      · rw [if_pos h3]
        rw [Bool.or_eq_true, beq_iff_eq, beq_iff_eq] at h3
        constructor
        · intro h; exact absurd h (by simp)
        · intro h
          rcases h3 with h3 | h3
          · exact absurd h3 h.2.2.2.1
          · exact absurd h3 h.2.2.2.2
      · rw [if_neg h3]
        rw [Bool.or_eq_true, beq_iff_eq, beq_iff_eq, not_or] at h3
        exact ⟨fun _ => ⟨h1r, h2.1, h2.2, h3.1, h3.2⟩, fun _ => rfl⟩

/-- C1: `validateSwapRequest` accepts a request (returns the nil error) if and
only if the amount is strictly positive, the slippage tolerance lies in the
closed interval from 0 to 0.5, and both token identifiers are non-empty; every
other request is rejected with an error. -/
theorem validateSwapRequest_accepts_iff (req : SwapRequest) :
    (validateSwapRequest req = none ↔
      (0 < req.Amount.toRat ∧ 0 ≤ req.SlippageTolerance.toRat ∧
        req.SlippageTolerance.toRat ≤ 1 / 2 ∧ req.FromToken ≠ "" ∧ req.ToToken ≠ "")) ∧
    ((0 < req.Amount.toRat ∧ 0 ≤ req.SlippageTolerance.toRat ∧
        req.SlippageTolerance.toRat ≤ 1 / 2 ∧ req.FromToken ≠ "" ∧ req.ToToken ≠ "") ∨
      ∃ msg, validateSwapRequest req = some msg) := by
  refine ⟨validateSwapRequest_eq_none_iff req, ?_⟩
  cases hv : validateSwapRequest req with
  | none => exact Or.inl ((validateSwapRequest_eq_none_iff req).1 hv)
  | some msg => exact Or.inr ⟨msg, rfl⟩

end ethereum

/-! ## Swap quotes -/

namespace ethereum

open common

/-- C2: a request that fails validation makes `SwapTokens` return a quote
with `Success = false` and `Error` set to the validation reason, with no Go
error, and without any call having been made: no token resolution, no
`EstimateGas` and no `GetGasPrice`. -/
theorem SwapTokens_invalid_no_calls (ec : EthereumClient) (req : SwapRequest) (msg : String)
    (h : validateSwapRequest req = some msg) :
    ∃ quote, (SwapTokens ec req).1 = Outcome.ok quote ∧ quote.Success = false ∧
      quote.Error = some msg ∧ (SwapTokens ec req).2 = [] := by
  refine ⟨failedResponse msg, ?_, rfl, rfl, ?_⟩ <;>
  · unfold SwapTokens
    rw [h]

/-- C2 at the two requests the specification names: amount 0, and slippage
tolerance 0.6. -/
theorem SwapTokens_invalid_no_calls_witness :
    (validateSwapRequest ⟨"ETH", "USDC", ⟨0, 0⟩, ⟨1, -2⟩, false⟩ = some "amount must be positive" ∧
      ∃ quote, (SwapTokens sampleClient ⟨"ETH", "USDC", ⟨0, 0⟩, ⟨1, -2⟩, false⟩).1
          = Outcome.ok quote ∧ quote.Success = false ∧
        quote.Error = some "amount must be positive" ∧
        (SwapTokens sampleClient ⟨"ETH", "USDC", ⟨0, 0⟩, ⟨1, -2⟩, false⟩).2 = []) ∧
    (validateSwapRequest ⟨"ETH", "USDC", ⟨1, 0⟩, ⟨6, -1⟩, false⟩
        = some "slippage tolerance must be between 0 and 0.5 (50%)" ∧
      ∃ quote, (SwapTokens sampleClient ⟨"ETH", "USDC", ⟨1, 0⟩, ⟨6, -1⟩, false⟩).1
          = Outcome.ok quote ∧ quote.Success = false ∧
        quote.Error = some "slippage tolerance must be between 0 and 0.5 (50%)" ∧
        (SwapTokens sampleClient ⟨"ETH", "USDC", ⟨1, 0⟩, ⟨6, -1⟩, false⟩).2 = []) :=
  ⟨⟨by decide, SwapTokens_invalid_no_calls sampleClient _ _ (by decide)⟩,
   ⟨by decide, SwapTokens_invalid_no_calls sampleClient _ _ (by decide)⟩⟩

/-- What a quote returned by `simulateUniswapV2Swap` is made of. -/
theorem simulateUniswapV2Swap_ok (ec : EthereumClient) (req : SwapRequest)
    (fromToken toToken : Address) (quote : SwapResponse)
    (h : (simulateUniswapV2Swap ec req fromToken toToken).1 = Outcome.ok quote) :
    ∃ amountIn, decimal.ToWei req.Amount = some amountIn ∧
      estimateV2Output fromToken toToken amountIn = some quote.EstimatedOutput ∧
      quote.EstimatedOutput.Mul ((Decimal.NewFromInt 1).Sub req.SlippageTolerance)
        = some quote.MinOutput ∧
      quote.Slippage = req.SlippageTolerance ∧ quote.InputAmount = req.Amount ∧
      quote.Router = "Uniswap V2" ∧ quote.Success = true ∧ quote.Error = none := by
  unfold simulateUniswapV2Swap at h
  revert h
  generalize decimal.ToWei req.Amount = T
  generalize estimateV2Output fromToken toToken = E
  generalize calculateGasCostUSD = C
  generalize decimal.FromWei = F
  revert T E C F
  refine id ?_
  intro T E C F h
  simp only at h
  split at h
  · cases h
  · rename_i amountIn
    refine ⟨amountIn, rfl, ?_⟩
    split at h
    · cases h
    · split at h
      · cases h
      · split at h
        · cases h
        · rename_i est hE
          split at h
          · cases h
          · rename_i mo hM
            split at h
            · cases h
            · split at h
              · cases h
              · simp only [Outcome.ok.injEq] at h
                subst h
                exact ⟨hE, hM, rfl, rfl, rfl, rfl, rfl⟩

/-- What a quote returned by `simulateUniswapV3Swap` is made of. -/
theorem simulateUniswapV3Swap_ok (ec : EthereumClient) (req : SwapRequest)
    (fromToken toToken : Address) (quote : SwapResponse)
    (h : (simulateUniswapV3Swap ec req fromToken toToken).1 = Outcome.ok quote) :
    ∃ amountIn, decimal.ToWei req.Amount = some amountIn ∧
      estimateV3Output fromToken toToken amountIn = some quote.EstimatedOutput ∧
      quote.EstimatedOutput.Mul ((Decimal.NewFromInt 1).Sub req.SlippageTolerance)
        = some quote.MinOutput ∧
      quote.Slippage = req.SlippageTolerance ∧ quote.InputAmount = req.Amount ∧
      quote.Router = "Uniswap V3" ∧ quote.Success = true ∧ quote.Error = none := by
  unfold simulateUniswapV3Swap at h
  revert h
  generalize decimal.ToWei req.Amount = T
  generalize estimateV3Output fromToken toToken = E
  generalize calculateGasCostUSD = C
  generalize decimal.FromWei = F
  revert T E C F
  refine id ?_
  intro T E C F h
  simp only at h
  split at h
  · cases h
  · rename_i amountIn
    refine ⟨amountIn, rfl, ?_⟩
    split at h
    · cases h
    · split at h
      · cases h
      · split at h
        · cases h
        · rename_i est hE
          split at h
          · cases h
          · rename_i mo hM
            split at h
            · cases h
            · split at h
              · cases h
              · simp only [Outcome.ok.injEq] at h
                subst h
                exact ⟨hE, hM, rfl, rfl, rfl, rfl, rfl⟩

end ethereum

namespace Decimal

theorem toRat_NewFromInt (v : Int) : (NewFromInt v).toRat = v := by
  simp [NewFromInt, toRat]

end Decimal

namespace ethereum

open common

/-- C3: in every quote returned by `simulateUniswapV2Swap` or
`simulateUniswapV3Swap`, `MinOutput` is `EstimatedOutput * (1 - SlippageTolerance)`
exactly, as rational numbers and with no rounding; hence for a slippage
tolerance between 0 and 0.5 and a non-negative estimated output,
`0 ≤ MinOutput ≤ EstimatedOutput`. -/
theorem MinOutput_exact (ec : EthereumClient) (req : SwapRequest)
    (fromToken toToken : Address) (quote : SwapResponse)
    (h : (simulateUniswapV2Swap ec req fromToken toToken).1 = Outcome.ok quote ∨
      (simulateUniswapV3Swap ec req fromToken toToken).1 = Outcome.ok quote) :
    quote.Slippage = req.SlippageTolerance ∧
    quote.MinOutput.toRat
      = quote.EstimatedOutput.toRat * (1 - req.SlippageTolerance.toRat) ∧
    (0 ≤ req.SlippageTolerance.toRat → req.SlippageTolerance.toRat ≤ 1 / 2 →
      0 ≤ quote.EstimatedOutput.toRat →
      0 ≤ quote.MinOutput.toRat ∧ quote.MinOutput.toRat ≤ quote.EstimatedOutput.toRat) := by
  have hM : quote.EstimatedOutput.Mul ((Decimal.NewFromInt 1).Sub req.SlippageTolerance)
      = some quote.MinOutput ∧ quote.Slippage = req.SlippageTolerance := by
    rcases h with h | h
    · obtain ⟨_, _, _, hM, hS, _⟩ := simulateUniswapV2Swap_ok ec req fromToken toToken quote h
      exact ⟨hM, hS⟩
    · obtain ⟨_, _, _, hM, hS, _⟩ := simulateUniswapV3Swap_ok ec req fromToken toToken quote h
      exact ⟨hM, hS⟩
  have hEq : quote.MinOutput.toRat
      = quote.EstimatedOutput.toRat * (1 - req.SlippageTolerance.toRat) := by
    rw [Decimal.toRat_Mul _ _ _ hM.1, Decimal.toRat_Sub, Decimal.toRat_NewFromInt]
    norm_num
  refine ⟨hM.2, hEq, fun h0 h1 hE => ?_⟩
  rw [hEq]
  constructor
  · exact mul_nonneg hE (by linarith)
  · nlinarith

/-- C3 at the specification's example (1 ETH to USDC, slippage 0.01, gas
price 20 gwei, gas estimate 150000): the minimum output is the estimated
output times 0.99. -/
theorem MinOutput_exact_witness :
    ((simulateUniswapV2Swap sampleClient sampleRequest
          (HexToAddress "0xC02aaA39b223FE8D0A0e5C4F27eAD9083C756Cc2")
          (HexToAddress "0xA0b86991c6218b36c1d19D4a2e9Eb0cE3606eB48")).1
        = Outcome.ok sampleQuote ∨
      (simulateUniswapV3Swap sampleClient sampleRequest
          (HexToAddress "0xC02aaA39b223FE8D0A0e5C4F27eAD9083C756Cc2")
          (HexToAddress "0xA0b86991c6218b36c1d19D4a2e9Eb0cE3606eB48")).1
        = Outcome.ok sampleQuote) ∧
    sampleQuote.MinOutput.toRat
      = sampleQuote.EstimatedOutput.toRat * (1 - sampleRequest.SlippageTolerance.toRat) :=
  ⟨Or.inl (by decide),
   (MinOutput_exact sampleClient sampleRequest
      (HexToAddress "0xC02aaA39b223FE8D0A0e5C4F27eAD9083C756Cc2")
      (HexToAddress "0xA0b86991c6218b36c1d19D4a2e9Eb0cE3606eB48")
      sampleQuote (Or.inl (by decide))).2.1⟩

end ethereum

/-! ## Unit conversion: `FromWei`, `ToWei`, `FormatBalance` -/

namespace Decimal

theorem Pow_ten (d : Nat) : (NewFromInt 10).Pow d = some ⟨10 ^ d, 0⟩ := by
  induction d with
  | zero => rfl
  | succ k ih =>
    show ((NewFromInt 10).Pow k).bind (fun t => t.Mul (NewFromInt 10)) = _
    rw [ih]
    show Mul ⟨10 ^ k, 0⟩ ⟨10, 0⟩ = _
    rw [Mul_isSome _ _ (show (0 : Int) + 0 ≤ MaxInt32 by decide)
      (show MinInt32 ≤ (0 : Int) + 0 by decide)]
    simp only [pow_succ, add_zero]

/-- Floor of a ratio of integers with positive denominator. -/
theorem floor_div_int (a D : Int) (hD : 0 < D) : ⌊(a : ℚ) / (D : ℚ)⌋ = a / D := by
  obtain ⟨k, rfl⟩ := Int.eq_ofNat_of_zero_le (le_of_lt hD)
  exact_mod_cast Rat.floor_intCast_div_natCast a k

/-- The rounded quotient of `Div_int` is the quotient rounded half up. -/
theorem round_half_up_floor (m D : Int) (hD : 0 < D) :
    (2 * m + D) / (2 * D) = ⌊(m : ℚ) / (D : ℚ) + 1 / 2⌋ := by
  have hD' : (D : ℚ) ≠ 0 := by exact_mod_cast ne_of_gt hD
  have h : (m : ℚ) / (D : ℚ) + 1 / 2 = ((2 * m + D : Int) : ℚ) / ((2 * D : Int) : ℚ) := by
    push_cast
    field_simp
    ring
  rw [h, floor_div_int _ _ (by omega)]

/-- The library `BigInt` truncates toward zero: floor for a non-negative
decimal, ceiling for a negative one. -/
theorem BigInt_eq (d : Decimal) :
    d.BigInt = if 0 ≤ d.toRat then ⌊d.toRat⌋ else ⌈d.toRat⌉ := by
  unfold BigInt rescale toRat
  by_cases h0 : d.exp = 0
  · simp [h0]
  · rw [if_neg h0]
    simp only
    generalize hk : ((0 : Int) - d.exp).natAbs = k
    have hDpos : (0 : Int) < 10 ^ k := by positivity
    have hDq : (0 : ℚ) < ((10 ^ k : Int) : ℚ) := by exact_mod_cast hDpos
    by_cases hpos : (0 : Int) > d.exp
    · rw [if_pos hpos]
      simp only
      have hexp : (10 : ℚ) ^ d.exp = 1 / ((10 ^ k : Int) : ℚ) := by
        have : d.exp = -(k : Int) := by omega
        rw [this, zpow_neg, zpow_natCast]
        push_cast
        rw [one_div]
      rw [hexp, mul_one_div]
      by_cases hv : 0 ≤ d.value
      · have : (0 : ℚ) ≤ (d.value : ℚ) / ((10 ^ k : Int) : ℚ) :=
          div_nonneg (by exact_mod_cast hv) (le_of_lt hDq)
        rw [if_pos this, floor_div_int _ _ hDpos, Int.tdiv_eq_ediv hv (le_of_lt hDpos)]
      · have hv' : d.value < 0 := not_le.1 hv
        have : ¬ (0 : ℚ) ≤ (d.value : ℚ) / ((10 ^ k : Int) : ℚ) := by
          rw [not_le]
          exact div_neg_of_neg_of_pos (by exact_mod_cast hv') hDq
        rw [if_neg this]
        have hneg : d.value = -(-d.value) := by ring
        have hc : ⌈(d.value : ℚ) / ((10 ^ k : Int) : ℚ)⌉ = -((-d.value) / 10 ^ k) := by
          rw [← floor_div_int _ _ hDpos, ← Int.ceil_neg]
          congr 1
          push_cast
          ring
        rw [hc]
        conv_lhs => rw [hneg]
        rw [Int.neg_tdiv, Int.tdiv_eq_ediv (by omega) (le_of_lt hDpos)]
    · rw [if_neg hpos]
      simp only
      have hexp : (10 : ℚ) ^ d.exp = ((10 ^ k : Int) : ℚ) := by
        have : d.exp = (k : Int) := by omega
        rw [this, zpow_natCast]
        push_cast
        rfl
      rw [hexp]
      have : (d.value : ℚ) * ((10 ^ k : Int) : ℚ) = ((d.value * 10 ^ k : Int) : ℚ) := by
        push_cast; ring
      rw [this]
      split <;> simp only [Int.floor_intCast, Int.ceil_intCast]

end Decimal

namespace decimal

open Decimal

/-- Closed form of `FromWei` on a non-negative amount: the number of
`10 ^ (-16)` units nearest to the amount, halves rounding up. -/
theorem FromWei_nonneg (n : Int) (hn : 0 ≤ n) : FromWei n = some ⟨(n + 50) / 100, -16⟩ := by
  unfold FromWei WeiPerETH NewFromBigInt
  simp only
  rw [Div_int n 1000000000000000000 hn (by decide)]
  have : (2 * (n * 10 ^ 16) + 1000000000000000000) / (2 * 1000000000000000000)
      = (n + 50) / 100 := by
    have h1 : 2 * (n * 10 ^ 16) + 1000000000000000000 = (n + 50) * 20000000000000000 := by
      ring
    have h2 : (2 : Int) * 1000000000000000000 = 100 * 20000000000000000 := by norm_num
    rw [h1, h2]
    exact Int.mul_ediv_mul_of_pos_left (n + 50) 100
      (show (0 : Int) < 20000000000000000 by decide)
  rw [this]

/-- Closed form of `FormatBalance` on a non-negative balance. -/
theorem FormatBalance_nonneg (n : Int) (d : Nat) (hn : 0 ≤ n) :
    FormatBalance n d = some ⟨(2 * (n * 10 ^ 16) + 10 ^ d) / (2 * 10 ^ d), -16⟩ := by
  unfold FormatBalance
  rw [Pow_ten]
  simp only [NewFromBigInt]
  exact Div_int n (10 ^ d) hn (by positivity : (0 : Int) < 10 ^ d)

/-- Closed form of `ToWei` on a decimal whose exponent is an `int32`. -/
theorem ToWei_eq (x : Decimal) (hx : x.WF) :
    ToWei x = some (if 0 ≤ x.toRat then ⌊x.toRat * 10 ^ 18⌋ else ⌈x.toRat * 10 ^ 18⌉) := by
  unfold ToWei
  have hm : x.Mul WeiPerETH = some ⟨x.value * 1000000000000000000, x.exp + 0⟩ :=
    Mul_isSome x WeiPerETH (by simpa [WeiPerETH, NewFromBigInt] using hx.2)
      (by simpa [WeiPerETH, NewFromBigInt] using hx.1)
  rw [hm]
  simp only
  rw [BigInt_eq]
  have ht : (⟨x.value * 1000000000000000000, x.exp + 0⟩ : Decimal).toRat
      = x.toRat * 10 ^ 18 := by
    unfold toRat
    simp only [add_zero]
    push_cast
    ring
  rw [ht]
  have hs : (0 : ℚ) ≤ x.toRat * 10 ^ 18 ↔ 0 ≤ x.toRat := by
    constructor
    · intro h
      by_contra hc
      have : x.toRat * 10 ^ 18 < 0 := mul_neg_of_neg_of_pos (not_le.1 hc) (by positivity)
      linarith
    · intro h; positivity
  by_cases h : 0 ≤ x.toRat
  · rw [if_pos h, if_pos (hs.2 h)]
  · rw [if_neg h, if_neg (fun h2 => h (hs.1 h2))]

end decimal

namespace decimal

open Decimal

/-- C4, counterexample: one wei converted to ETH and back is zero wei, not
one. -/
theorem ToWei_FromWei_counterexample :
    (FromWei 1).bind ToWei = some 0 ∧ (FromWei 1).bind ToWei ≠ some 1 := by
  decide

/-- C4, amended: for a non-negative amount `n` of wei, `ToWei (FromWei n)` is
`n` rounded to the nearest multiple of 100 (halves rounding up), because
`FromWei` keeps 16 decimal places; it is `n` exactly when `n` is a multiple
of 100. -/
theorem ToWei_FromWei (n : Int) (hn : 0 ≤ n) :
    (FromWei n).bind ToWei = some (100 * ((n + 50) / 100)) ∧
    ((FromWei n).bind ToWei = some n ↔ 100 ∣ n) := by
  have h1 : (FromWei n).bind ToWei = some (100 * ((n + 50) / 100)) := by
    rw [FromWei_nonneg n hn]
    show ToWei ⟨(n + 50) / 100, -16⟩ = _
    rw [ToWei_eq _ (by simp [WF, MinInt32, MaxInt32])]
    have ht : (⟨(n + 50) / 100, -16⟩ : Decimal).toRat * 10 ^ 18
        = ((100 * ((n + 50) / 100) : Int) : ℚ) := by
      unfold toRat
      simp only
      rw [show (-16 : Int) = -(16 : Nat) by rfl, zpow_neg, zpow_natCast]
      push_cast
      field_simp
      ring
    rw [ht]
    split <;> simp only [Int.floor_intCast, Int.ceil_intCast]
  refine ⟨h1, ?_⟩
  rw [h1, Option.some.injEq]
  constructor
  · intro h
    exact ⟨(n + 50) / 100, h.symm⟩
  · rintro ⟨k, rfl⟩
    omega

/-- C4, amended, at `n = 1500000000000000000` (1.5 ETH). -/
theorem ToWei_FromWei_witness :
    (0 : Int) ≤ 1500000000000000000 ∧
    (FromWei 1500000000000000000).bind ToWei
      = some (100 * ((1500000000000000000 + 50) / 100)) :=
  ⟨by decide, (ToWei_FromWei 1500000000000000000 (by decide)).1⟩

/-- C5, counterexample: one unit at 18 decimals is `10 ^ (-18)`, but both
`FromWei 1` and `FormatBalance 1 18` are zero. -/
theorem FormatBalance_counterexample :
    FromWei 1 = some ⟨0, -16⟩ ∧ FormatBalance 1 18 = some ⟨0, -16⟩ ∧
    (⟨0, -16⟩ : Decimal).toRat ≠ 1 / 10 ^ 18 := by
  refine ⟨by decide, by decide, ?_⟩
  unfold toRat
  norm_num

/-- Value of the rounded quotient of `Div_int` as a rational number. -/
theorem toRat_rounded (n : Int) (d : Nat) :
    (⟨(2 * (n * 10 ^ 16) + 10 ^ d) / (2 * 10 ^ d), -16⟩ : Decimal).toRat
      = (⌊(n : ℚ) / 10 ^ d * 10 ^ 16 + 1 / 2⌋ : ℚ) / 10 ^ 16 := by
  rw [round_half_up_floor _ _ (by positivity : (0 : Int) < 10 ^ d)]
  unfold toRat
  simp only
  rw [show (-16 : Int) = -(16 : Nat) by rfl, zpow_neg, zpow_natCast, div_eq_mul_inv]
  congr 3
  push_cast
  ring

/-- The rounded quotient of `Div_int` is exact when the division is. -/
theorem toRat_rounded_of_dvd (n : Int) (d : Nat) (h : (10 : Int) ^ d ∣ n * 10 ^ 16) :
    (⟨(2 * (n * 10 ^ 16) + 10 ^ d) / (2 * 10 ^ d), -16⟩ : Decimal).toRat
      = (n : ℚ) / 10 ^ d := by
  have hD : (0 : Int) < 10 ^ d := by positivity
  obtain ⟨q, hq⟩ := h
  have hval : (2 * (n * 10 ^ 16) + 10 ^ d) / (2 * 10 ^ d) = q := by
    rw [← round_half_up _ _ hD, hq, Int.mul_ediv_cancel_left _ (ne_of_gt hD),
      Int.mul_emod_right, if_pos (by omega), add_zero]
  rw [hval]
  unfold toRat
  simp only
  rw [show (-16 : Int) = -(16 : Nat) by rfl, zpow_neg, zpow_natCast]
  have hq' : (n : ℚ) * 10 ^ 16 = 10 ^ d * (q : ℚ) := by exact_mod_cast hq
  have h10 : (10 : ℚ) ^ d ≠ 0 := by positivity
  field_simp
  linarith

/-- C5, amended: for a non-negative balance `n`, `FormatBalance n d` is
`n / 10 ^ d` rounded half up to 16 decimal places and `FromWei n` is
`n / 10 ^ 18` rounded half up to 16 decimal places.  The result is the exact
quotient whenever the quotient has at most 16 decimal places: always for
`d ≤ 16`, and for `FromWei` when `n` is a multiple of 100. -/
theorem FormatBalance_rounds (n : Int) (d : Nat) (hn : 0 ≤ n) :
    (∃ r, FormatBalance n d = some r ∧
      r.toRat = (⌊(n : ℚ) / 10 ^ d * 10 ^ 16 + 1 / 2⌋ : ℚ) / 10 ^ 16 ∧
      ((10 : Int) ^ d ∣ n * 10 ^ 16 → r.toRat = (n : ℚ) / 10 ^ d) ∧
      (d ≤ 16 → r.toRat = (n : ℚ) / 10 ^ d)) ∧
    (∃ r, FromWei n = some r ∧
      r.toRat = (⌊(n : ℚ) / 10 ^ 18 * 10 ^ 16 + 1 / 2⌋ : ℚ) / 10 ^ 16 ∧
      ((100 : Int) ∣ n → r.toRat = (n : ℚ) / 10 ^ 18)) := by
  constructor
  · refine ⟨_, FormatBalance_nonneg n d hn, toRat_rounded n d, toRat_rounded_of_dvd n d, ?_⟩
    intro hd
    apply toRat_rounded_of_dvd
    exact Dvd.dvd.mul_left (pow_dvd_pow 10 hd) n
  · have hF : FromWei n = some ⟨(2 * (n * 10 ^ 16) + 10 ^ 18) / (2 * 10 ^ 18), -16⟩ := by
      have := FormatBalance_nonneg n 18 hn
      unfold FormatBalance at this
      rw [Pow_ten] at this
      exact this
    refine ⟨_, hF, toRat_rounded n 18, ?_⟩
    rintro ⟨k, rfl⟩
    apply toRat_rounded_of_dvd
    exact ⟨k, by ring⟩

/-- C5, amended, at a balance of 1234567 units with 6 decimals (exact) and at
1.5 ETH in wei. -/
theorem FormatBalance_rounds_witness :
    (0 : Int) ≤ 1234567 ∧
    ∃ r, FormatBalance 1234567 6 = some r ∧
      r.toRat = (⌊((1234567 : Int) : ℚ) / 10 ^ 6 * 10 ^ 16 + 1 / 2⌋ : ℚ) / 10 ^ 16 ∧
      ((10 : Int) ^ 6 ∣ 1234567 * 10 ^ 16 → r.toRat = ((1234567 : Int) : ℚ) / 10 ^ 6) ∧
      (6 ≤ 16 → r.toRat = ((1234567 : Int) : ℚ) / 10 ^ 6) :=
  ⟨by decide, (FormatBalance_rounds 1234567 6 (by decide)).1⟩

/-- C6, counterexample: for the amount `-10 ^ (-19)`, `ToWei` gives 0 while
the floor of the amount times `10 ^ 18` is -1. -/
theorem ToWei_counterexample :
    ToWei ⟨-1, -19⟩ = some 0 ∧ ⌊(⟨-1, -19⟩ : Decimal).toRat * 10 ^ 18⌋ = -1 := by
  refine ⟨by decide, ?_⟩
  rw [Int.floor_eq_iff]
  unfold toRat
  simp only
  rw [show (-19 : Int) = -(19 : Nat) by rfl, zpow_neg, zpow_natCast]
  norm_num

/-- C6, amended: `ToWei x` is `x * 10 ^ 18` truncated toward zero.  For every
non-negative decimal `x` it is the floor of `x * 10 ^ 18`; for a negative `x`
it is the ceiling. -/
theorem ToWei_truncates (x : Decimal) (hx : x.WF) :
    (0 ≤ x.toRat → ToWei x = some ⌊x.toRat * 10 ^ 18⌋) ∧
    (x.toRat < 0 → ToWei x = some ⌈x.toRat * 10 ^ 18⌉) := by
  constructor
  · intro h
    rw [ToWei_eq x hx, if_pos h]
  · intro h
    rw [ToWei_eq x hx, if_neg (not_le.2 h)]

/-- C6, amended, at the amount 1.5. -/
theorem ToWei_truncates_witness :
    (⟨15, -1⟩ : Decimal).WF ∧
    ((0 ≤ (⟨15, -1⟩ : Decimal).toRat →
        ToWei ⟨15, -1⟩ = some ⌊(⟨15, -1⟩ : Decimal).toRat * 10 ^ 18⌋) ∧
      ((⟨15, -1⟩ : Decimal).toRat < 0 →
        ToWei ⟨15, -1⟩ = some ⌈(⟨15, -1⟩ : Decimal).toRat * 10 ^ 18⌉)) :=
  ⟨by decide, ToWei_truncates ⟨15, -1⟩ (by decide)⟩

end decimal

/-! ## Token resolution -/

namespace ethereum

open common

/-- The code's table lookup against the list of table entries: a symbol
without an entry gives the zero address, a symbol with an entry gives the
address of the entry, which is not the zero address. -/
theorem getTokenAddressBySymbol_lookup (id : String) :
    (symbolTable.lookup id = none ∧ getTokenAddressBySymbol id = Address.zero) ∨
    (∃ hex, symbolTable.lookup id = some hex ∧
      getTokenAddressBySymbol id = HexToAddress hex ∧ HexToAddress hex ≠ Address.zero) := by
  by_cases h1 : id = "USDC"
  · subst h1; exact Or.inr ⟨_, rfl, rfl, by decide⟩
  by_cases h2 : id = "USDT"
  · subst h2; exact Or.inr ⟨_, rfl, rfl, by decide⟩
  by_cases h3 : id = "DAI"
  · subst h3; exact Or.inr ⟨_, rfl, rfl, by decide⟩
  by_cases h4 : id = "WBTC"
  · subst h4; exact Or.inr ⟨_, rfl, rfl, by decide⟩
  by_cases h5 : id = "UNI"
  · subst h5; exact Or.inr ⟨_, rfl, rfl, by decide⟩
  by_cases h6 : id = "LINK"
  · subst h6; exact Or.inr ⟨_, rfl, rfl, by decide⟩
  by_cases h7 : id = "AAVE"
  · subst h7; exact Or.inr ⟨_, rfl, rfl, by decide⟩
  refine Or.inl ⟨?_, ?_⟩
  · have b1 : (id == "USDC") = false := beq_eq_false_iff_ne.2 h1
    have b2 : (id == "USDT") = false := beq_eq_false_iff_ne.2 h2
    have b3 : (id == "DAI") = false := beq_eq_false_iff_ne.2 h3
    have b4 : (id == "WBTC") = false := beq_eq_false_iff_ne.2 h4
    have b5 : (id == "UNI") = false := beq_eq_false_iff_ne.2 h5
    have b6 : (id == "LINK") = false := beq_eq_false_iff_ne.2 h6
    have b7 : (id == "AAVE") = false := beq_eq_false_iff_ne.2 h7
    simp only [symbolTable, List.lookup, b1, b2, b3, b4, b5, b6, b7]
  · unfold getTokenAddressBySymbol
    rw [if_neg h1, if_neg h2, if_neg h3, if_neg h4, if_neg h5, if_neg h6, if_neg h7]
    decide

/-- One token resolved by the code, against the specification's wording. -/
theorem resolve_one (ec : EthereumClient) (id : String) :
    (if id = "ETH" then some (HexToAddress ec.config.WETHAddress)
      else if IsHexAddress id then some (HexToAddress id)
      else if getTokenAddressBySymbol id = Address.zero then none
      else some (getTokenAddressBySymbol id)) = resolveTokenSpec ec id := by
  unfold resolveTokenSpec
  by_cases h1 : id = "ETH"
  · rw [if_pos h1, if_pos h1]
  · rw [if_neg h1, if_neg h1]
    by_cases h2 : IsHexAddress id = true
    · rw [if_pos h2, if_pos h2]
    · rw [if_neg h2, if_neg h2]
      rcases getTokenAddressBySymbol_lookup id with ⟨hl, hz⟩ | ⟨hex, hl, hz, hne⟩
      · rw [if_pos hz, hl]; rfl
      · rw [hz, if_neg hne, hl]; rfl

/-- A failed token resolution ends `SwapTokens` with a failed quote carrying
the resolution error. -/
theorem SwapTokens_unknown_token (ec : EthereumClient) (req : SwapRequest) (msg : String)
    (hv : validateSwapRequest req = none)
    (hg : getTokenAddresses ec req.FromToken req.ToToken = Except.error msg) :
    (SwapTokens ec req).1 = Outcome.ok (failedResponse msg) := by
  unfold SwapTokens
  rw [hv, hg]

/-- C7, counterexample: an identifier that cannot be resolved fails the
request with the reason `unknown from token: <id>` or `unknown to token: <id>`,
not with `unknown token: <id>`. -/
theorem getTokenAddresses_counterexample :
    getTokenAddresses sampleClient "FOO" "USDC" = Except.error "unknown from token: FOO" ∧
    getTokenAddresses sampleClient "ETH" "BAR" = Except.error "unknown to token: BAR" ∧
    (SwapTokens sampleClient ⟨"FOO", "USDC", ⟨1, 0⟩, ⟨1, -2⟩, false⟩).1
      = Outcome.ok (failedResponse "unknown from token: FOO") ∧
    (failedResponse "unknown from token: FOO").Error ≠ some "unknown token: FOO" := by
  refine ⟨rfl, rfl, by decide, by decide⟩

/-- C7, amended: `getTokenAddresses` resolves each of the two identifiers
independently as the specification says (`"ETH"` gives the configured WETH
address, a syntactically valid hex address is used unchanged, any other
identifier is looked up in the static symbol table), the source token first;
when an identifier has no table entry the whole call fails, with the reason
`unknown from token: <id>` for the source token and `unknown to token: <id>`
for the destination token. -/
theorem getTokenAddresses_spec (ec : EthereumClient) (fromToken toToken : String) :
    (getTokenAddresses ec fromToken toToken =
      match resolveTokenSpec ec fromToken, resolveTokenSpec ec toToken with
      | none, _ => Except.error ("unknown from token: " ++ fromToken)
      | some _, none => Except.error ("unknown to token: " ++ toToken)
      | some a, some b => Except.ok (a, b)) ∧
    (∀ (req : SwapRequest) (msg : String), validateSwapRequest req = none →
      getTokenAddresses ec req.FromToken req.ToToken = Except.error msg →
      (SwapTokens ec req).1 = Outcome.ok (failedResponse msg)) := by
  refine ⟨?_, fun req msg hv hg => SwapTokens_unknown_token ec req msg hv hg⟩
  rw [← resolve_one ec fromToken, ← resolve_one ec toToken]
  unfold getTokenAddresses
  by_cases h1 : fromToken = "ETH" <;> by_cases h2 : IsHexAddress fromToken = true <;>
    by_cases h3 : getTokenAddressBySymbol fromToken = Address.zero <;>
    by_cases t1 : toToken = "ETH" <;> by_cases t2 : IsHexAddress toToken = true <;>
    by_cases t3 : getTokenAddressBySymbol toToken = Address.zero <;>
    simp [h1, h2, h3, t1, t2, t3]

end ethereum

/-! ## Gas cost and output estimators -/

namespace Decimal

theorem toRat_nonneg_of_value (d : Decimal) (h : 0 ≤ d.value) : 0 ≤ d.toRat := by
  unfold toRat
  exact mul_nonneg (by exact_mod_cast h) (le_of_lt (ten_zpow_pos _))

theorem toRat_le_of_value_le (a b : Decimal) (he : a.exp = b.exp) (h : a.value ≤ b.value) :
    a.toRat ≤ b.toRat := by
  unfold toRat
  rw [he]
  exact mul_le_mul_of_nonneg_right (by exact_mod_cast h) (le_of_lt (ten_zpow_pos _))

end Decimal

namespace ethereum

open common Decimal

/-- `int64(x)` is `x` below `2 ^ 63`. -/
theorem toInt64_of_lt (g : Nat) (hg : g < 2 ^ 63) : toInt64 g = (g : Int) := by
  unfold toInt64
  have h1 : g % 2 ^ 64 = g := Nat.mod_eq_of_lt (by omega)
  simp only [h1]
  rw [if_pos hg]

/-- Closed form of `calculateGasCostUSD` for a gas estimate below `2 ^ 63` and a
non-negative gas price: the product in wei, converted by `FromWei`, times 2000. -/
theorem calculateGasCostUSD_of_lt (g : Nat) (p : Int) (hg : g < 2 ^ 63) (hp : 0 ≤ p) :
    calculateGasCostUSD g p = some ⟨(p * g + 50) / 100 * 2, -13⟩ ∧
    decimal.FromWei (p * g) = some ⟨(p * g + 50) / 100, -16⟩ := by
  have hF := decimal.FromWei_nonneg (p * g) (mul_nonneg hp (Int.natCast_nonneg g))
  refine ⟨?_, hF⟩
  unfold calculateGasCostUSD
  rw [toInt64_of_lt g hg, hF]
  exact Mul_isSome ⟨(p * g + 50) / 100, -16⟩ NewFromFloat_2000
    (show (-16 : Int) + 3 ≤ MaxInt32 by decide) (show MinInt32 ≤ (-16 : Int) + 3 by decide)

/-- C8: at the gas estimate `2 ^ 63`, a value of the `uint64` range, and a gas
price of 20 gwei, the conversion `int64(gasEstimate)` wraps to `-2 ^ 63` and
`calculateGasCostUSD` returns a negative cost. -/
theorem calculateGasCostUSD_wraps :
    toInt64 9223372036854775808 = -9223372036854775808 ∧
    calculateGasCostUSD 9223372036854775808 20000000000
      = some ⟨-3689348814741910323200000000, -13⟩ ∧
    (⟨-3689348814741910323200000000, -13⟩ : Decimal).toRat < 0 := by
  refine ⟨by decide, by decide, ?_⟩
  unfold toRat
  exact mul_neg_of_neg_of_pos (by norm_num) (ten_zpow_pos _)

/-- Closed form of `estimateV2Output` on a non-negative amount. -/
theorem estimateV2Output_nonneg (f t : Address) (a : Int) (ha : 0 ≤ a) :
    estimateV2Output f t a = some ⟨95 * ((a + 50) / 100), -18⟩ := by
  unfold estimateV2Output
  rw [decimal.FromWei_nonneg a ha]
  exact Mul_isSome NewFromFloat_0_95 ⟨(a + 50) / 100, -16⟩
    (show (-2 : Int) + -16 ≤ MaxInt32 by decide) (show MinInt32 ≤ (-2 : Int) + -16 by decide)

/-- Closed form of `estimateV3Output` on a non-negative amount. -/
theorem estimateV3Output_nonneg (f t : Address) (a : Int) (ha : 0 ≤ a) :
    estimateV3Output f t a = some ⟨97 * ((a + 50) / 100), -18⟩ := by
  unfold estimateV3Output
  rw [decimal.FromWei_nonneg a ha]
  exact Mul_isSome NewFromFloat_0_97 ⟨(a + 50) / 100, -16⟩
    (show (-2 : Int) + -16 ≤ MaxInt32 by decide) (show MinInt32 ≤ (-2 : Int) + -16 by decide)

/-- C9: each output estimator is a function of `(fromToken, toToken, amountIn)`
alone that returns a value for every non-negative amount, and the value is
non-negative and monotonically increasing in the amount: for non-negative
amounts `a ≤ b`, `estimate a ≤ estimate b`. -/
theorem estimate_monotone (fromToken toToken : Address) (a b : Int) (ha : 0 ≤ a)
    (hab : a ≤ b) :
    (∃ ea eb, estimateV2Output fromToken toToken a = some ea ∧
      estimateV2Output fromToken toToken b = some eb ∧
      0 ≤ ea.toRat ∧ ea.toRat ≤ eb.toRat) ∧
    (∃ ea eb, estimateV3Output fromToken toToken a = some ea ∧
      estimateV3Output fromToken toToken b = some eb ∧
      0 ≤ ea.toRat ∧ ea.toRat ≤ eb.toRat) := by
  have hb : 0 ≤ b := le_trans ha hab
  have hq : 0 ≤ (a + 50) / 100 := Int.ediv_nonneg (by omega) (by decide)
  have hm : (a + 50) / 100 ≤ (b + 50) / 100 := Int.ediv_le_ediv (by decide) (by omega)
  constructor
  · refine ⟨_, _, estimateV2Output_nonneg _ _ a ha, estimateV2Output_nonneg _ _ b hb, ?_, ?_⟩
    · exact toRat_nonneg_of_value _ (by show (0 : Int) ≤ 95 * ((a + 50) / 100); omega)
    · exact toRat_le_of_value_le _ _ rfl
        (by show (95 : Int) * ((a + 50) / 100) ≤ 95 * ((b + 50) / 100); omega)
  · refine ⟨_, _, estimateV3Output_nonneg _ _ a ha, estimateV3Output_nonneg _ _ b hb, ?_, ?_⟩
    · exact toRat_nonneg_of_value _ (by show (0 : Int) ≤ 97 * ((a + 50) / 100); omega)
    · exact toRat_le_of_value_le _ _ rfl
        (by show (97 : Int) * ((a + 50) / 100) ≤ 97 * ((b + 50) / 100); omega)

/-- C9 at the amounts of 1 ETH and 2 ETH in wei. -/
theorem estimate_monotone_witness :
    ((0 : Int) ≤ 1000000000000000000 ∧ (1000000000000000000 : Int) ≤ 2000000000000000000) ∧
    ∃ ea eb, estimateV2Output Address.zero Address.zero 1000000000000000000 = some ea ∧
      estimateV2Output Address.zero Address.zero 2000000000000000000 = some eb ∧
      0 ≤ ea.toRat ∧ ea.toRat ≤ eb.toRat :=
  ⟨⟨by decide, by decide⟩,
   (estimate_monotone Address.zero Address.zero 1000000000000000000 2000000000000000000
      (by decide) (by decide)).1⟩

end ethereum

/-! ## Estimated output against the input amount -/

namespace decimal

open Decimal

/-- `ToWei` returns only for a decimal whose exponent is an `int32`. -/
theorem ToWei_some_WF (x : Decimal) (n : Int) (h : ToWei x = some n) : x.WF := by
  by_contra hx
  have hm : x.Mul WeiPerETH = none := by
    unfold Decimal.Mul
    have : x.exp + WeiPerETH.exp > MaxInt32 ∨ x.exp + WeiPerETH.exp < MinInt32 := by
      have h0 : WeiPerETH.exp = 0 := rfl
      rw [h0, add_zero]
      unfold WF at hx
      by_cases h1 : MinInt32 ≤ x.exp
      · left
        by_contra h2
        exact hx ⟨h1, not_lt.1 h2⟩
      · right
        exact not_le.1 h1
    simp only [this, if_true]
  unfold ToWei at h
  rw [hm] at h
  exact absurd h (by simp)

end decimal

namespace ethereum

open common Decimal

/-- The amount a quote is estimated from: wei of the requested amount, turned
back into `10 ^ (-16)` units.  It exceeds the amount by at most half a unit,
and is the amount itself when the amount is a whole number of units. -/
theorem units_of_amount (a : ℚ) (ha : 0 ≤ a) :
    0 ≤ (⌊a * 10 ^ 18⌋ + 50) / 100 ∧
    (((⌊a * 10 ^ 18⌋ + 50) / 100 : Int) : ℚ) ≤ a * 10 ^ 16 + 1 / 2 ∧
    ∀ k : Int, a = (k : ℚ) / 10 ^ 16 → (⌊a * 10 ^ 18⌋ + 50) / 100 = k := by
  have hN : 0 ≤ ⌊a * 10 ^ 18⌋ := Int.floor_nonneg.2 (by positivity)
  refine ⟨Int.ediv_nonneg (by omega) (by decide), ?_, ?_⟩
  · have h1 : (⌊a * 10 ^ 18⌋ + 50) / 100 * 100 ≤ ⌊a * 10 ^ 18⌋ + 50 :=
      Int.ediv_mul_le _ (by decide)
    have h2 : (((⌊a * 10 ^ 18⌋ + 50) / 100 : Int) : ℚ) * 100 ≤ (⌊a * 10 ^ 18⌋ : ℚ) + 50 := by
      exact_mod_cast h1
    have h3 : (⌊a * 10 ^ 18⌋ : ℚ) ≤ a * 10 ^ 18 := Int.floor_le _
    have h4 : a * 10 ^ 18 = a * 10 ^ 16 * 100 := by ring
    generalize (⌊a * 10 ^ 18⌋ : Int) = N at h2 h3 ⊢
    rw [h4] at h3
    generalize a * 10 ^ 16 = b at h3 ⊢
    generalize (((N + 50) / 100 : Int) : ℚ) = v at h2 ⊢
    linarith
  · intro k hk
    have h1 : a * 10 ^ 18 = ((100 * k : Int) : ℚ) := by
      rw [hk]
      push_cast
      field_simp
      ring
    rw [h1, Int.floor_intCast]
    omega

/-- How `SwapTokens` comes to return a quote for a request that passed
validation: a failed quote, or the quote of the simulation its `UseV3` flag
selects. -/
theorem SwapTokens_ok_cases (ec : EthereumClient) (req : SwapRequest) (quote : SwapResponse)
    (hv : validateSwapRequest req = none)
    (h : (SwapTokens ec req).1 = Outcome.ok quote) :
    (∃ msg, quote = failedResponse msg) ∨
    (∃ f t, (req.UseV3 = true ∧ (simulateUniswapV3Swap ec req f t).1 = Outcome.ok quote) ∨
      (req.UseV3 = false ∧ (simulateUniswapV2Swap ec req f t).1 = Outcome.ok quote)) := by
  unfold SwapTokens at h
  rw [hv] at h
  simp only at h
  rcases hg : getTokenAddresses ec req.FromToken req.ToToken with msg | ⟨f, t⟩
  · rw [hg] at h
    simp only [Outcome.ok.injEq] at h
    exact Or.inl ⟨msg, h.symm⟩
  · rw [hg] at h
    simp only at h
    cases hU : req.UseV3 with
    | true =>
      rw [hU] at h
      simp only [if_true] at h
      rcases hr : (simulateUniswapV3Swap ec req f t).1 with q | msg | _
      · rw [hr] at h
        simp only [Outcome.ok.injEq] at h
        subst h
        exact Or.inr ⟨f, t, Or.inl ⟨rfl, hr⟩⟩
      · rw [hr] at h
        simp only [Outcome.ok.injEq] at h
        exact Or.inl ⟨msg, h.symm⟩
      · rw [hr] at h
        cases h
    | false =>
      rw [hU] at h
      simp only [Bool.false_eq_true, if_false] at h
      rcases hr : (simulateUniswapV2Swap ec req f t).1 with q | msg | _
      · rw [hr] at h
        simp only [Outcome.ok.injEq] at h
        subst h
        exact Or.inr ⟨f, t, Or.inr ⟨rfl, hr⟩⟩
      · rw [hr] at h
        simp only [Outcome.ok.injEq] at h
        exact Or.inl ⟨msg, h.symm⟩
      · rw [hr] at h
        cases h

end ethereum

namespace ethereum

open common Decimal

/-- Bounds on an estimate `c / 100` times the `10 ^ (-16)` units `v` the amount
`a` was turned into, for a multiplier `c / 100` of at most 0.97. -/
theorem estimate_bounds (c v : Int) (a : ℚ) (hc0 : 0 ≤ c) (hc : c ≤ 97)
    (hv : (v : ℚ) ≤ a * 10 ^ 16 + 1 / 2)
    (hk : ∀ k : Int, a = (k : ℚ) / 10 ^ 16 → v = k) :
    (⟨c * v, -18⟩ : Decimal).toRat ≤ (c : ℚ) / 100 * (a + 1 / (2 * 10 ^ 16)) ∧
    (∀ k : Int, a = (k : ℚ) / 10 ^ 16 →
      (⟨c * v, -18⟩ : Decimal).toRat = (c : ℚ) / 100 * a) ∧
    (2 / 10 ^ 15 ≤ a → (⟨c * v, -18⟩ : Decimal).toRat ≤ a) := by
  have ht : (⟨c * v, -18⟩ : Decimal).toRat = (c : ℚ) / 100 * ((v : ℚ) / 10 ^ 16) := by
    unfold toRat
    simp only
    rw [show (-18 : Int) = -(18 : Nat) by rfl, zpow_neg, zpow_natCast]
    push_cast
    rw [div_mul_div_comm, div_eq_mul_inv]
    norm_num
  have hcq0 : (0 : ℚ) ≤ (c : ℚ) / 100 := div_nonneg (by exact_mod_cast hc0) (by norm_num)
  have hcq : (c : ℚ) / 100 ≤ 97 / 100 := by
    have : (c : ℚ) ≤ 97 := by exact_mod_cast hc
    linarith
  have hvq : (v : ℚ) / 10 ^ 16 ≤ a + 1 / (2 * 10 ^ 16) := by
    rw [div_le_iff₀ (by positivity)]
    have : (a + 1 / (2 * 10 ^ 16)) * 10 ^ 16 = a * 10 ^ 16 + 1 / 2 := by
      field_simp
      ring
    rw [this]
    exact hv
  have hb : (⟨c * v, -18⟩ : Decimal).toRat ≤ (c : ℚ) / 100 * (a + 1 / (2 * 10 ^ 16)) := by
    rw [ht]
    exact mul_le_mul_of_nonneg_left hvq hcq0
  refine ⟨hb, ?_, ?_⟩
  · intro k hk'
    rw [ht, hk k hk', hk']
  · intro h2
    have h3 : (c : ℚ) / 100 * (a + 1 / (2 * 10 ^ 16))
        ≤ 97 / 100 * (a + 1 / (2 * 10 ^ 16)) :=
      mul_le_mul_of_nonneg_right hcq (by positivity)
    have h4 : (97 : ℚ) / 100 * (a + 1 / (2 * 10 ^ 16)) ≤ a := by
      have h5 : (1 : ℚ) / (2 * 10 ^ 16) ≤ 3 / 97 * a := by
        have : (3 : ℚ) / 97 * (2 / 10 ^ 15) ≤ 3 / 97 * a :=
          mul_le_mul_of_nonneg_left h2 (by norm_num)
        refine le_trans ?_ this
        norm_num
      linarith
    linarith

/-- C10, counterexample: for the valid request of `5 * 10 ^ (-17)` ETH on the
V2 route the quote's estimated output is `95 * 10 ^ (-18)`, more than the
input amount and so more than 0.95 times it. -/
theorem EstimatedOutput_counterexample :
    validateSwapRequest ⟨"ETH", "USDC", ⟨5, -17⟩, ⟨1, -2⟩, false⟩ = none ∧
    (SwapTokens sampleClient ⟨"ETH", "USDC", ⟨5, -17⟩, ⟨1, -2⟩, false⟩).1 =
      Outcome.ok
        { FromToken := "ETH", ToToken := "USDC", InputAmount := ⟨5, -17⟩,
          EstimatedOutput := ⟨95, -18⟩, MinOutput := ⟨9405, -20⟩, GasEstimate := 150000,
          GasPrice := ⟨200000000, -16⟩, GasCostUSD := ⟨60000000000000, -13⟩,
          Slippage := ⟨1, -2⟩, Router := "Uniswap V2", Success := true, Error := none } ∧
    (⟨5, -17⟩ : Decimal).toRat < (⟨95, -18⟩ : Decimal).toRat := by
  refine ⟨by decide, by decide, ?_⟩
  unfold toRat
  simp only
  rw [show (-17 : Int) = -(17 : Nat) by rfl, show (-18 : Int) = -(18 : Nat) by rfl,
    zpow_neg, zpow_neg, zpow_natCast, zpow_natCast]
  norm_num

/-- C10, amended: for every request that passes validation (so with amount
`a > 0`), the estimated output of the quote `SwapTokens` returns is at most
the router's multiplier (0.95 on the V2 route, 0.97 on the V3 route) times
`a + 5 * 10 ^ (-17)`: the amount goes through `ToWei` and `FromWei`, which
rounds half up at 16 decimal places.  When `a` has at most 16 decimal places
the estimated output is at most the multiplier times `a`, with equality for a
successful quote; and whenever `a ≥ 2 * 10 ^ (-15)` the estimated output does
not exceed the input amount. -/
theorem EstimatedOutput_bound (ec : EthereumClient) (req : SwapRequest)
    (quote : SwapResponse) (hv : validateSwapRequest req = none)
    (h : (SwapTokens ec req).1 = Outcome.ok quote) :
    quote.EstimatedOutput.toRat
      ≤ (if req.UseV3 = true then (97 : ℚ) / 100 else 95 / 100)
          * (req.Amount.toRat + 1 / (2 * 10 ^ 16)) ∧
    (∀ k : Int, req.Amount.toRat = (k : ℚ) / 10 ^ 16 →
      quote.EstimatedOutput.toRat
          ≤ (if req.UseV3 = true then (97 : ℚ) / 100 else 95 / 100) * req.Amount.toRat ∧
        (quote.Success = true →
          quote.EstimatedOutput.toRat
            = (if req.UseV3 = true then (97 : ℚ) / 100 else 95 / 100) * req.Amount.toRat)) ∧
    (2 / 10 ^ 15 ≤ req.Amount.toRat → quote.EstimatedOutput.toRat ≤ req.Amount.toRat) := by
  have ha : 0 < req.Amount.toRat := ((validateSwapRequest_eq_none_iff req).1 hv).1
  have hm0 : (0 : ℚ) ≤ (if req.UseV3 = true then (97 : ℚ) / 100 else 95 / 100) := by
    split <;> norm_num
  rcases SwapTokens_ok_cases ec req quote hv h with ⟨msg, hq⟩ | ⟨f, t, hsim⟩
  · have hz : quote.EstimatedOutput.toRat = 0 := by
      rw [hq]
      simp [failedResponse, toRat]
    rw [hz]
    refine ⟨mul_nonneg hm0 (by positivity), fun k _ => ⟨mul_nonneg hm0 (le_of_lt ha), ?_⟩,
      fun _ => le_of_lt ha⟩
    intro hs
    rw [hq] at hs
    exact absurd hs (by simp [failedResponse])
  · have core : ∀ (c : Int) (amountIn : Int), 0 ≤ c → c ≤ 97 →
        decimal.ToWei req.Amount = some amountIn →
        quote.EstimatedOutput = ⟨c * ((amountIn + 50) / 100), -18⟩ →
        quote.EstimatedOutput.toRat ≤ (c : ℚ) / 100 * (req.Amount.toRat + 1 / (2 * 10 ^ 16)) ∧
        (∀ k : Int, req.Amount.toRat = (k : ℚ) / 10 ^ 16 →
          quote.EstimatedOutput.toRat = (c : ℚ) / 100 * req.Amount.toRat) ∧
        (2 / 10 ^ 15 ≤ req.Amount.toRat → quote.EstimatedOutput.toRat ≤ req.Amount.toRat) := by
      intro c amountIn hc0 hc hT hE
      have hWF := decimal.ToWei_some_WF _ _ hT
      rw [decimal.ToWei_eq _ hWF, if_pos (le_of_lt ha), Option.some.injEq] at hT
      obtain ⟨-, u1, u2⟩ := units_of_amount req.Amount.toRat (le_of_lt ha)
      rw [hE, ← hT]
      exact estimate_bounds c _ _ hc0 hc u1 u2
    rcases hsim with ⟨hU, hs⟩ | ⟨hU, hs⟩
    · obtain ⟨amountIn, hT, hE, -⟩ := simulateUniswapV3Swap_ok ec req f t quote hs
      have hN : 0 ≤ amountIn := by
        have hWF := decimal.ToWei_some_WF _ _ hT
        rw [decimal.ToWei_eq _ hWF, if_pos (le_of_lt ha), Option.some.injEq] at hT
        rw [← hT]
        exact Int.floor_nonneg.2 (by positivity)
      rw [estimateV3Output_nonneg f t amountIn hN, Option.some.injEq] at hE
      obtain ⟨c1, c2, c3⟩ := core 97 amountIn (by decide) (by decide) hT hE.symm
      rw [if_pos hU]
      have e97 : ((97 : Int) : ℚ) / 100 = 97 / 100 := by norm_num
      rw [e97] at c1 c2
      exact ⟨c1, fun k hk => ⟨le_of_eq (c2 k hk), fun _ => c2 k hk⟩, c3⟩
    · obtain ⟨amountIn, hT, hE, -⟩ := simulateUniswapV2Swap_ok ec req f t quote hs
      have hN : 0 ≤ amountIn := by
        have hWF := decimal.ToWei_some_WF _ _ hT
        rw [decimal.ToWei_eq _ hWF, if_pos (le_of_lt ha), Option.some.injEq] at hT
        rw [← hT]
        exact Int.floor_nonneg.2 (by positivity)
      rw [estimateV2Output_nonneg f t amountIn hN, Option.some.injEq] at hE
      obtain ⟨c1, c2, c3⟩ := core 95 amountIn (by decide) (by decide) hT hE.symm
      rw [if_neg (by rw [hU]; decide)]
      have e95 : ((95 : Int) : ℚ) / 100 = 95 / 100 := by norm_num
      rw [e95] at c1 c2
      exact ⟨c1, fun k hk => ⟨le_of_eq (c2 k hk), fun _ => c2 k hk⟩, c3⟩

/-- C10, amended, at the specification's example request of 1 ETH on the V2
route. -/
theorem EstimatedOutput_bound_witness :
    validateSwapRequest sampleRequest = none ∧
    (SwapTokens sampleClient sampleRequest).1 = Outcome.ok sampleQuote ∧
    sampleQuote.EstimatedOutput.toRat
      ≤ (if sampleRequest.UseV3 = true then (97 : ℚ) / 100 else 95 / 100)
          * (sampleRequest.Amount.toRat + 1 / (2 * 10 ^ 16)) :=
  ⟨by decide, by decide,
   (EstimatedOutput_bound sampleClient sampleRequest sampleQuote (by decide) (by decide)).1⟩

end ethereum

/-! ## Gas retrieval failures -/

namespace ethereum

open common

/-- Both route simulations send the gas estimate call from the wallet
address to their router with value 0 and empty data, and end with the error of
the gas call that failed, prefixed with the name of the step. -/
theorem simulate_gas_failure (ec : EthereumClient) (req : SwapRequest) (f t : Address)
    (hw : req.Amount.WF) :
    (∀ err, ec.client.EstimateGas ⟨ec.walletAddress,
          some (HexToAddress ec.config.UniswapV2Router), 0, []⟩ = .error err →
        (simulateUniswapV2Swap ec req f t).1 = .error ("failed to estimate gas: " ++ err)) ∧
    (∀ g err, ec.client.EstimateGas ⟨ec.walletAddress,
          some (HexToAddress ec.config.UniswapV2Router), 0, []⟩ = .ok g →
        ec.client.SuggestGasPrice = .error err →
        (simulateUniswapV2Swap ec req f t).1 = .error ("failed to get gas price: " ++ err)) ∧
    (∀ err, ec.client.EstimateGas ⟨ec.walletAddress,
          some (HexToAddress ec.config.UniswapV3Router), 0, []⟩ = .error err →
        (simulateUniswapV3Swap ec req f t).1 = .error ("failed to estimate gas: " ++ err)) ∧
    (∀ g err, ec.client.EstimateGas ⟨ec.walletAddress,
          some (HexToAddress ec.config.UniswapV3Router), 0, []⟩ = .ok g →
        ec.client.SuggestGasPrice = .error err →
        (simulateUniswapV3Swap ec req f t).1 = .error ("failed to get gas price: " ++ err)) := by
  obtain ⟨n, hn⟩ : ∃ n, decimal.ToWei req.Amount = some n := by
    rw [decimal.ToWei_eq _ hw]
    exact ⟨_, rfl⟩
  have hd2 : (if f = HexToAddress ec.config.WETHAddress then
        buildV2SwapExactETHForTokens n t
      else if t = HexToAddress ec.config.WETHAddress then
        buildV2SwapExactTokensForETH n f
      else buildV2SwapExactTokensForTokens n f t) = [] := by
    split
    · rfl
    · split <;> rfl
  refine ⟨?_, ?_, ?_, ?_⟩
  · intro err he
    unfold simulateUniswapV2Swap
    simp only [hn, hd2, EthereumClient.EstimateGas, he]
  · intro g err he hp
    unfold simulateUniswapV2Swap
    simp only [hn, hd2, EthereumClient.EstimateGas, EthereumClient.GetGasPrice, he, hp]
  · intro err he
    unfold simulateUniswapV3Swap
    simp only [hn, buildV3SwapData, EthereumClient.EstimateGas, he]
  · intro g err he hp
    unfold simulateUniswapV3Swap
    simp only [hn, buildV3SwapData, EthereumClient.EstimateGas, EthereumClient.GetGasPrice, he,
      hp]

/-- C11, counterexample: for the sample request at a node whose gas estimate
fails with `execution reverted`, and at a node whose gas price request fails
with `connection refused`, the quote is failed with a reason that names the
failed call and carries the node's error text; the reason is not
`gas estimation unavailable`. -/
theorem SwapTokens_gas_failure_counterexample :
    validateSwapRequest sampleRequest = none ∧
    (SwapTokens failingEstimateClient sampleRequest).1
      = Outcome.ok (failedResponse "failed to estimate gas: execution reverted") ∧
    (SwapTokens failingPriceClient sampleRequest).1
      = Outcome.ok (failedResponse "failed to get gas price: connection refused") ∧
    (failedResponse "failed to estimate gas: execution reverted").Error
      ≠ some "gas estimation unavailable" ∧
    (failedResponse "failed to get gas price: connection refused").Error
      ≠ some "gas estimation unavailable" := by
  refine ⟨by decide, by decide, by decide, by decide, by decide⟩

/-- C11, amended: for a validated request whose tokens resolve, `SwapTokens`
does not panic and returns no Go error when gas retrieval fails.  If the gas
estimate call (sent from the wallet address to the router of the chosen
route, with value 0 and empty data) fails with `err`, the quote has
`Success = false` and the reason `failed to estimate gas: err`; if that call
succeeds and the gas price call fails with `err`, the quote has
`Success = false` and the reason `failed to get gas price: err`. -/
theorem SwapTokens_gas_failure (ec : EthereumClient) (req : SwapRequest) (f t : Address)
    (hv : validateSwapRequest req = none) (hw : req.Amount.WF)
    (hg : getTokenAddresses ec req.FromToken req.ToToken = Except.ok (f, t)) :
    (∀ err, ec.client.EstimateGas ⟨ec.walletAddress,
          some (HexToAddress (if req.UseV3 then ec.config.UniswapV3Router
            else ec.config.UniswapV2Router)), 0, []⟩ = .error err →
        (SwapTokens ec req).1 = Outcome.ok (failedResponse ("failed to estimate gas: " ++ err)) ∧
        (failedResponse ("failed to estimate gas: " ++ err)).Success = false) ∧
    (∀ g err, ec.client.EstimateGas ⟨ec.walletAddress,
          some (HexToAddress (if req.UseV3 then ec.config.UniswapV3Router
            else ec.config.UniswapV2Router)), 0, []⟩ = .ok g →
        ec.client.SuggestGasPrice = .error err →
        (SwapTokens ec req).1 = Outcome.ok (failedResponse ("failed to get gas price: " ++ err)) ∧
        (failedResponse ("failed to get gas price: " ++ err)).Success = false) := by
  obtain ⟨h1, h2, h3, h4⟩ := simulate_gas_failure ec req f t hw
  cases hu : req.UseV3
  · simp only [Bool.false_eq_true, if_false]
    refine ⟨fun err he => ⟨?_, rfl⟩, fun g err he hp => ⟨?_, rfl⟩⟩
    · unfold SwapTokens
      simp only [hv, hg, hu, Bool.false_eq_true, if_false, h1 err he]
    · unfold SwapTokens
      simp only [hv, hg, hu, Bool.false_eq_true, if_false, h2 g err he hp]
  · simp only [if_true]
    refine ⟨fun err he => ⟨?_, rfl⟩, fun g err he hp => ⟨?_, rfl⟩⟩
    · unfold SwapTokens
      simp only [hv, hg, hu, if_true, h3 err he]
    · unfold SwapTokens
      simp only [hv, hg, hu, if_true, h4 g err he hp]

/-- C11 at the sample request and the node whose gas estimate fails. -/
theorem SwapTokens_gas_failure_witness :
    validateSwapRequest sampleRequest = none ∧ sampleRequest.Amount.WF ∧
    (SwapTokens failingEstimateClient sampleRequest).1
      = Outcome.ok (failedResponse ("failed to estimate gas: " ++ "execution reverted")) :=
  ⟨by decide, by decide,
    ((SwapTokens_gas_failure failingEstimateClient sampleRequest
      (HexToAddress "0xC02aaA39b223FE8D0A0e5C4F27eAD9083C756Cc2")
      (HexToAddress "0xA0b86991c6218b36c1d19D4a2e9Eb0cE3606eB48")
      (by decide) (by decide) rfl).1 "execution reverted" rfl).1⟩

end ethereum

/-! ## Address validation -/

namespace common

theorem isHex_of_length_forty (d : List UInt8) (h : d.length = 40) :
    isHex d = d.all isHexCharacter := by
  unfold isHex
  rw [h]
  rfl

/-- `IsHexAddress` on the bytes of the string: 40 hex digits, or a `0x` or `0X`
prefix followed by 40 hex digits. -/
theorem IsHexAddress_bytes (b : List UInt8) :
    ((if has0xPrefix b then b.drop 2 else b).length == 2 * AddressLength
        && isHex (if has0xPrefix b then b.drop 2 else b))
      = ((b.length == 40 && b.all isHexCharacter)
        || ((b.take 2 == [48, 120] || b.take 2 == [48, 88])
          && ((b.drop 2).length == 40 && (b.drop 2).all isHexCharacter))) := by
  have key : ∀ d : List UInt8, (d.length == 2 * AddressLength && isHex d)
      = (d.length == 40 && d.all isHexCharacter) := by
    intro d
    by_cases h : d.length = 40
    · rw [isHex_of_length_forty d h]
      rfl
    · have h1 : (d.length == 2 * AddressLength) = false := by
        simpa [AddressLength] using h
      have h2 : (d.length == 40) = false := by simpa using h
      rw [h1, h2]
      rfl
  match b with
  | [] => rfl
  | [a] =>
    have h0 : has0xPrefix [a] = false := rfl
    rw [h0, key]
    simp
  | a :: c :: rest =>
    by_cases hp : has0xPrefix (a :: c :: rest) = true
    · rw [if_pos hp, key]
      have hp2 := hp
      simp only [has0xPrefix, Bool.and_eq_true, Bool.or_eq_true, beq_iff_eq] at hp2
      obtain ⟨ha, hc⟩ := hp2
      have hnot : isHexCharacter c = false := by
        rcases hc with hc | hc <;> subst hc <;> decide
      have hall : (a :: c :: rest).all isHexCharacter = false := by
        simp [List.all_cons, hnot]
      have htake : ((a :: c :: rest).take 2 == [48, 120] || (a :: c :: rest).take 2 == [48, 88])
          = true := by
        subst ha
        rcases hc with hc | hc <;> subst hc <;> simp [List.take]
      rw [hall, htake]
      simp
    · have hp3 : has0xPrefix (a :: c :: rest) = false := by simpa using hp
      rw [if_neg hp, key]
      have htake : ((a :: c :: rest).take 2 == [48, 120] || (a :: c :: rest).take 2 == [48, 88])
          = false := by
        have hp4 := hp3
        simp only [has0xPrefix] at hp4
        simp only [List.take, Bool.or_eq_false_iff]
        constructor
        · apply beq_eq_false_iff_ne.2
          intro h
          simp only [List.cons.injEq, and_true] at h
          obtain ⟨h1, h2⟩ := h
          subst h1 h2
          simp at hp4
        · apply beq_eq_false_iff_ne.2
          intro h
          simp only [List.cons.injEq, and_true] at h
          obtain ⟨h1, h2⟩ := h
          subst h1 h2
          simp at hp4
      rw [htake]
      simp

end common

namespace ethereum

open common

theorem isHexDigitByte_eq : isHexDigitByte = isHexCharacter := rfl

/-- The library test `IsHexAddress` is the address syntax of the
specification. -/
theorem IsHexAddress_eq_isAddressText (s : String) : IsHexAddress s = isAddressText s := by
  unfold IsHexAddress isAddressText isFortyHexDigits
  rw [isHexDigitByte_eq]
  exact IsHexAddress_bytes (bytesOf s)

/-- C19: `ValidateAddress s` fails, with the error `invalid Ethereum address: s`,
exactly when `s` is not made of exactly 40 hexadecimal digits after an optional
`0x` or `0X` prefix, and accepts every other string, returning its address;
`not-an-address` is rejected, and so is every string whose digits after the
optional prefix are fewer or more than 40. -/
theorem ValidateAddress_iff (s : String) :
    (ValidateAddress s = Except.error ("invalid Ethereum address: " ++ s)
      ↔ isAddressText s = false) ∧
    (isAddressText s = true ↔ ValidateAddress s = Except.ok (HexToAddress s)) ∧
    ((bytesOf s).length ≠ 40 ∧ ((bytesOf s).drop 2).length ≠ 40 →
      ValidateAddress s = Except.error ("invalid Ethereum address: " ++ s)) ∧
    ValidateAddress "not-an-address"
      = Except.error "invalid Ethereum address: not-an-address" := by
  have hv : ∀ s : String, ValidateAddress s =
      if isAddressText s = true then Except.ok (HexToAddress s)
      else Except.error ("invalid Ethereum address: " ++ s) := by
    intro s
    unfold ValidateAddress
    rw [IsHexAddress_eq_isAddressText]
    cases isAddressText s <;> rfl
  refine ⟨?_, ?_, ?_, rfl⟩
  · rw [hv]
    cases h : isAddressText s <;> simp
  · rw [hv]
    cases h : isAddressText s <;> simp
  · rintro ⟨h1, h2⟩
    rw [hv]
    have : isAddressText s = false := by
      unfold isAddressText isFortyHexDigits
      have e1 : ((bytesOf s).length == 40) = false := by simpa using h1
      have e2 : (((bytesOf s).drop 2).length == 40) = false := by simpa using h2
      simp only [e1, e2, Bool.false_and, Bool.and_false, Bool.or_false]
    rw [this]
    rfl

end ethereum

/-! ## Native balance query -/

namespace decimal

open Decimal

/-- `FromWei` returns for every integer: the divisor is not zero and the
exponents stay far inside the `int32` range. -/
theorem FromWei_total (n : Int) : ∃ d, FromWei n = some d := by
  unfold FromWei Decimal.Div Decimal.DivRound Decimal.QuoRem
  simp only [WeiPerETH, NewFromBigInt, DivisionPrecision, MaxInt32, MinInt32]
  norm_num
  split_ifs <;> exact ⟨_, rfl⟩

end decimal

namespace ethereum

open common

/-- The native branch of `GetBalance` for a validated address and an answer
of the node. -/
theorem GetBalance_native (keccak256 : List UInt8 → List UInt8) (ec : EthereumClient)
    (s : String) (a : Address) (n : Int) (bal : Decimal)
    (hs : ValidateAddress s = Except.ok a) (hn : ec.client.BalanceAt a = Except.ok n)
    (hb : decimal.FromWei n = some bal) :
    GetBalance keccak256 ec s none = Outcome.ok
      { Address := a.Hex keccak256, TokenAddress := none, Balance := bal, Decimals := 18,
        Symbol := some "ETH", Name := some "Ethereum", IsETH := true } := by
  unfold GetBalance
  simp only [hs, hn, hb]

/-- C18, counterexample: the address of the specification's example,
`0x0000000000000000000000000000000000dEaD`, has 38 hexadecimal digits after
its prefix (40 bytes in all), so `ValidateAddress` rejects it and `GetBalance`
at a node answering the balance 1500000000000000000 returns the
invalid-address error, not a balance. -/
theorem GetBalance_example_counterexample :
    (bytesOf "0x0000000000000000000000000000000000dEaD").length = 2 + 38 ∧
    ValidateAddress "0x0000000000000000000000000000000000dEaD"
      = Except.error "invalid Ethereum address: 0x0000000000000000000000000000000000dEaD" ∧
    sampleClient.client.BalanceAt (HexToAddress "0x0000000000000000000000000000000000dEaD")
      = Except.ok 1500000000000000000 ∧
    ¬ ∃ keccak256 r, GetBalance keccak256 sampleClient
        "0x0000000000000000000000000000000000dEaD" none = Outcome.ok r := by
  refine ⟨rfl, rfl, rfl, ?_⟩
  rintro ⟨keccak256, r, h⟩
  have he : GetBalance keccak256 sampleClient "0x0000000000000000000000000000000000dEaD" none
      = Outcome.error "invalid Ethereum address: 0x0000000000000000000000000000000000dEaD" :=
    rfl
  rw [he] at h
  cases h

/-- C18, amended: for every string `s` that `ValidateAddress` accepts and every
native balance `n` the node answers for its address, `GetBalance` with no
token address succeeds with `Balance = FromWei n`, `Decimals = 18`,
`IsETH = true`, symbol `ETH`, name `Ethereum` and no `TokenAddress`; for
`n = 1500000000000000000` the balance is the decimal 1.5. -/
theorem GetBalance_ETH (keccak256 : List UInt8 → List UInt8) (ec : EthereumClient)
    (s : String) (a : Address) (n : Int)
    (hs : ValidateAddress s = Except.ok a) (hn : ec.client.BalanceAt a = Except.ok n) :
    ∃ bal, decimal.FromWei n = some bal ∧
      GetBalance keccak256 ec s none = Outcome.ok
        { Address := a.Hex keccak256, TokenAddress := none, Balance := bal, Decimals := 18,
          Symbol := some "ETH", Name := some "Ethereum", IsETH := true } ∧
      (n = 1500000000000000000 → bal = ⟨15000000000000000, -16⟩ ∧ bal.toRat = 3 / 2) := by
  obtain ⟨bal, hb⟩ := decimal.FromWei_total n
  refine ⟨bal, hb, GetBalance_native keccak256 ec s a n bal hs hn hb, ?_⟩
  intro h15
  subst h15
  have h2 : decimal.FromWei 1500000000000000000 = some ⟨15000000000000000, -16⟩ := by
    rw [decimal.FromWei_nonneg _ (by norm_num)]
    norm_num
  rw [h2] at hb
  have hb2 : bal = ⟨15000000000000000, -16⟩ := (Option.some.inj hb).symm
  refine ⟨hb2, ?_⟩
  rw [hb2]
  unfold Decimal.toRat
  norm_num

/-- C18 at the example of the specification with an address of 40 digits,
`0x000000000000000000000000000000000000dEaD`, and the node answering the
balance 1500000000000000000: the answer is 1.5 with 18 decimals for the
native asset. -/
theorem GetBalance_ETH_witness :
    ValidateAddress "0x000000000000000000000000000000000000dEaD"
      = Except.ok (HexToAddress "0x000000000000000000000000000000000000dEaD") ∧
    ∀ keccak256 : List UInt8 → List UInt8,
      ∃ bal, decimal.FromWei 1500000000000000000 = some bal ∧
        GetBalance keccak256 sampleClient "0x000000000000000000000000000000000000dEaD" none
          = Outcome.ok
          { Address := (HexToAddress "0x000000000000000000000000000000000000dEaD").Hex
              keccak256,
            TokenAddress := none, Balance := bal, Decimals := 18,
            Symbol := some "ETH", Name := some "Ethereum", IsETH := true } ∧
        ((1500000000000000000 : Int) = 1500000000000000000 →
          bal = ⟨15000000000000000, -16⟩ ∧ bal.toRat = 3 / 2) :=
  ⟨rfl, fun keccak256 =>
    GetBalance_ETH keccak256 sampleClient "0x000000000000000000000000000000000000dEaD"
      (HexToAddress "0x000000000000000000000000000000000000dEaD") 1500000000000000000 rfl rfl⟩

end ethereum

/-! ## Hex rendering of a validated address -/

namespace common

set_option maxRecDepth 100000 in
theorem hex_pair_fin : ∀ p : Fin 256, isHexCharacter ⟨⟨p⟩⟩ = true →
    ∀ q : Fin 256, isHexCharacter ⟨⟨q⟩⟩ = true →
      ((fromHexChar ⟨⟨p⟩⟩).bind fun a => (fromHexChar ⟨⟨q⟩⟩).map fun b =>
        (hexDigit ((a * 16 + b) >>> 4), hexDigit ((a * 16 + b) &&& 15)))
      = some (lowerByte ⟨⟨p⟩⟩, lowerByte ⟨⟨q⟩⟩) := by decide

/-- Decoding two hex digits to a byte and encoding the byte gives the two
digits in lower case. -/
theorem hex_pair (p q : UInt8) (hp : isHexCharacter p = true) (hq : isHexCharacter q = true) :
    ∃ a b, fromHexChar p = some a ∧ fromHexChar q = some b ∧
      hexDigit ((a * 16 + b) >>> 4) = lowerByte p ∧
      hexDigit ((a * 16 + b) &&& 15) = lowerByte q := by
  have h := hex_pair_fin p.toBitVec.toFin hp q.toBitVec.toFin hq
  change ((fromHexChar p).bind fun a => (fromHexChar q).map fun b =>
        (hexDigit ((a * 16 + b) >>> 4), hexDigit ((a * 16 + b) &&& 15)))
      = some (lowerByte p, lowerByte q) at h
  cases ha : fromHexChar p with
  | none => rw [ha] at h; cases h
  | some a =>
    cases hb : fromHexChar q with
    | none => rw [ha, hb] at h; cases h
    | some b =>
      rw [ha, hb] at h
      simp only [Option.some_bind, Option.map_some', Option.some.injEq, Prod.mk.injEq] at h
      exact ⟨a, b, rfl, rfl, h.1, h.2⟩

/-- Decoding `2 * k` hex digits gives `k` bytes whose encoding is the digits in
lower case. -/
theorem hexEncode_Hex2Bytes : ∀ (k : Nat) (d : List UInt8), d.length = 2 * k →
    d.all isHexCharacter = true →
    hexEncode (Hex2Bytes d) = d.map lowerByte ∧ (Hex2Bytes d).length = k
  | 0, d, hl, _ => by
    have : d = [] := List.length_eq_zero.1 (by omega)
    subst this
    exact ⟨rfl, rfl⟩
  | k + 1, d, hl, hall => by
    match d, hl, hall with
    | [], hl, _ => simp at hl
    | [_], hl, _ => simp at hl; omega
    | p :: q :: rest, hl, hall =>
      simp only [List.all_cons, Bool.and_eq_true] at hall
      obtain ⟨hp, hq, hr⟩ := hall
      obtain ⟨a, b, ha, hb, h1, h2⟩ := hex_pair p q hp hq
      have hlen : rest.length = 2 * k := by
        simp only [List.length_cons] at hl
        omega
      obtain ⟨ih1, ih2⟩ := hexEncode_Hex2Bytes k rest hlen hr
      have hstep : Hex2Bytes (p :: q :: rest) = (a * 16 + b) :: Hex2Bytes rest := by
        rw [Hex2Bytes, ha, hb]
      rw [hstep]
      constructor
      · rw [hexEncode, h1, h2, ih1]
        rfl
      · rw [List.length_cons, ih2]

end common

namespace common

set_option maxRecDepth 100000 in
theorem checksum_case_fin : ∀ p : Fin 256, isHexCharacter ⟨⟨p⟩⟩ = true → ∀ t : Bool,
    lowerByte (if (decide (lowerByte ⟨⟨p⟩⟩ > 57) && t) = true then lowerByte ⟨⟨p⟩⟩ - 32
      else lowerByte ⟨⟨p⟩⟩) = lowerByte ⟨⟨p⟩⟩ ∧
    (if (decide (lowerByte ⟨⟨p⟩⟩ > 57) && t) = true then lowerByte ⟨⟨p⟩⟩ - 32
      else lowerByte ⟨⟨p⟩⟩) < 128 := by decide

/-- Turning a lower-case hex digit to upper case, or leaving it, keeps its
lower case and keeps it an ASCII byte. -/
theorem checksum_case (p : UInt8) (hp : isHexCharacter p = true) (t : Bool) :
    lowerByte (if (decide (lowerByte p > 57) && t) = true then lowerByte p - 32
      else lowerByte p) = lowerByte p ∧
    (if (decide (lowerByte p > 57) && t) = true then lowerByte p - 32 else lowerByte p) < 128 :=
  checksum_case_fin p.toBitVec.toFin hp t

set_option maxRecDepth 100000 in
theorem utf8_ascii_fin : ∀ c : Fin 256, (⟨⟨c⟩⟩ : UInt8) < 128 →
    String.utf8EncodeChar (Char.ofNat (UInt8.toNat ⟨⟨c⟩⟩)) = [⟨⟨c⟩⟩] := by decide

/-- The character made of an ASCII byte is encoded as that byte. -/
theorem utf8_ascii (c : UInt8) (hc : c < 128) :
    String.utf8EncodeChar (Char.ofNat c.toNat) = [c] :=
  utf8_ascii_fin c.toBitVec.toFin hc

/-- The bytes of the string made of ASCII bytes are those bytes. -/
theorem bytesOf_stringOf : ∀ b : List UInt8, (∀ c ∈ b, c < 128) → bytesOf (stringOf b) = b
  | [], _ => rfl
  | c :: rest, h => by
    have ih := bytesOf_stringOf rest fun x hx => h x (List.mem_cons_of_mem _ hx)
    unfold bytesOf stringOf at *
    simp only [List.map_cons, List.flatMap_cons]
    rw [utf8_ascii c (h c (List.mem_cons_self _ _)), ih]
    rfl

/-- Mapping over an enumerated list with a function that, up to `H`, returns
the element. -/
theorem map_enumFrom_pointwise (G : Nat × UInt8 → UInt8) (H : UInt8 → UInt8)
    (P : UInt8 → Prop) (hG : ∀ j c, P c → H (G (j, c)) = c ∧ G (j, c) < 128) :
    ∀ (L : List UInt8) (n : Nat), (∀ c ∈ L, P c) →
      ((L.enumFrom n).map G).map H = L ∧ ∀ x ∈ (L.enumFrom n).map G, x < 128
  | [], _, _ => ⟨rfl, by simp⟩
  | c :: rest, n, h => by
    obtain ⟨ih1, ih2⟩ := map_enumFrom_pointwise G H P hG rest (n + 1)
      fun x hx => h x (List.mem_cons_of_mem _ hx)
    obtain ⟨g1, g2⟩ := hG n c (h c (List.mem_cons_self _ _))
    constructor
    · simp only [List.enumFrom_cons, List.map_cons, g1, ih1]
    · intro x hx
      simp only [List.enumFrom_cons, List.map_cons, List.mem_cons] at hx
      rcases hx with hx | hx
      · rw [hx]; exact g2
      · exact ih2 x hx

end common

namespace common

/-- The checksummed rendering of the address decoded from 40 hex digits `d`:
ASCII bytes which in lower case are `0x` followed by `d` in lower case. -/
theorem checksumHex_lower (keccak256 : List UInt8 → List UInt8) (d : List UInt8)
    (hd : d.length = 40) (hall : d.all isHexCharacter = true) :
    ((Address.mk (Hex2Bytes d)).checksumHex keccak256).map lowerByte
        = 48 :: 120 :: d.map lowerByte ∧
    ∀ x ∈ (Address.mk (Hex2Bytes d)).checksumHex keccak256, x < 128 := by
  obtain ⟨henc, _⟩ := hexEncode_Hex2Bytes 20 d hd hall
  have hbuf : (Address.mk (Hex2Bytes d)).hex = 48 :: 120 :: d.map lowerByte := by
    unfold Address.hex
    rw [henc]
    rfl
  have hP : ∀ c ∈ d.map lowerByte, ∃ p, isHexCharacter p = true ∧ c = lowerByte p := by
    intro c hc
    obtain ⟨p, hp, rfl⟩ := List.mem_map.1 hc
    exact ⟨p, List.all_eq_true.1 hall p hp, rfl⟩
  have hmap := map_enumFrom_pointwise
    (fun jc : Nat × UInt8 =>
      if (decide (jc.2 > 57) && decide
          ((if jc.1 % 2 = 0 then (keccak256 (d.map lowerByte)).getD (jc.1 / 2) 0 >>> 4
            else (keccak256 (d.map lowerByte)).getD (jc.1 / 2) 0 &&& 15) > 7)) = true
      then jc.2 - 32 else jc.2)
    lowerByte (fun c => ∃ p, isHexCharacter p = true ∧ c = lowerByte p)
    (by
      rintro j c ⟨p, hp, rfl⟩
      exact checksum_case p hp _)
    (d.map lowerByte) 0 hP
  unfold Address.checksumHex
  simp only [hbuf, List.drop_succ_cons, List.drop_zero, List.take_succ_cons, List.take_zero,
    List.enum]
  constructor
  · rw [List.map_append, hmap.1]
    rfl
  · intro x hx
    rcases List.mem_append.1 hx with hx | hx
    · simp only [List.mem_cons, List.mem_singleton, List.not_mem_nil, or_false] at hx
      rcases hx with hx | hx <;> subst hx <;> decide
    · exact hmap.2 x hx

/-- The address `HexToAddress` returns for a valid address string holds the
bytes decoded from its 40 digits. -/
theorem HexToAddress_of_valid (s : String) (h : IsHexAddress s = true) :
    ((if has0xPrefix (bytesOf s) then (bytesOf s).drop 2 else bytesOf s).length = 40 ∧
      (if has0xPrefix (bytesOf s) then (bytesOf s).drop 2 else bytesOf s).all isHexCharacter
        = true) ∧
    HexToAddress s
      = Address.mk (Hex2Bytes (if has0xPrefix (bytesOf s) then (bytesOf s).drop 2
          else bytesOf s)) := by
  unfold IsHexAddress at h
  simp only [Bool.and_eq_true, beq_iff_eq] at h
  obtain ⟨hl, hx⟩ := h
  have hl40 : (if has0xPrefix (bytesOf s) then (bytesOf s).drop 2 else bytesOf s).length
      = 40 := hl
  rw [isHex_of_length_forty _ hl40] at hx
  refine ⟨⟨hl40, hx⟩, ?_⟩
  obtain ⟨_, hlen⟩ := hexEncode_Hex2Bytes 20 _ hl40 hx
  have hF : FromHex (bytesOf s)
      = Hex2Bytes (if has0xPrefix (bytesOf s) then (bytesOf s).drop 2 else bytesOf s) := by
    unfold FromHex
    simp only [hl40]
    rfl
  unfold HexToAddress BytesToAddress
  rw [hF]
  generalize Hex2Bytes (if has0xPrefix (bytesOf s) then (bytesOf s).drop 2 else bytesOf s)
    = B at hlen ⊢
  simp [hlen, AddressLength]

end common

namespace ethereum

open common

/-- What `ValidateAddress` returns when it accepts. -/
theorem ValidateAddress_ok (s : String) (a : Address) (h : ValidateAddress s = Except.ok a) :
    IsHexAddress s = true ∧ a = HexToAddress s := by
  unfold ValidateAddress at h
  cases hv : IsHexAddress s
  · rw [hv] at h
    cases h
  · rw [hv] at h
    simp only [Bool.not_true, Bool.false_eq_true, if_false, Except.ok.injEq] at h
    exact ⟨rfl, h.symm⟩

/-- The rendering of a validated address compared with the string it was
read from, ignoring case: equal when the string carries the `0x` or `0X`
prefix; otherwise equal to the string with `0x` put in front, and different
from the string itself. -/
theorem Hex_of_valid (keccak256 : List UInt8 → List UInt8) (s : String)
    (h : IsHexAddress s = true) :
    (has0xPrefix (bytesOf s) = true →
      equalIgnoringCase ((HexToAddress s).Hex keccak256) s = true) ∧
    (has0xPrefix (bytesOf s) = false →
      equalIgnoringCase ((HexToAddress s).Hex keccak256) ("0x" ++ s) = true ∧
      equalIgnoringCase ((HexToAddress s).Hex keccak256) s = false) := by
  obtain ⟨⟨hl, hall⟩, ha⟩ := HexToAddress_of_valid s h
  obtain ⟨hlow, hascii⟩ := checksumHex_lower keccak256 _ hl hall
  have hbytes : (bytesOf ((HexToAddress s).Hex keccak256)).map lowerByte
      = 48 :: 120 :: (if has0xPrefix (bytesOf s) then (bytesOf s).drop 2
          else bytesOf s).map lowerByte := by
    rw [ha]
    unfold Address.Hex
    rw [bytesOf_stringOf _ hascii, hlow]
  unfold equalIgnoringCase
  rw [hbytes]
  constructor
  · intro hp
    rw [if_pos hp]
    match hb : bytesOf s, hp with
    | [], hp => simp [has0xPrefix] at hp
    | [_], hp => simp [has0xPrefix] at hp
    | x :: c :: rest, hp =>
      simp only [has0xPrefix, Bool.and_eq_true, Bool.or_eq_true, beq_iff_eq] at hp
      obtain ⟨hx, hc⟩ := hp
      subst hx
      rcases hc with hc | hc <;> subst hc <;>
        simp only [List.drop_succ_cons, List.drop_zero, List.map_cons] <;>
        exact beq_self_eq_true _
  · intro hp
    have hp2 : ¬ has0xPrefix (bytesOf s) = true := by simp [hp]
    rw [if_neg hp2] at hl ⊢
    constructor
    · have : bytesOf ("0x" ++ s) = 48 :: 120 :: bytesOf s := by
        unfold bytesOf
        rw [String.data_append, List.flatMap_append]
        rfl
      rw [this]
      exact beq_self_eq_true _
    · apply beq_eq_false_iff_ne.2
      intro he
      have := congrArg List.length he
      simp only [List.length_cons, List.length_map, hl] at this
      omega

/-- C20, counterexample: `ValidateAddress` accepts the 40 hex digits of the
test address written without prefix, and the rendering of the returned
address, which starts with `0x`, is not equal to that input even when letter
case is ignored, whatever the hash function. -/
theorem ValidateAddress_Hex_counterexample :
    ValidateAddress "742d35Cc6634C0532925a3b8D7a2a5c4A7A6A5a5"
      = Except.ok (HexToAddress "742d35Cc6634C0532925a3b8D7a2a5c4A7A6A5a5") ∧
    ¬ ∃ keccak256, equalIgnoringCase
        ((HexToAddress "742d35Cc6634C0532925a3b8D7a2a5c4A7A6A5a5").Hex keccak256)
        "742d35Cc6634C0532925a3b8D7a2a5c4A7A6A5a5" = true := by
  refine ⟨rfl, ?_⟩
  rintro ⟨keccak256, h⟩
  have h2 := ((Hex_of_valid keccak256 "742d35Cc6634C0532925a3b8D7a2a5c4A7A6A5a5" rfl).2 rfl).2
  rw [h2] at h
  cases h

/-- C20, amended: for every string `s` that `ValidateAddress` accepts, the hex
rendering of the returned address equals, ignoring letter case, the string
`s` when `s` carries the `0x` or `0X` prefix, and the string `0x` followed by
`s` when it carries none (then it differs from `s` itself); this holds
whatever the hash function of the checksum returns. -/
theorem ValidateAddress_Hex (keccak256 : List UInt8 → List UInt8) (s : String) (a : Address)
    (h : ValidateAddress s = Except.ok a) :
    (has0xPrefix (bytesOf s) = true → equalIgnoringCase (a.Hex keccak256) s = true) ∧
    (has0xPrefix (bytesOf s) = false →
      equalIgnoringCase (a.Hex keccak256) ("0x" ++ s) = true ∧
      equalIgnoringCase (a.Hex keccak256) s = false) := by
  obtain ⟨hv, rfl⟩ := ValidateAddress_ok s a h
  exact Hex_of_valid keccak256 s hv

/-- C20 at the address of the test, `0x742d35Cc6634C0532925a3b8D7a2a5c4A7A6A5a5`. -/
theorem ValidateAddress_Hex_witness :
    ValidateAddress "0x742d35Cc6634C0532925a3b8D7a2a5c4A7A6A5a5"
      = Except.ok (HexToAddress "0x742d35Cc6634C0532925a3b8D7a2a5c4A7A6A5a5") ∧
    ∀ keccak256, equalIgnoringCase
      ((HexToAddress "0x742d35Cc6634C0532925a3b8D7a2a5c4A7A6A5a5").Hex keccak256)
      "0x742d35Cc6634C0532925a3b8D7a2a5c4A7A6A5a5" = true :=
  ⟨rfl, fun keccak256 =>
    (ValidateAddress_Hex keccak256 "0x742d35Cc6634C0532925a3b8D7a2a5c4A7A6A5a5"
      (HexToAddress "0x742d35Cc6634C0532925a3b8D7a2a5c4A7A6A5a5") rfl).1 rfl⟩

end ethereum

/-! ## Message routing -/

namespace mcp

open ethereum

/-- The response to a method the server does not have. -/
theorem handleMessage_default (ext : Externals) (s : MCPServer) (msg : MCPMessage)
    (h1 : msg.Method ≠ "initialize") (h2 : msg.Method ≠ "tools/list")
    (h3 : msg.Method ≠ "tools/call") (h4 : msg.Method ≠ "notifications/canceled") :
    s.handleMessage ext msg = some
      { s with output := s.output ++
        [{ JSONRPC := "2.0", ID := msg.ID, Method := "", Params := .json .null,
           Result := none,
           Error := some { Code := -32601, Message := "Method not found", Data := none } }] } := by
  unfold MCPServer.handleMessage MCPServer.sendMessage
  rw [if_neg h1, if_neg h2, if_neg h3, if_neg h4]

/-- C15: for every inbound message whose method is none of `initialize`,
`tools/list`, `tools/call` and `notifications/canceled`, `handleMessage`
returns having written exactly one message to the output: an error with code
-32601 and message `Method not found`, no result, `jsonrpc` `2.0` and the id
of the request. -/
theorem handleMessage_unknown_method (ext : Externals) (s : MCPServer) (msg : MCPMessage)
    (h1 : msg.Method ≠ "initialize") (h2 : msg.Method ≠ "tools/list")
    (h3 : msg.Method ≠ "tools/call") (h4 : msg.Method ≠ "notifications/canceled") :
    ∃ s1 response err, s.handleMessage ext msg = some s1 ∧
      s1.output = s.output ++ [response] ∧
      response.JSONRPC = "2.0" ∧ response.ID = msg.ID ∧ response.Result = none ∧
      response.Error = some err ∧ err.Code = -32601 ∧ err.Message = "Method not found" :=
  ⟨_, _, _, handleMessage_default ext s msg h1 h2 h3 h4, rfl, rfl, rfl, rfl, rfl, rfl, rfl⟩

/-- C15 at a request for the method `resources/list`. -/
theorem handleMessage_unknown_method_witness :
    sampleUnknownRequest.Method ≠ "initialize" ∧
    ∀ ext : Externals, ∃ s1 response err,
      sampleServer.handleMessage ext sampleUnknownRequest = some s1 ∧
      s1.output = sampleServer.output ++ [response] ∧
      response.JSONRPC = "2.0" ∧ response.ID = sampleUnknownRequest.ID ∧
      response.Result = none ∧
      response.Error = some err ∧ err.Code = -32601 ∧ err.Message = "Method not found" :=
  ⟨by decide, fun ext =>
    handleMessage_unknown_method ext sampleServer sampleUnknownRequest
      (by decide) (by decide) (by decide) (by decide)⟩

end mcp

namespace mcp

open ethereum

/-- C16, counterexample: the notification `notifications/initialized`, which
carries no id, is answered: `handleMessage` writes one message to the output,
the error -32601 `Method not found` with no id. -/
theorem handleMessage_notification_counterexample :
    sampleNotification.ID = Json.null ∧ sampleServer.output = [] ∧
    ∀ ext : Externals, sampleServer.handleMessage ext sampleNotification = some
      { sampleServer with output :=
        [{ JSONRPC := "2.0", ID := Json.null, Method := "", Params := .json .null,
           Result := none,
           Error := some { Code := -32601, Message := "Method not found", Data := none } }] } :=
  ⟨rfl, rfl, fun ext =>
    handleMessage_default ext sampleServer sampleNotification
      (by decide) (by decide) (by decide) (by decide)⟩

/-- C16, amended: for every message with method `notifications/canceled`,
with or without an id, `handleMessage` returns without writing anything to the
output.  The id of a message is not looked at: a message without id whose
method is none of the four the server knows is answered with one message, the
error -32601, like a request. -/
theorem handleMessage_canceled (ext : Externals) (s : MCPServer) (msg : MCPMessage) :
    (msg.Method = "notifications/canceled" → s.handleMessage ext msg = some s) ∧
    (msg.ID = Json.null → msg.Method ≠ "initialize" → msg.Method ≠ "tools/list" →
      msg.Method ≠ "tools/call" → msg.Method ≠ "notifications/canceled" →
      ∃ s1 response, s.handleMessage ext msg = some s1 ∧
        s1.output = s.output ++ [response] ∧ response.ID = Json.null ∧
        response.Error
          = some { Code := -32601, Message := "Method not found", Data := none }) := by
  constructor
  · intro h
    unfold MCPServer.handleMessage
    rw [h]
    rfl
  · intro hid h1 h2 h3 h4
    refine ⟨_, _, handleMessage_default ext s msg h1 h2 h3 h4, rfl, hid, rfl⟩

end mcp

namespace mcp

open ethereum

/-- Every response `handleInitialize` returns has `jsonrpc` `2.0` and the id
of the request. -/
theorem handleInitialize_id (ext : Externals) (s : MCPServer) (msg r : MCPMessage)
    (h : s.handleInitialize ext msg = some r) :
    r.JSONRPC = "2.0" ∧ r.ID = msg.ID ∧ (r.Result.isSome = true ∨ r.Error.isSome = true) := by
  unfold MCPServer.handleInitialize at h
  split at h
  · cases h
  · split at h
    · cases h
      exact ⟨rfl, rfl, Or.inr rfl⟩
    · split at h
      · cases h
      · cases h
        exact ⟨rfl, rfl, Or.inl rfl⟩

/-- Every response `handleCallTool` returns has `jsonrpc` `2.0` and the id of
the request. -/
theorem handleCallTool_id (ext : Externals) (s : MCPServer) (msg r : MCPMessage)
    (h : s.handleCallTool ext msg = some r) :
    r.JSONRPC = "2.0" ∧ r.ID = msg.ID ∧ (r.Result.isSome = true ∨ r.Error.isSome = true) := by
  unfold MCPServer.handleCallTool at h
  split at h
  · cases h
  · split at h
    · cases h
      exact ⟨rfl, rfl, Or.inr rfl⟩
    · split at h
      · cases h
      · cases h
        exact ⟨rfl, rfl, Or.inr rfl⟩
      · cases h
        exact ⟨rfl, rfl, Or.inl rfl⟩

/-- Whenever `handleMessage` returns, it has written at most one message to the
output, and a message it has written carries `jsonrpc` `2.0` and an id equal
to the id of the message handled, whether it holds a result or an error. -/
theorem handleMessage_written_id (ext : Externals) (s s1 : MCPServer) (msg : MCPMessage)
    (h : s.handleMessage ext msg = some s1) :
    ∃ rs, s1.output = s.output ++ rs ∧ rs.length ≤ 1 ∧
      ∀ r ∈ rs, r.JSONRPC = "2.0" ∧ r.ID = msg.ID ∧
        (r.Result.isSome = true ∨ r.Error.isSome = true) := by
  unfold MCPServer.handleMessage at h
  split at h
  · cases hr : s.handleInitialize ext msg with
    | none => rw [hr] at h; cases h
    | some r =>
      rw [hr] at h
      cases h
      refine ⟨[r], rfl, by simp, ?_⟩
      intro x hx
      rw [List.mem_singleton.1 hx]
      exact handleInitialize_id ext s msg r hr
  · split at h
    · cases h
      refine ⟨[s.handleListTools msg], rfl, by simp, ?_⟩
      intro x hx
      rw [List.mem_singleton.1 hx]
      exact ⟨rfl, rfl, Or.inl rfl⟩
    · split at h
      · cases hr : s.handleCallTool ext msg with
        | none => rw [hr] at h; cases h
        | some r =>
          rw [hr] at h
          cases h
          refine ⟨[r], rfl, by simp, ?_⟩
          intro x hx
          rw [List.mem_singleton.1 hx]
          exact handleCallTool_id ext s msg r hr
      · split at h
        · cases h
          exact ⟨[], by simp, by simp, by simp⟩
        · cases h
          refine ⟨[_], rfl, by simp, ?_⟩
          intro x hx
          rw [List.mem_singleton.1 hx]
          exact ⟨rfl, rfl, Or.inr rfl⟩

/-- The response to `tools/list`: one message with the list of tools. -/
theorem handleMessage_list (ext : Externals) (s : MCPServer) (msg : MCPMessage)
    (h : msg.Method = "tools/list") :
    s.handleMessage ext msg = some
      { s with output := s.output ++
        [{ JSONRPC := "2.0", ID := msg.ID, Method := "", Params := .json .null,
           Result := some (.tools s.handler.tools), Error := none }] } := by
  unfold MCPServer.handleMessage
  rw [h]
  rfl

/-- A message whose params are a decoded JSON value and whose method is
`initialize` or `tools/call` makes `handleMessage` panic. -/
theorem handleMessage_decoded_panics (ext : Externals) (s : MCPServer) (msg : MCPMessage)
    (v : Json) (hp : msg.Params = ParamsValue.json v) :
    (msg.Method = "initialize" → s.handleMessage ext msg = none) ∧
    (msg.Method = "tools/call" → s.handleMessage ext msg = none) := by
  have h1 : s.handleInitialize ext msg = none := by
    unfold MCPServer.handleInitialize
    rw [hp]
  have h2 : s.handleCallTool ext msg = none := by
    unfold MCPServer.handleCallTool
    rw [hp]
  constructor
  · intro hm
    unfold MCPServer.handleMessage
    rw [if_pos hm, h1]
    rfl
  · intro hm
    unfold MCPServer.handleMessage
    rw [hm, h2]
    rfl

/-- C17, the defect: for a message read from the input stream, whose params
are a decoded JSON value, `handleMessage` writes exactly one response carrying
`jsonrpc` `2.0` and the id of the request when the method is `tools/list` (the
result with the tools) or is unknown (the error -32601), and every message it
ever writes carries `jsonrpc` `2.0` and the id of the message handled; but for
the methods `initialize` and `tools/call` it panics and writes nothing, so
these requests get no response carrying their id. -/
theorem handleMessage_stream_responses (ext : Externals) (s : MCPServer) (msg : MCPMessage)
    (v : Json) (hp : msg.Params = ParamsValue.json v) :
    (msg.Method = "initialize" → s.handleMessage ext msg = none) ∧
    (msg.Method = "tools/call" → s.handleMessage ext msg = none) ∧
    (msg.Method = "tools/list" → s.handleMessage ext msg = some
      { s with output := s.output ++
        [{ JSONRPC := "2.0", ID := msg.ID, Method := "", Params := .json .null,
           Result := some (.tools s.handler.tools), Error := none }] }) ∧
    (msg.Method ≠ "initialize" → msg.Method ≠ "tools/list" → msg.Method ≠ "tools/call" →
      msg.Method ≠ "notifications/canceled" → s.handleMessage ext msg = some
      { s with output := s.output ++
        [{ JSONRPC := "2.0", ID := msg.ID, Method := "", Params := .json .null,
           Result := none,
           Error := some { Code := -32601, Message := "Method not found",
                           Data := none } }] }) ∧
    (∀ s1, s.handleMessage ext msg = some s1 →
      ∃ rs, s1.output = s.output ++ rs ∧ rs.length ≤ 1 ∧
        ∀ r ∈ rs, r.JSONRPC = "2.0" ∧ r.ID = msg.ID ∧
          (r.Result.isSome = true ∨ r.Error.isSome = true)) :=
  ⟨(handleMessage_decoded_panics ext s msg v hp).1,
   (handleMessage_decoded_panics ext s msg v hp).2,
   handleMessage_list ext s msg,
   handleMessage_default ext s msg,
   fun s1 h => handleMessage_written_id ext s s1 msg h⟩

/-- C17 at the `get_balance` call with id 1 read from the stream, which gets
no response, and at the `tools/list` request with id 2, which gets exactly one
response, carrying the id 2. -/
theorem handleMessage_stream_responses_witness :
    sampleCallRequest.ID = Json.number "1" ∧ sampleListRequest.ID = Json.number "2" ∧
    sampleServer.output = [] ∧
    ∀ ext : Externals,
      sampleServer.handleMessage ext sampleCallRequest = none ∧
      sampleServer.handleMessage ext sampleListRequest = some
        { sampleServer with output :=
          [{ JSONRPC := "2.0", ID := Json.number "2", Method := "", Params := .json .null,
             Result := some (.tools sampleServer.handler.tools), Error := none }] } :=
  ⟨rfl, rfl, rfl, fun ext =>
    ⟨(handleMessage_stream_responses ext sampleServer sampleCallRequest _ rfl).2.1 rfl,
     (handleMessage_stream_responses ext sampleServer sampleListRequest _ rfl).2.2.1 rfl⟩⟩

end mcp

/-! ## Tool calls -/

namespace mcp

open ethereum

/-- What `handleCallTool` returns when the params of the message are raw
bytes: the error -32602 when they cannot be decoded, the error -32603 with the
text of the handler's error, or the result of the tool. -/
theorem handleCallTool_raw (ext : Externals) (s : MCPServer) (msg : MCPMessage)
    (bytes : List UInt8) (h : msg.Params = ParamsValue.raw bytes) :
    (∀ err, ext.UnmarshalCallToolParams bytes = Except.error err →
      s.handleCallTool ext msg = some
        { JSONRPC := "2.0", ID := msg.ID, Method := "", Params := .json .null, Result := none,
          Error := some { Code := -32602, Message := "Invalid params", Data := some err } }) ∧
    (∀ params err, ext.UnmarshalCallToolParams bytes = Except.ok params →
      s.handler.HandleCallTool ext params = Outcome.error err →
      s.handleCallTool ext msg = some
        { JSONRPC := "2.0", ID := msg.ID, Method := "", Params := .json .null, Result := none,
          Error := some { Code := -32603, Message := "Internal error", Data := some err } }) ∧
    (∀ params result, ext.UnmarshalCallToolParams bytes = Except.ok params →
      s.handler.HandleCallTool ext params = Outcome.ok result →
      s.handleCallTool ext msg = some
        { JSONRPC := "2.0", ID := msg.ID, Method := "", Params := .json .null,
          Result := some (.tool result), Error := none }) := by
  refine ⟨?_, ?_, ?_⟩
  · intro err he
    unfold MCPServer.handleCallTool
    simp only [h, he]
  · intro params err hp he
    unfold MCPServer.handleCallTool
    simp only [h, hp, he]
  · intro params result hp he
    unfold MCPServer.handleCallTool
    simp only [h, hp, he]

/-- C13, the defect: for every message whose params are a decoded JSON value,
which is what every message read from the input stream holds, the type
assertion of `handleCallTool` to raw bytes fails: `handleCallTool` panics and
returns no response, and so does `handleMessage` for a `tools/call`
request. -/
theorem handleCallTool_decoded_params (ext : Externals) (s : MCPServer) (msg : MCPMessage)
    (v : Json) (h : msg.Params = ParamsValue.json v) :
    s.handleCallTool ext msg = none ∧
    (msg.Method = "tools/call" → s.handleMessage ext msg = none) := by
  have h1 : s.handleCallTool ext msg = none := by
    unfold MCPServer.handleCallTool
    rw [h]
  refine ⟨h1, fun hm => ?_⟩
  unfold MCPServer.handleMessage
  rw [hm, h1]
  rfl

/-- C13 at a well-formed `get_balance` call read from the stream. -/
theorem handleCallTool_decoded_params_witness :
    sampleCallRequest.Method = "tools/call" ∧
    ∀ ext : Externals, sampleServer.handleCallTool ext sampleCallRequest = none ∧
      (sampleCallRequest.Method = "tools/call" →
        sampleServer.handleMessage ext sampleCallRequest = none) :=
  ⟨rfl, fun ext => handleCallTool_decoded_params ext sampleServer sampleCallRequest _ rfl⟩

/-- The default branch of `HandleCallTool`: for every name other than exactly
`get_balance`, `get_token_price` and `swap_tokens` it returns no result and
fails with the error `unknown tool: <name>`; and `handleCallTool`, for a
message whose raw params decode to such a call, makes of the failure the
error -32603 `Internal error` carrying that text, a code different from the
-32601 of an unknown method. -/
theorem HandleCallTool_default (ext : Externals) (h : MCPHandler) (params : CallToolParams)
    (h1 : params.Name ≠ "get_balance") (h2 : params.Name ≠ "get_token_price")
    (h3 : params.Name ≠ "swap_tokens") :
    h.HandleCallTool ext params = Outcome.error ("unknown tool: " ++ params.Name) ∧
    (∀ (s : MCPServer) (msg : MCPMessage) (bytes : List UInt8), s.handler = h →
      msg.Params = ParamsValue.raw bytes →
      ext.UnmarshalCallToolParams bytes = Except.ok params →
      ∃ r err, s.handleCallTool ext msg = some r ∧ r.ID = msg.ID ∧ r.Result = none ∧
        r.Error = some err ∧ err.Code = -32603 ∧ err.Code ≠ -32601 ∧
        err.Message = "Internal error" ∧
        err.Data = some ("unknown tool: " ++ params.Name)) := by
  have hu : h.HandleCallTool ext params = Outcome.error ("unknown tool: " ++ params.Name) := by
    unfold MCPHandler.HandleCallTool
    rw [if_neg h1, if_neg h2, if_neg h3]
  refine ⟨hu, ?_⟩
  intro s msg bytes hs hm hp
  subst hs
  exact ⟨_, _, (handleCallTool_raw ext s msg bytes hm).2.1 params _ hp hu, rfl, rfl, rfl, rfl,
    (show (-32603 : Int) ≠ -32601 by decide), rfl, rfl⟩

/-- C14, the defect: `HandleCallTool` dispatches by exact name, so for every
name other than exactly `get_balance`, `get_token_price` and `swap_tokens` it
returns no result and fails with the error `unknown tool: <name>`, which
`handleCallTool` would report as the error -32603 were the params raw bytes;
but for a `tools/call` request read from the input stream, whose params are
the decoded object naming such a tool, `handleCallTool` panics before it
reaches `HandleCallTool`: `handleMessage` writes nothing, and the failure is
reported with no code at all. -/
theorem unknown_tool_call_unreported (ext : Externals) (s : MCPServer) (msg : MCPMessage)
    (name : String) (arguments : Json)
    (h1 : name ≠ "get_balance") (h2 : name ≠ "get_token_price") (h3 : name ≠ "swap_tokens")
    (hp : msg.Params
      = ParamsValue.json (.obj [("name", .str name), ("arguments", arguments)])) :
    (∀ args, s.handler.HandleCallTool ext ⟨name, args⟩
      = Outcome.error ("unknown tool: " ++ name)) ∧
    s.handleCallTool ext msg = none ∧
    (msg.Method = "tools/call" → s.handleMessage ext msg = none) ∧
    (∀ (raw : MCPMessage) (bytes : List UInt8) (args : List (String × Json)),
      raw.Params = ParamsValue.raw bytes →
      ext.UnmarshalCallToolParams bytes = Except.ok ⟨name, args⟩ →
      ∃ r err, s.handleCallTool ext raw = some r ∧ r.ID = raw.ID ∧ r.Result = none ∧
        r.Error = some err ∧ err.Code = -32603 ∧ err.Code ≠ -32601 ∧
        err.Message = "Internal error" ∧ err.Data = some ("unknown tool: " ++ name)) := by
  refine ⟨fun args => (HandleCallTool_default ext s.handler ⟨name, args⟩ h1 h2 h3).1, ?_,
    (handleMessage_decoded_panics ext s msg _ hp).2, ?_⟩
  · unfold MCPServer.handleCallTool
    rw [hp]
  · intro raw bytes args hr hu
    exact (HandleCallTool_default ext s.handler ⟨name, args⟩ h1 h2 h3).2 s raw bytes rfl hr hu

/-- C14 at a call of `Get_Balance` read from the stream, which differs from
`get_balance` in case, and at the name `get_balance` followed by a blank. -/
theorem unknown_tool_call_unreported_witness :
    "Get_Balance" ≠ "get_balance" ∧ sampleUnknownToolCall.Method = "tools/call" ∧
    (∀ ext : Externals,
      sampleServer.handler.HandleCallTool ext ⟨"Get_Balance", []⟩
        = Outcome.error ("unknown tool: " ++ "Get_Balance") ∧
      sampleServer.handleCallTool ext sampleUnknownToolCall = none ∧
      sampleServer.handleMessage ext sampleUnknownToolCall = none) ∧
    (∃ r err, sampleServer.handleCallTool sampleExternals sampleRawCall = some r ∧
      r.ID = sampleRawCall.ID ∧ r.Result = none ∧
      r.Error = some err ∧ err.Code = -32603 ∧ err.Code ≠ -32601 ∧
      err.Message = "Internal error" ∧
      err.Data = some ("unknown tool: " ++ "Get_Balance")) ∧
    (∀ ext : Externals, sampleServer.handler.HandleCallTool ext ⟨"get_balance ", []⟩
      = Outcome.error ("unknown tool: " ++ "get_balance ")) :=
  ⟨by decide, rfl,
   fun ext =>
    ⟨(unknown_tool_call_unreported ext sampleServer sampleUnknownToolCall "Get_Balance"
        (.obj []) (by decide) (by decide) (by decide) rfl).1 [],
     (unknown_tool_call_unreported ext sampleServer sampleUnknownToolCall "Get_Balance"
        (.obj []) (by decide) (by decide) (by decide) rfl).2.1,
     (unknown_tool_call_unreported ext sampleServer sampleUnknownToolCall "Get_Balance"
        (.obj []) (by decide) (by decide) (by decide) rfl).2.2.1 rfl⟩,
   (unknown_tool_call_unreported sampleExternals sampleServer sampleUnknownToolCall
      "Get_Balance" (.obj []) (by decide) (by decide) (by decide) rfl).2.2.2
      sampleRawCall _ [] rfl rfl,
   fun ext =>
    (unknown_tool_call_unreported ext sampleServer
      { sampleUnknownToolCall with
        Params := .json (.obj [("name", .str "get_balance "), ("arguments", .obj [])]) }
      "get_balance " (.obj []) (by decide) (by decide) (by decide) rfl).1 []⟩

end mcp

/-! ## Domain failures of the tools -/

namespace ethereum

/-- The last step of `SwapTokens` turns an error of the simulation into a
failed quote: its outcome is never an error. -/
theorem quote_of_simulation (r : Outcome SwapResponse × List Call) (c0 : Call) (err : String) :
    (match r.1 with
      | .error e => (Outcome.ok (failedResponse e), c0 :: r.2)
      | .panic => (Outcome.panic, c0 :: r.2)
      | .ok result => (Outcome.ok result, c0 :: r.2)).1 ≠ Outcome.error err := by
  rcases r with ⟨o, t⟩
  cases o <;> simp

/-- `SwapTokens` never returns a Go error. -/
theorem SwapTokens_never_error (ec : EthereumClient) (req : SwapRequest) (err : String) :
    (SwapTokens ec req).1 ≠ Outcome.error err := by
  unfold SwapTokens
  split
  · simp
  · split
    · simp
    · exact quote_of_simulation _ _ _

end ethereum

namespace mcp

open ethereum

/-- An invalid address makes `handleGetBalance` return a result flagged as an
error, with the text of the error. -/
theorem handleGetBalance_invalid_address (ext : Externals) (h : MCPHandler)
    (args : List (String × Json)) (address err : String)
    (ha : argString args "address" = some address)
    (hv : ValidateAddress address = Except.error err) :
    h.handleGetBalance ext args = Outcome.ok
      { Content := [{ Type_ := "text", Text := "Error getting balance: " ++ err, Data := [] }],
        IsError := true } := by
  have hg : GetBalance ext.Keccak256 h.ethClient address (argString args "token_address")
      = Outcome.error err := by
    unfold GetBalance
    rw [hv]
  unfold MCPHandler.handleGetBalance
  simp only [ha, hg]

/-- A price that cannot be fetched makes `handleGetTokenPrice` return a result
flagged as an error, with the text of the error. -/
theorem handleGetTokenPrice_failure (ext : Externals) (h : MCPHandler)
    (args : List (String × Json)) (token err : String)
    (ha : argString args "token_identifier" = some token)
    (hv : GetTokenPrice ext h.ethClient token = Except.error err) :
    h.handleGetTokenPrice ext args = Outcome.ok
      { Content := [{ Type_ := "text", Text := "Error getting token price: " ++ err,
                      Data := [] }],
        IsError := true } := by
  unfold MCPHandler.handleGetTokenPrice
  simp only [ha, hv]

/-- C12, the defect: no result `handleSwapTokens` returns is flagged as an
error.  A quote that failed (amount 0, slippage out of range, unknown token,
gas retrieval failure) comes back from `SwapTokens` with a nil Go error, the
only case in which the handler sets `IsError`, so the result carries the text
`Swap simulation failed: ...` with `IsError = false`. -/
theorem handleSwapTokens_never_flags (ext : Externals) (h : MCPHandler)
    (args : List (String × Json)) (r : ToolResult)
    (hr : h.handleSwapTokens ext args = Outcome.ok r) : r.IsError = false := by
  unfold MCPHandler.handleSwapTokens at hr
  repeat' first | split at hr | dsimp only at hr
  all_goals first
    | (cases hr; done)
    | (cases hr; rfl)
    | (exfalso; rename_i hq; exact SwapTokens_never_error _ _ _ hq)

/-- C12 at the swap of 0 ETH to USDC: the quote has failed with
`amount must be positive`, and the result is not flagged as an error. -/
theorem handleSwapTokens_never_flags_witness :
    (SwapTokens sampleClient ⟨"ETH", "USDC", ⟨0, 0⟩, ⟨1, -2⟩, false⟩).1
      = Outcome.ok (failedResponse "amount must be positive") ∧
    sampleServer.handler.handleSwapTokens sampleExternals zeroSwapArguments = Outcome.ok
      { Content := [{ Type_ := "text",
                      Text := "Swap simulation failed: amount must be positive", Data := [] },
                    { Type_ := "text", Text := "quote", Data := [] }],
        IsError := false } ∧
    ({ Content := [{ Type_ := "text",
                     Text := "Swap simulation failed: amount must be positive", Data := [] },
                   { Type_ := "text", Text := "quote", Data := [] }],
       IsError := false } : ToolResult).IsError = false :=
  ⟨rfl, rfl,
    handleSwapTokens_never_flags sampleExternals sampleServer.handler zeroSwapArguments _ rfl⟩

end mcp

/-! ## The handshake -/

namespace mcp

open ethereum

/-- What `handleInitialize` returns when the params of the message are raw
bytes: the error -32602 when they cannot be decoded, a panic when the decoded
parameters have no `clientInfo`, and otherwise the result with protocol
version `2024-11-05` and the server's name. -/
theorem handleInitialize_raw (ext : Externals) (s : MCPServer) (msg : MCPMessage)
    (bytes : List UInt8) (h : msg.Params = ParamsValue.raw bytes) :
    (∀ err, ext.UnmarshalInitializeParams bytes = Except.error err →
      s.handleInitialize ext msg = some
        { JSONRPC := "2.0", ID := msg.ID, Method := "", Params := .json .null, Result := none,
          Error := some { Code := -32602, Message := "Invalid params", Data := some err } }) ∧
    (∀ params, ext.UnmarshalInitializeParams bytes = Except.ok params →
      params.ClientInfo = none → s.handleInitialize ext msg = none) ∧
    (∀ params info, ext.UnmarshalInitializeParams bytes = Except.ok params →
      params.ClientInfo = some info →
      s.handleInitialize ext msg = some
        { JSONRPC := "2.0", ID := msg.ID, Method := "", Params := .json .null,
          Result := some (.init
            { ProtocolVersion := "2024-11-05",
              Capabilities := .obj [("tools", .obj [("listChanged", .bool true)])],
              ServerInfo := some { Name := "Ethereum Trading MCP Server",
                                   Version := "1.0.0" } }),
          Error := none }) := by
  refine ⟨?_, ?_, ?_⟩
  · intro err he
    unfold MCPServer.handleInitialize
    simp only [h, he]
  · intro params hp hc
    unfold MCPServer.handleInitialize MCPHandler.HandleInitialize
    simp only [h, hp, hc]
  · intro params info hp hc
    unfold MCPServer.handleInitialize MCPHandler.HandleInitialize
    simp only [h, hp, hc]

/-- C26, the defect: for every handshake message whose params are a decoded
JSON value, which is what every message read from the input stream holds, the
type assertion of `handleInitialize` to raw bytes fails: `handleInitialize`
panics and returns no response, and so does `handleMessage`.  Were the params
raw bytes, parameters without `clientInfo` would still make the handler panic,
on the nil pointer it reads the client's name through. -/
theorem handleInitialize_decoded_params (ext : Externals) (s : MCPServer) (msg : MCPMessage)
    (v : Json) (h : msg.Params = ParamsValue.json v) :
    s.handleInitialize ext msg = none ∧
    (msg.Method = "initialize" → s.handleMessage ext msg = none) ∧
    (∀ (raw : MCPMessage) (bytes : List UInt8) (params : InitializeParams),
      raw.Params = ParamsValue.raw bytes →
      ext.UnmarshalInitializeParams bytes = Except.ok params →
      params.ClientInfo = none → s.handleInitialize ext raw = none) := by
  have h1 : s.handleInitialize ext msg = none := by
    unfold MCPServer.handleInitialize
    rw [h]
  refine ⟨h1, fun hm => ?_, ?_⟩
  · unfold MCPServer.handleMessage
    rw [if_pos hm, h1]
    rfl
  · intro raw bytes params hr hp hc
    exact (handleInitialize_raw ext s raw bytes hr).2.1 params hp hc

/-- C26 at a handshake read from the stream whose params are an object
without `clientInfo`, and at raw params that decode to parameters without
`clientInfo`. -/
theorem handleInitialize_decoded_params_witness :
    sampleHandshake.Method = "initialize" ∧
    (∀ ext : Externals, sampleServer.handleInitialize ext sampleHandshake = none ∧
      sampleServer.handleMessage ext sampleHandshake = none) ∧
    sampleServer.handleInitialize bareHandshakeExternals sampleRawHandshake = none :=
  ⟨rfl,
   fun ext =>
    ⟨(handleInitialize_decoded_params ext sampleServer sampleHandshake _ rfl).1,
     (handleInitialize_decoded_params ext sampleServer sampleHandshake _ rfl).2.1 rfl⟩,
   (handleInitialize_decoded_params bareHandshakeExternals sampleServer sampleHandshake _
      rfl).2.2 sampleRawHandshake _ _ rfl rfl rfl⟩

end mcp

/-! ## Token balance query -/

namespace ethereum

open common

/-- C21: in `getERC20Balance`, taken over any caller, the query succeeds
whenever the caller is constructed and its `balanceOf` call succeeds, and
returns the `balanceOf` result; a failing `decimals` lookup gives 18 decimals,
a failing `symbol` lookup an absent symbol, a failing `name` lookup an absent
name, and a lookup that succeeds gives its answer; the query fails only when
the construction of the caller or the `balanceOf` call fails.  With the
caller of the repository, whose four calls never fail, the query always
returns balance 0, 18 decimals and empty symbol and name. -/
theorem getERC20Balance_degrades (newCaller : Address → Node → Except String ERC20Caller)
    (ec : EthereumClient) (address tokenAddress : Address) :
    (∀ token balance, newCaller tokenAddress ec.client = Except.ok token →
      token.BalanceOf address = Except.ok balance →
      ∃ decimals symbol name,
        getERC20BalanceWith newCaller ec address tokenAddress
          = Except.ok (balance, decimals, symbol, name) ∧
        (∀ e, token.Decimals = Except.error e → decimals = 18) ∧
        (∀ d, token.Decimals = Except.ok d → decimals = d) ∧
        (∀ e, token.Symbol = Except.error e → symbol = none) ∧
        (∀ x, token.Symbol = Except.ok x → symbol = some x) ∧
        (∀ e, token.Name = Except.error e → name = none) ∧
        (∀ x, token.Name = Except.ok x → name = some x)) ∧
    (∀ e, getERC20BalanceWith newCaller ec address tokenAddress = Except.error e →
      (∃ e1, newCaller tokenAddress ec.client = Except.error e1 ∧
        e = "failed to create token caller: " ++ e1) ∨
      (∃ token e1, newCaller tokenAddress ec.client = Except.ok token ∧
        token.BalanceOf address = Except.error e1 ∧
        e = "failed to get token balance: " ++ e1)) ∧
    getERC20Balance ec address tokenAddress
      = getERC20BalanceWith NewERC20Caller ec address tokenAddress ∧
    getERC20Balance ec address tokenAddress = Except.ok (0, 18, some "", some "") := by
  refine ⟨?_, ?_, rfl, rfl⟩
  · intro token balance hc hb
    refine ⟨(match token.Decimals with | .error _ => 18 | .ok d => d),
      (match token.Symbol with | .error _ => none | .ok symbol => some symbol),
      (match token.Name with | .error _ => none | .ok name => some name),
      ?_, ?_, ?_, ?_, ?_, ?_, ?_⟩
    · unfold getERC20BalanceWith
      simp only [hc, hb]
    · intro e he
      simp only [he]
    · intro d he
      simp only [he]
    · intro e he
      simp only [he]
    · intro x he
      simp only [he]
    · intro e he
      simp only [he]
    · intro x he
      simp only [he]
  · intro e he
    unfold getERC20BalanceWith at he
    cases hc : newCaller tokenAddress ec.client with
    | error e1 =>
      rw [hc] at he
      simp only [Except.error.injEq] at he
      exact Or.inl ⟨e1, rfl, he.symm⟩
    | ok token =>
      rw [hc] at he
      simp only at he
      cases hb : token.BalanceOf address with
      | error e1 =>
        rw [hb] at he
        simp only [Except.error.injEq] at he
        exact Or.inr ⟨token, e1, rfl, hb, he.symm⟩
      | ok balance =>
        rw [hb] at he
        cases he

/-- C21 at a token that answers only its balance, and at a token whose balance
lookup fails. -/
theorem getERC20Balance_degrades_witness :
    getERC20BalanceWith (fun _ _ => Except.ok bareToken) sampleClient Address.zero Address.zero
      = Except.ok (2500000, 18, none, none) ∧
    getERC20BalanceWith (fun _ _ => Except.ok brokenToken) sampleClient Address.zero
        Address.zero
      = Except.error "failed to get token balance: execution reverted" ∧
    ∃ decimals symbol name,
      getERC20BalanceWith (fun _ _ => Except.ok bareToken) sampleClient Address.zero
          Address.zero
        = Except.ok (2500000, decimals, symbol, name) ∧
      (∀ e, bareToken.Decimals = Except.error e → decimals = 18) ∧
      (∀ d, bareToken.Decimals = Except.ok d → decimals = d) ∧
      (∀ e, bareToken.Symbol = Except.error e → symbol = none) ∧
      (∀ x, bareToken.Symbol = Except.ok x → symbol = some x) ∧
      (∀ e, bareToken.Name = Except.error e → name = none) ∧
      (∀ x, bareToken.Name = Except.ok x → name = some x) :=
  ⟨rfl, rfl,
    (getERC20Balance_degrades (fun _ _ => Except.ok bareToken) sampleClient Address.zero
      Address.zero).1 bareToken 2500000 rfl rfl⟩

end ethereum

/-! ## Price feed ids -/

namespace ethereum

open common

/-- C22, the defect: for every entry of the static symbol table, with symbol
`s` and contract address `a`, `GetTokenPrice` at the identifier `a` fetches the
price of the symbol `UNKNOWN`, whose feed id is `UNKNOWN`, while at the
identifier `s` it fetches the price of `s`, whose feed id is another one: the
two identifiers of one token do not query the same feed id. -/
theorem GetTokenPrice_address_feed (ext : Externals) (ec : EthereumClient)
    (p : String × String) (hp : p ∈ symbolTable) :
    GetTokenPrice ext ec p.2 =
      (match fetchPriceFromCoinGecko ext "UNKNOWN" with
        | .error err => .error ("failed to fetch price: " ++ err)
        | .ok (priceUSD, priceETH) =>
          .ok { TokenAddress := (HexToAddress p.2).Hex ext.Keccak256, Symbol := "UNKNOWN",
                PriceUSD := priceUSD, PriceETH := priceETH, LastUpdated := ext.Now,
                Source := "coingecko" }) ∧
    GetTokenPrice ext ec p.1 =
      (match fetchPriceFromCoinGecko ext p.1 with
        | .error err => .error ("failed to fetch price: " ++ err)
        | .ok (priceUSD, priceETH) =>
          .ok { TokenAddress := (HexToAddress p.2).Hex ext.Keccak256, Symbol := p.1,
                PriceUSD := priceUSD, PriceETH := priceETH, LastUpdated := ext.Now,
                Source := "coingecko" }) ∧
    getCoinGeckoID "UNKNOWN" = "UNKNOWN" ∧ getCoinGeckoID p.1 ≠ getCoinGeckoID "UNKNOWN" := by
  simp only [symbolTable, List.mem_cons, List.mem_singleton, List.not_mem_nil, or_false] at hp
  rcases hp with rfl | rfl | rfl | rfl | rfl | rfl | rfl <;>
    exact ⟨rfl, rfl, rfl, by decide⟩

/-- C22 at USDC, with a price service that knows the feed id `usd-coin`: the
symbol gets its price, the contract address of the same token gets the error
that the coin `UNKNOWN` was not found. -/
theorem GetTokenPrice_address_feed_witness :
    GetTokenPrice usdcPriceExternals sampleClient "USDC" = Except.ok
      { TokenAddress := (HexToAddress "0xA0b86991c6218b36c1d19D4a2e9Eb0cE3606eB48").Hex
          usdcPriceExternals.Keccak256,
        Symbol := "USDC", PriceUSD := ⟨1, 0⟩, PriceETH := ⟨4, -4⟩, LastUpdated := 0,
        Source := "coingecko" } ∧
    GetTokenPrice usdcPriceExternals sampleClient "0xA0b86991c6218b36c1d19D4a2e9Eb0cE3606eB48"
      = Except.error "failed to fetch price: coin UNKNOWN not found" ∧
    getCoinGeckoID "USDC" = "usd-coin" ∧
    getCoinGeckoID "USDC" ≠ getCoinGeckoID "UNKNOWN" :=
  ⟨rfl, rfl, rfl,
    (GetTokenPrice_address_feed usdcPriceExternals sampleClient
      ("USDC", "0xA0b86991c6218b36c1d19D4a2e9Eb0cE3606eB48")
      (List.mem_cons_self _ _)).2.2.2⟩

end ethereum

/-! ## Defaults of the swap arguments -/

namespace mcp

open ethereum

/-- The handler `handleSwapTokens` is its two parts, one after the other. -/
theorem handleSwapTokens_parts (ext : Externals) (h : MCPHandler)
    (args : List (String × Json)) :
    h.handleSwapTokens ext args =
      (match swapRequestOfArguments args with
        | .error err => .error err
        | .ok req => swapToolResult ext (SwapTokens h.ethClient req).1) := by
  unfold MCPHandler.handleSwapTokens swapRequestOfArguments
  generalize argString args "from_token" = a1
  cases a1 with
  | none => rfl
  | some fromToken =>
    generalize argString args "to_token" = a2
    cases a2 with
    | none => rfl
    | some toToken =>
      generalize argString args "amount" = a3
      cases a3 with
      | none => rfl
      | some amountStr =>
        simp only
        generalize decimal.ParseDecimal amountStr = p1
        cases p1 with
        | error err => rfl
        | ok amount =>
          simp only
          generalize decimal.ParseDecimal
            (match argString args "slippage_tolerance" with
              | some s => s
              | none => "0.01") = p2
          cases p2 with
          | error err => rfl
          | ok slippage =>
            simp only
            unfold swapToolResult
            rfl

end mcp

namespace mcp

open ethereum

/-- The assertion `args[key].(string)` succeeds exactly on a string entry. -/
theorem argString_cases (args : List (String × Json)) (key : String) :
    (args.lookup key = none → argString args key = none) ∧
    (∀ s, args.lookup key = some (.str s) → argString args key = some s) ∧
    (∀ v, args.lookup key = some v → (∀ s, v ≠ .str s) → argString args key = none) := by
  unfold argString
  refine ⟨fun h => by rw [h], fun s h => by rw [h], fun v h hv => ?_⟩
  rw [h]
  cases v with
  | str s => exact absurd rfl (hv s)
  | _ => rfl

/-- The assertion `args[key].(bool)` succeeds exactly on a boolean entry. -/
theorem argBool_cases (args : List (String × Json)) (key : String) :
    (args.lookup key = none → argBool args key = none) ∧
    (∀ b, args.lookup key = some (.bool b) → argBool args key = some b) ∧
    (∀ v, args.lookup key = some v → (∀ b, v ≠ .bool b) → argBool args key = none) := by
  unfold argBool
  refine ⟨fun h => by rw [h], fun b h => by rw [h], fun v h hv => ?_⟩
  rw [h]
  cases v with
  | bool b => exact absurd rfl (hv b)
  | _ => rfl

/-- The slippage tolerance and the route of a request built from arguments. -/
theorem swapRequestOfArguments_ok (args : List (String × Json)) (req : SwapRequest)
    (h : swapRequestOfArguments args = Except.ok req) :
    decimal.ParseDecimal
        (match argString args "slippage_tolerance" with
          | some s => s
          | none => "0.01") = Except.ok req.SlippageTolerance ∧
    req.UseV3 = (match argBool args "use_v3" with
      | some v3 => v3
      | none => false) := by
  unfold swapRequestOfArguments at h
  split at h
  · cases h
  · split at h
    · cases h
    · split at h
      · cases h
      · split at h
        · cases h
        · dsimp only at h
          split at h
          · cases h
          · rename_i slippage hs
            simp only [Except.ok.injEq] at h
            subst h
            exact ⟨hs, rfl⟩

/-- C23, counterexample: with `slippage_tolerance` present as the JSON number
0.05 and `use_v3` present as the JSON string `true`, the engine receives the
default slippage 0.01 and the V2 route. -/
theorem handleSwapTokens_defaults_counterexample :
    mistypedSwapArguments.lookup "slippage_tolerance" = some (Json.number "0.05") ∧
    mistypedSwapArguments.lookup "use_v3" = some (Json.str "true") ∧
    swapRequestOfArguments mistypedSwapArguments = Except.ok
      { FromToken := "ETH", ToToken := "USDC", Amount := ⟨1, 0⟩,
        SlippageTolerance := ⟨1, -2⟩, UseV3 := false } ∧
    sampleServer.handler.handleSwapTokens sampleExternals mistypedSwapArguments
      = swapToolResult sampleExternals
          (SwapTokens sampleClient
            { FromToken := "ETH", ToToken := "USDC", Amount := ⟨1, 0⟩,
              SlippageTolerance := ⟨1, -2⟩, UseV3 := false }).1 := by
  refine ⟨rfl, rfl, rfl, ?_⟩
  rw [handleSwapTokens_parts]
  rfl

/-- C23, amended: `handleSwapTokens` passes to the engine the request built
from its arguments, in which the slippage tolerance is 0.01 when
`slippage_tolerance` is absent and the route is V2 when `use_v3` is absent; a
`slippage_tolerance` present as a string is parsed and passed on, and a
`use_v3` present as a boolean is passed on; an argument present with any other
JSON type is treated as absent, so the engine receives the default. -/
theorem handleSwapTokens_defaults (ext : Externals) (h : MCPHandler)
    (args : List (String × Json)) :
    h.handleSwapTokens ext args =
      (match swapRequestOfArguments args with
        | .error err => .error err
        | .ok req => swapToolResult ext (SwapTokens h.ethClient req).1) ∧
    ∀ req, swapRequestOfArguments args = Except.ok req →
      (args.lookup "slippage_tolerance" = none → req.SlippageTolerance = ⟨1, -2⟩) ∧
      (args.lookup "use_v3" = none → req.UseV3 = false) ∧
      (∀ s, args.lookup "slippage_tolerance" = some (.str s) →
        decimal.ParseDecimal s = Except.ok req.SlippageTolerance) ∧
      (∀ b, args.lookup "use_v3" = some (.bool b) → req.UseV3 = b) ∧
      (∀ v, args.lookup "slippage_tolerance" = some v → (∀ s, v ≠ .str s) →
        req.SlippageTolerance = ⟨1, -2⟩) ∧
      (∀ v, args.lookup "use_v3" = some v → (∀ b, v ≠ .bool b) → req.UseV3 = false) := by
  refine ⟨handleSwapTokens_parts ext h args, ?_⟩
  intro req hreq
  obtain ⟨hs, hu⟩ := swapRequestOfArguments_ok args req hreq
  obtain ⟨s1, s2, s3⟩ := argString_cases args "slippage_tolerance"
  obtain ⟨b1, b2, b3⟩ := argBool_cases args "use_v3"
  have hdefault : decimal.ParseDecimal "0.01" = Except.ok (⟨1, -2⟩ : Decimal) := rfl
  refine ⟨?_, ?_, ?_, ?_, ?_, ?_⟩
  · intro hl
    rw [s1 hl] at hs
    simp only [hdefault, Except.ok.injEq] at hs
    exact hs.symm
  · intro hl
    rw [hu, b1 hl]
  · intro s hl
    rw [s2 s hl] at hs
    exact hs
  · intro b hl
    rw [hu, b2 b hl]
  · intro v hl hv
    rw [s3 v hl hv] at hs
    simp only [hdefault, Except.ok.injEq] at hs
    exact hs.symm
  · intro v hl hv
    rw [hu, b3 v hl hv]

/-- C23 at arguments without the two optional entries, and at arguments that
supply a slippage tolerance of 0.05 and the V3 route. -/
theorem handleSwapTokens_defaults_witness :
    (swapRequestOfArguments zeroSwapArguments = Except.ok
        { FromToken := "ETH", ToToken := "USDC", Amount := ⟨0, 0⟩,
          SlippageTolerance := ⟨1, -2⟩, UseV3 := false } ∧
      ({ FromToken := "ETH", ToToken := "USDC", Amount := ⟨0, 0⟩,
         SlippageTolerance := ⟨1, -2⟩, UseV3 := false } : SwapRequest).SlippageTolerance
        = ⟨1, -2⟩) ∧
    (swapRequestOfArguments typedSwapArguments = Except.ok
        { FromToken := "ETH", ToToken := "USDC", Amount := ⟨1, 0⟩,
          SlippageTolerance := ⟨5, -2⟩, UseV3 := true } ∧
      decimal.ParseDecimal "0.05" = Except.ok
        ({ FromToken := "ETH", ToToken := "USDC", Amount := ⟨1, 0⟩,
           SlippageTolerance := ⟨5, -2⟩, UseV3 := true } : SwapRequest).SlippageTolerance ∧
      ({ FromToken := "ETH", ToToken := "USDC", Amount := ⟨1, 0⟩,
         SlippageTolerance := ⟨5, -2⟩, UseV3 := true } : SwapRequest).UseV3 = true) :=
  ⟨⟨rfl,
     ((handleSwapTokens_defaults sampleExternals sampleServer.handler zeroSwapArguments).2
       { FromToken := "ETH", ToToken := "USDC", Amount := ⟨0, 0⟩,
         SlippageTolerance := ⟨1, -2⟩, UseV3 := false } rfl).1 rfl⟩,
   ⟨rfl,
     ((handleSwapTokens_defaults sampleExternals sampleServer.handler typedSwapArguments).2
       { FromToken := "ETH", ToToken := "USDC", Amount := ⟨1, 0⟩,
         SlippageTolerance := ⟨5, -2⟩, UseV3 := true } rfl).2.2.1 "0.05" rfl,
     ((handleSwapTokens_defaults sampleExternals sampleServer.handler typedSwapArguments).2
       { FromToken := "ETH", ToToken := "USDC", Amount := ⟨1, 0⟩,
         SlippageTolerance := ⟨5, -2⟩, UseV3 := true } rfl).2.2.2.1 true rfl⟩⟩

end mcp

/-! ## The quote invariant and when `SwapTokens` returns -/

namespace Decimal

/-- The exponent of a difference is the smaller of the two exponents. -/
theorem Sub_exp (d d2 : Decimal) : (d.Sub d2).exp = min d.exp d2.exp := by
  unfold Sub
  exact (RescalePair_exp d d2).1

/-- The exponent of a sum is the smaller of the two exponents. -/
theorem Add_exp (d d2 : Decimal) : (d.Add d2).exp = min d.exp d2.exp := by
  unfold Add
  exact (RescalePair_exp d d2).1

/-- `Mul` panics when the sum of the exponents is below the `int32` range. -/
theorem Mul_eq_none_of_lt (d d2 : Decimal) (h : d.exp + d2.exp < MinInt32) :
    d.Mul d2 = none := by
  unfold Mul
  simp only [Or.inr h, if_true]

end Decimal

namespace decimal

open Decimal

/-- Every result of `FromWei` has exponent -16. -/
theorem FromWei_exp (n : Int) (d : Decimal) (h : FromWei n = some d) : d.exp = -16 := by
  unfold FromWei Decimal.Div Decimal.DivRound Decimal.QuoRem at h
  simp only [WeiPerETH, NewFromBigInt, DivisionPrecision, MaxInt32, MinInt32] at h
  norm_num at h
  split_ifs at h <;> simp only [Option.some.injEq] at h <;> subst h
  · rfl
  · rw [Sub_exp]
    rfl
  · rw [Add_exp]
    rfl

end decimal

namespace ethereum

open common

/-- The two output estimators return for every amount, a decimal with
exponent -18. -/
theorem estimate_total (f t : Address) (n : Int) :
    (∃ est, estimateV2Output f t n = some est ∧ est.exp = -18) ∧
    (∃ est, estimateV3Output f t n = some est ∧ est.exp = -18) := by
  obtain ⟨d, hd⟩ := decimal.FromWei_total n
  have he := decimal.FromWei_exp n d hd
  constructor
  · refine ⟨⟨95 * d.value, -2 + d.exp⟩, ?_, by rw [he]; rfl⟩
    unfold estimateV2Output
    rw [hd]
    exact Decimal.Mul_isSome _ _ (by rw [he]; decide) (by rw [he]; decide)
  · refine ⟨⟨97 * d.value, -2 + d.exp⟩, ?_, by rw [he]; rfl⟩
    unfold estimateV3Output
    rw [hd]
    exact Decimal.Mul_isSome _ _ (by rw [he]; decide) (by rw [he]; decide)

/-- The gas cost is computed for every gas estimate and gas price. -/
theorem calculateGasCostUSD_total (g : Nat) (p : Int) : ∃ c, calculateGasCostUSD g p = some c := by
  obtain ⟨d, hd⟩ := decimal.FromWei_total (p * toInt64 g)
  have he := decimal.FromWei_exp _ d hd
  refine ⟨⟨d.value * 2, d.exp + 3⟩, ?_⟩
  unfold calculateGasCostUSD
  simp only [hd]
  exact Decimal.Mul_isSome _ _ (by rw [he]; decide) (by rw [he]; decide)

/-- The minimum output is computed when the exponent of the slippage tolerance
is at least -2147483630. -/
theorem minOutput_total (est s : Decimal) (he : est.exp = -18) (hs : -2147483630 ≤ s.exp) :
    ∃ m, est.Mul ((Decimal.NewFromInt 1).Sub s) = some m := by
  have hx : ((Decimal.NewFromInt 1).Sub s).exp = min 0 s.exp := Decimal.Sub_exp _ _
  refine ⟨_, Decimal.Mul_isSome _ _ ?_ ?_⟩
  · rw [he, hx]
    unfold Decimal.MaxInt32
    omega
  · rw [he, hx]
    unfold Decimal.MinInt32
    omega

/-- The minimum output panics when the exponent of the slippage tolerance is
below -2147483630. -/
theorem minOutput_panics (est s : Decimal) (he : est.exp = -18) (hs : s.exp < -2147483630) :
    est.Mul ((Decimal.NewFromInt 1).Sub s) = none := by
  have hx : ((Decimal.NewFromInt 1).Sub s).exp = min 0 s.exp := Decimal.Sub_exp _ _
  apply Decimal.Mul_eq_none_of_lt
  rw [he, hx]
  unfold Decimal.MinInt32
  omega

end ethereum

namespace ethereum

open common

/-- The V2 simulation does not panic for an amount whose exponent is an
`int32` and a slippage tolerance whose exponent is at least -2147483630. -/
theorem simulateUniswapV2Swap_total (ec : EthereumClient) (req : SwapRequest) (f t : Address)
    (hA : req.Amount.WF) (hS : -2147483630 ≤ req.SlippageTolerance.exp) :
    (simulateUniswapV2Swap ec req f t).1 ≠ Outcome.panic := by
  obtain ⟨n, hn⟩ : ∃ n, decimal.ToWei req.Amount = some n := by
    rw [decimal.ToWei_eq _ hA]
    exact ⟨_, rfl⟩
  obtain ⟨⟨est, hest, hexp⟩, _⟩ := estimate_total f t n
  obtain ⟨m, hm⟩ := minOutput_total est req.SlippageTolerance hexp hS
  unfold simulateUniswapV2Swap
  simp only [hn, hest, hm]
  split
  · simp
  · rename_i g _
    split
    · simp
    · rename_i p _
      obtain ⟨c, hc⟩ := calculateGasCostUSD_total g p
      obtain ⟨d, hd⟩ := decimal.FromWei_total p
      simp only [hc, hd]
      simp

/-- The V3 simulation does not panic for an amount whose exponent is an
`int32` and a slippage tolerance whose exponent is at least -2147483630. -/
theorem simulateUniswapV3Swap_total (ec : EthereumClient) (req : SwapRequest) (f t : Address)
    (hA : req.Amount.WF) (hS : -2147483630 ≤ req.SlippageTolerance.exp) :
    (simulateUniswapV3Swap ec req f t).1 ≠ Outcome.panic := by
  obtain ⟨n, hn⟩ : ∃ n, decimal.ToWei req.Amount = some n := by
    rw [decimal.ToWei_eq _ hA]
    exact ⟨_, rfl⟩
  obtain ⟨_, ⟨est, hest, hexp⟩⟩ := estimate_total f t n
  obtain ⟨m, hm⟩ := minOutput_total est req.SlippageTolerance hexp hS
  unfold simulateUniswapV3Swap
  simp only [hn, hest, hm]
  split
  · simp
  · rename_i g _
    split
    · simp
    · rename_i p _
      obtain ⟨c, hc⟩ := calculateGasCostUSD_total g p
      obtain ⟨d, hd⟩ := decimal.FromWei_total p
      simp only [hc, hd]
      simp

/-- The V2 simulation panics when both gas calls succeed and the exponent of
the slippage tolerance is below -2147483630: the product for the minimum
output leaves the `int32` exponent range. -/
theorem simulateUniswapV2Swap_panics (ec : EthereumClient) (req : SwapRequest) (f t : Address)
    (g : Nat) (p : Int) (hA : req.Amount.WF) (hS : req.SlippageTolerance.exp < -2147483630)
    (hg : ec.client.EstimateGas ⟨ec.walletAddress,
      some (HexToAddress ec.config.UniswapV2Router), 0, []⟩ = Except.ok g)
    (hp : ec.client.SuggestGasPrice = Except.ok p) :
    (simulateUniswapV2Swap ec req f t).1 = Outcome.panic := by
  obtain ⟨n, hn⟩ : ∃ n, decimal.ToWei req.Amount = some n := by
    rw [decimal.ToWei_eq _ hA]
    exact ⟨_, rfl⟩
  obtain ⟨⟨est, hest, hexp⟩, _⟩ := estimate_total f t n
  have hm := minOutput_panics est req.SlippageTolerance hexp hS
  have hd2 : (if f = HexToAddress ec.config.WETHAddress then
        buildV2SwapExactETHForTokens n t
      else if t = HexToAddress ec.config.WETHAddress then
        buildV2SwapExactTokensForETH n f
      else buildV2SwapExactTokensForTokens n f t) = [] := by
    split
    · rfl
    · split <;> rfl
  unfold simulateUniswapV2Swap
  simp only [hn, hd2, EthereumClient.EstimateGas, EthereumClient.GetGasPrice, hg, hp, hest, hm]

end ethereum

namespace ethereum

open common

/-- A decimal `1 * 10 ^ e` with `e` at most -1 lies between 0 and one half. -/
theorem toRat_one_small (e : Int) (he : e ≤ -1) :
    0 ≤ (⟨1, e⟩ : Decimal).toRat ∧ (⟨1, e⟩ : Decimal).toRat ≤ 1 / 2 := by
  unfold Decimal.toRat
  have h0 : (0 : ℚ) < (10 : ℚ) ^ e := Decimal.ten_zpow_pos e
  have h1 : (10 : ℚ) ^ e ≤ (10 : ℚ) ^ (-1 : Int) :=
    zpow_le_zpow_right₀ (by norm_num) he
  have h2 : (10 : ℚ) ^ (-1 : Int) = 1 / 10 := by norm_num
  simp only [Int.cast_one, one_mul]
  constructor
  · exact h0.le
  · rw [h2] at h1
    linarith

/-- Every quote `SwapTokens` returns has `Success = true` exactly when its
`Error` is absent. -/
theorem SwapTokens_success_iff (ec : EthereumClient) (req : SwapRequest) (quote : SwapResponse)
    (h : (SwapTokens ec req).1 = Outcome.ok quote) :
    quote.Success = true ↔ quote.Error = none := by
  cases hv : validateSwapRequest req with
  | some msg =>
    unfold SwapTokens at h
    rw [hv] at h
    simp only [Outcome.ok.injEq] at h
    subst h
    simp [failedResponse]
  | none =>
    rcases SwapTokens_ok_cases ec req quote hv h with ⟨msg, rfl⟩ | ⟨f, t, ⟨_, h3⟩ | ⟨_, h2⟩⟩
    · simp [failedResponse]
    · obtain ⟨_, _, _, _, _, _, _, hs, he⟩ := simulateUniswapV3Swap_ok ec req f t quote h3
      simp [hs, he]
    · obtain ⟨_, _, _, _, _, _, _, hs, he⟩ := simulateUniswapV2Swap_ok ec req f t quote h2
      simp [hs, he]

/-- `SwapTokens` does not panic for an amount whose exponent is an `int32` and
a slippage tolerance whose exponent is at least -2147483630. -/
theorem SwapTokens_total (ec : EthereumClient) (req : SwapRequest)
    (hA : req.Amount.WF) (hS : -2147483630 ≤ req.SlippageTolerance.exp) :
    ∃ quote, (SwapTokens ec req).1 = Outcome.ok quote := by
  unfold SwapTokens
  cases hv : validateSwapRequest req with
  | some msg => exact ⟨_, rfl⟩
  | none =>
    simp only
    rcases hg : getTokenAddresses ec req.FromToken req.ToToken with msg | ⟨f, t⟩
    · exact ⟨_, rfl⟩
    · simp only
      cases hU : req.UseV3 with
      | true =>
        simp only [if_true]
        have hne := simulateUniswapV3Swap_total ec req f t hA hS
        rcases hr : (simulateUniswapV3Swap ec req f t).1 with q | msg | _
        · exact ⟨_, rfl⟩
        · exact ⟨_, rfl⟩
        · exact absurd hr hne
      | false =>
        simp only [Bool.false_eq_true, if_false]
        have hne := simulateUniswapV2Swap_total ec req f t hA hS
        rcases hr : (simulateUniswapV2Swap ec req f t).1 with q | msg | _
        · exact ⟨_, rfl⟩
        · exact ⟨_, rfl⟩
        · exact absurd hr hne

/-- `SwapTokens` panics when the request passes validation, its tokens
resolve, and the simulation of its route panics. -/
theorem SwapTokens_panics (ec : EthereumClient) (req : SwapRequest) (f t : Address)
    (hv : validateSwapRequest req = none)
    (hg : getTokenAddresses ec req.FromToken req.ToToken = Except.ok (f, t))
    (hU : req.UseV3 = false)
    (hs : (simulateUniswapV2Swap ec req f t).1 = Outcome.panic) :
    (SwapTokens ec req).1 = Outcome.panic := by
  unfold SwapTokens
  simp only [hv, hg, hU, Bool.false_eq_true, if_false, hs]

end ethereum

namespace mcp

open ethereum

/-- For a quote with `Success = true` exactly when `Error` is absent, the
second part of the swap handler does not panic, and a result it returns is not
flagged as an error. -/
theorem swapToolResult_ok (ext : Externals) (quote : SwapResponse)
    (hq : quote.Success = true ↔ quote.Error = none) :
    swapToolResult ext (Outcome.ok quote) ≠ Outcome.panic ∧
    ∀ r, swapToolResult ext (Outcome.ok quote) = Outcome.ok r → r.IsError = false := by
  unfold swapToolResult
  cases hm : ext.MarshalIndentSwap quote with
  | error err =>
    simp only [hm]
    exact ⟨by simp, fun r hr => by cases hr⟩
  | ok json =>
    cases hs : quote.Success with
    | true =>
      simp only [hm, hs, if_true]
      exact ⟨by simp, fun r hr => by cases hr; rfl⟩
    | false =>
      cases he : quote.Error with
      | none =>
        rw [hq.2 he] at hs
        cases hs
      | some e =>
        simp only [hm, hs, he, Bool.false_eq_true, if_false, Option.map_some']
        exact ⟨by simp, fun r hr => by cases hr; rfl⟩

end mcp

namespace ethereum

open common

/-- C25, counterexample: the swap of 1 ETH to USDC with the slippage tolerance
`1e-2147483640`, which `ParseDecimal` reads from that text, passes validation
and its tokens resolve, and with both gas calls answered `SwapTokens` panics:
the exponent of the minimum output would be below the `int32` range.  No quote
is returned, and `handleSwapTokens` panics with it. -/
theorem SwapTokens_panic_counterexample :
    mcp.swapRequestOfArguments mcp.tinySlippageArguments = Except.ok tinySlippageRequest ∧
    validateSwapRequest tinySlippageRequest = none ∧
    (SwapTokens sampleClient tinySlippageRequest).1 = Outcome.panic ∧
    mcp.sampleServer.handler.handleSwapTokens mcp.sampleExternals mcp.tinySlippageArguments
      = Outcome.panic := by
  have hv : validateSwapRequest tinySlippageRequest = none := by
    rw [validateSwapRequest_eq_none_iff]
    have hs := toRat_one_small (-2147483640) (by decide)
    refine ⟨?_, hs.1, hs.2, by decide, by decide⟩
    show (0 : ℚ) < (⟨1, 0⟩ : Decimal).toRat
    unfold Decimal.toRat
    norm_num
  have hsim : (simulateUniswapV2Swap sampleClient tinySlippageRequest
      (HexToAddress "0xC02aaA39b223FE8D0A0e5C4F27eAD9083C756Cc2")
      (HexToAddress "0xA0b86991c6218b36c1d19D4a2e9Eb0cE3606eB48")).1 = Outcome.panic :=
    simulateUniswapV2Swap_panics sampleClient tinySlippageRequest _ _ 150000 20000000000
      (by decide) (by decide) rfl rfl
  have hp : (SwapTokens sampleClient tinySlippageRequest).1 = Outcome.panic :=
    SwapTokens_panics sampleClient tinySlippageRequest _ _ hv rfl rfl hsim
  have hreq : mcp.swapRequestOfArguments mcp.tinySlippageArguments
      = Except.ok tinySlippageRequest := rfl
  refine ⟨hreq, hv, hp, ?_⟩
  rw [mcp.handleSwapTokens_parts, hreq]
  show mcp.swapToolResult mcp.sampleExternals (SwapTokens sampleClient tinySlippageRequest).1
    = Outcome.panic
  rw [hp]
  rfl

end ethereum

namespace ethereum

open common

/-- C25, amended: for every swap request, `SwapTokens` never returns a Go
error, and every quote it returns has `Success = true` exactly when `Error` is
absent; it returns a quote whenever the exponent of the slippage tolerance is
at least -2147483630 (the amount being a decimal of the library, with an
`int32` exponent).  Hence in `handleSwapTokens`, for the request built from the
arguments, no result is flagged through the branch for an error of
`SwapTokens`, and the handler panics only when `SwapTokens` itself panics,
never on reading the `Error` of a failed quote. -/
theorem SwapTokens_invariant (ec : EthereumClient) (req : SwapRequest) :
    (∀ err, (SwapTokens ec req).1 ≠ Outcome.error err) ∧
    (∀ quote, (SwapTokens ec req).1 = Outcome.ok quote →
      (quote.Success = true ↔ quote.Error = none)) ∧
    (req.Amount.WF → -2147483630 ≤ req.SlippageTolerance.exp →
      ∃ quote, (SwapTokens ec req).1 = Outcome.ok quote) ∧
    (∀ (ext : Externals) (h : mcp.MCPHandler) (args : List (String × mcp.Json)),
      h.ethClient = ec → mcp.swapRequestOfArguments args = Except.ok req →
      h.handleSwapTokens ext args = mcp.swapToolResult ext (SwapTokens ec req).1 ∧
      (∀ r, h.handleSwapTokens ext args = Outcome.ok r → r.IsError = false) ∧
      (h.handleSwapTokens ext args = Outcome.panic →
        (SwapTokens ec req).1 = Outcome.panic)) := by
  refine ⟨SwapTokens_never_error ec req, SwapTokens_success_iff ec req,
    SwapTokens_total ec req, ?_⟩
  intro ext h args hec hreq
  subst hec
  have hparts : h.handleSwapTokens ext args
      = mcp.swapToolResult ext (SwapTokens h.ethClient req).1 := by
    rw [mcp.handleSwapTokens_parts, hreq]
  refine ⟨hparts, ?_, ?_⟩
  · intro r hr
    rw [hparts] at hr
    rcases hq : (SwapTokens h.ethClient req).1 with quote | err | _
    · rw [hq] at hr
      exact (mcp.swapToolResult_ok ext quote
        (SwapTokens_success_iff h.ethClient req quote hq)).2 r hr
    · exact absurd hq (SwapTokens_never_error h.ethClient req err)
    · rw [hq] at hr
      cases hr
  · intro hp
    rw [hparts] at hp
    rcases hq : (SwapTokens h.ethClient req).1 with quote | err | _
    · rw [hq] at hp
      exact absurd hp (mcp.swapToolResult_ok ext quote
        (SwapTokens_success_iff h.ethClient req quote hq)).1
    · exact absurd hq (SwapTokens_never_error h.ethClient req err)
    · rfl

/-- C25 at the sample request, which returns the sample quote, and at the
swap of 0 ETH, which returns a failed quote. -/
theorem SwapTokens_invariant_witness :
    (SwapTokens sampleClient sampleRequest).1 = Outcome.ok sampleQuote ∧
    (sampleQuote.Success = true ↔ sampleQuote.Error = none) ∧
    (∃ quote, (SwapTokens sampleClient sampleRequest).1 = Outcome.ok quote) ∧
    ((failedResponse "amount must be positive").Success = true
      ↔ (failedResponse "amount must be positive").Error = none) :=
  ⟨by decide,
   (SwapTokens_invariant sampleClient sampleRequest).2.1 sampleQuote (by decide),
   (SwapTokens_invariant sampleClient sampleRequest).2.2.1 (by decide) (by decide),
   (SwapTokens_invariant sampleClient ⟨"ETH", "USDC", ⟨0, 0⟩, ⟨1, -2⟩, false⟩).2.1
     (failedResponse "amount must be positive") (by decide)⟩

end ethereum
